import Mathlib

/-!
# HealthMonitor: a shallow embedding of `src/file.cpp`

The firmware keeps all of its state in global variables and runs on a single
cooperative thread.  The embedding collects the globals in one `State` record
and turns every function of the source into a pure function on that record.

* `int` is modelled by `Int` (no claim depends on signed overflow),
* `unsigned long` is modelled by `Nat` with explicit reduction modulo `2 ^ 32`,
* a C array is a `List` holding one entry per slot; slots past the logical
  count keep whatever was stored there last, as they do in the source,
* reads of `millis()` and the result of the vendor beat detector are inputs,
* display, serial and HTTP output are not state; only the HTTP status code
  is kept as the return value of a handler,
* `saveUsers()` writes the file system only and leaves the globals alone;
  the document it writes is the value of `saveUsers`, and `loadUsers` takes
  the parsed content of `/users.json` as an input,
* the vendor routine `maxim_heart_rate_and_oxygen_saturation` is opaque: its
  outputs are an input of `calculateSpO2`,
* `loop` is modelled task by task: `loopClockTask` is its clock task,
  `loopSensorPass` its sensor part, `checkSleepNotifications` and
  `showMotivationalMessage` its periodic polls; the HTTP handlers run between
  the clock task and the sensor part, and `SysOp` lists all of them; `runOps`
  is a run of the system, any sequence of these operations.

An array access is modelled by `List.getD` and `List.set`.  The source guards
every read of `users[i]` by `i >= 0`; where it writes `users[userCount]` or
`records[recordCount]` the model agrees with the source as long as the index
lies inside the array, which the theorems state as hypotheses where they
depend on it.  A write outside the array is undefined behaviour in the source;
the model drops it and reads the zero-initialised value at such an index, so
a state with `userCount > MAX_USERS` stands for a store that counts more
accounts than its ten slots hold.
-/

namespace HealthMonitor

/-! ## Machine arithmetic -/

/-- Number of values of the target's 32-bit `unsigned long`. -/
def ULONG_MOD : Nat := 2 ^ 32

/-- Subtraction of two `unsigned long` values, wrapping modulo `2 ^ 32`. -/
def usub (a b : Nat) : Nat :=
  (a % ULONG_MOD + ULONG_MOD - b % ULONG_MOD) % ULONG_MOD

/-! ## Data model -/

/-- Capacity of the `users` array (`#define MAX_USERS 10`). -/
def MAX_USERS : Nat := 10

/-- Capacity of the `records` array of one user (`PulseRecord records[20]`). -/
def MAX_RECORDS : Nat := 20

/-- The source's `struct PulseRecord`. -/
structure PulseRecord where
  timestamp : Nat
  pulseValue : Int
  spo2Value : Int
deriving DecidableEq, Repr

instance : Inhabited PulseRecord := ⟨⟨0, 0, 0⟩⟩

/-- The source's `struct User`; `records` holds all 20 slots of the array. -/
structure User where
  username : String
  password : String
  bedtimeHour : Int
  bedtimeMinute : Int
  wakeupHour : Int
  wakeupMinute : Int
  records : List PulseRecord
  recordCount : Int
  isAdmin : Bool
deriving DecidableEq, Repr

/-- A zero-initialised `User`, the content of every slot of the global
`users` array at start-up. -/
def User.zero : User :=
  { username := "", password := "", bedtimeHour := 0, bedtimeMinute := 0,
    wakeupHour := 0, wakeupMinute := 0,
    records := List.replicate MAX_RECORDS default, recordCount := 0,
    isAdmin := false }

instance : Inhabited User := ⟨User.zero⟩

/-- The global variables of the firmware, with their initial values. -/
structure State where
  pulse : Int := 0
  spo2 : Int := 0
  beatDetected : Bool := false
  irValue : Nat := 0
  lastBeat : Nat := 0
  fingerPresent : Bool := false
  timeBase : Nat := 0
  alarmTriggered : Bool := false
  blinkState : Bool := true
  lastBlink : Nat := 0
  alarmHour : Int := -1
  alarmMinute : Int := -1
  users : List User := List.replicate MAX_USERS User.zero
  userCount : Int := 0
  currentUserIndex : Int := -1
  spo2BufferIndex : Nat := 0
  collectingData : Bool := false
  lastSampleTime : Nat := 0
  activeSensorReading : Bool := false
  seconds : Int := 0
  minutes : Int := 0
  hours : Int := 0
  lastSecondCheck : Nat := 0
  redBuffer : List Nat := List.replicate 100 0
  irBuffer : List Nat := List.replicate 100 0
  lastValueDecayTime : Nat := 0
  sleepNotificationShown : Bool := false
  wakeupNotificationShown : Bool := false
  lastSensorReadTime : Nat := 0
  lastRecordTime : Nat := 0
  lastMessageTime : Nat := 0
  currentMessageIndex : Int := 0
deriving DecidableEq, Repr

/-- The state right after the globals have been initialised. -/
def State.init : State := {}

/-! ## Signal acquisition -/

/-- The source's `readSensorData`.  `beat` is the result of the vendor routine
`checkForBeat(irValue)`; `t1` and `t2` are the two successive readings of
`millis()`. -/
def readSensorData (beat : Bool) (t1 t2 : Nat) (s : State) : State :=
  if beat then
    let delta := usub t1 s.lastBeat
    let s1 := { s with lastBeat := t2 % ULONG_MOD }
    if delta > 300 ∧ delta < 2000 then
      { s1 with pulse := ((60000 / delta : Nat) : Int), beatDetected := true }
    else s1
  else s

/-! ## Soft clock and alarm -/

/-- The clock-second update in `loop`: `seconds++` with carry into `minutes`
and `hours`. -/
def clockSecondUpdate (s : State) : State :=
  let s1 := { s with seconds := s.seconds + 1 }
  if s1.seconds ≥ 60 then
    let s2 := { s1 with seconds := 0, minutes := s1.minutes + 1 }
    if s2.minutes ≥ 60 then
      let s3 := { s2 with minutes := 0, hours := s2.hours + 1 }
      if s3.hours ≥ 24 then { s3 with hours := 0 } else s3
    else s2
  else s1

/-- The source's `checkAlarmState`; `t1` and `t2` are the readings of
`millis()` (the second one is taken only on the blink path). -/
def checkAlarmState (t1 t2 : Nat) (s : State) : State :=
  if s.alarmTriggered then
    if usub t1 s.lastBlink > 500 then
      { s with blinkState := !s.blinkState, lastBlink := t2 % ULONG_MOD }
    else s
  else if s.alarmHour ≥ 0 then
    if s.hours = s.alarmHour ∧ s.minutes = s.alarmMinute ∧ s.seconds < 2 then
      { s with alarmTriggered := true, lastBlink := t1 % ULONG_MOD }
    else s
  else s

/-- One execution of the body of the clock task of `loop`: the clock-second
update immediately followed by `checkAlarmState`. -/
def clockTick (t1 t2 : Nat) (s : State) : State :=
  checkAlarmState t1 t2 (clockSecondUpdate s)

/-- The clock task of `loop` with its time gate: it runs when at least
1000 ms have passed since `lastSecondCheck`. -/
def loopClockTask (now t1 t2 : Nat) (s : State) : State :=
  if usub now s.lastSecondCheck ≥ 1000 then
    clockTick t1 t2 { s with lastSecondCheck := now % ULONG_MOD }
  else s

/-- A run of clock ticks, one per pair of `millis()` readings. -/
def runTicks : List (Nat × Nat) → State → State
  | [], s => s
  | (t1, t2) :: ts, s => runTicks ts (clockTick t1 t2 s)

/-- The source's `handleSetAlarm`.  An argument is `none` when the request
does not carry it (`server.hasArg`), otherwise the value of `toInt()`.  The
result is the new state and the HTTP status code. -/
def handleSetAlarm (hArg mArg : Option Int) (s : State) : State × Nat :=
  match hArg, mArg with
  | some h, some m =>
    if h ≥ 0 ∧ h < 24 ∧ m ≥ 0 ∧ m < 60 then
      ({ s with alarmHour := h, alarmMinute := m, alarmTriggered := false }, 200)
    else (s, 400)
  | _, _ => (s, 400)

/-- The source's `handleClearAlarm`. -/
def handleClearAlarm (s : State) : State × Nat :=
  ({ s with alarmHour := -1, alarmMinute := -1, alarmTriggered := false }, 200)

/-! ## User store -/

/-- The loop `for (k = i; k < i + fuel; k++) xs[k] = xs[k+1];` that both
`addPulseRecord` and `handleDeleteUser` use to close a gap in an array. -/
def shiftLoop {α : Type} [Inhabited α] : Nat → Nat → List α → List α
  | 0, _, xs => xs
  | fuel + 1, i, xs => shiftLoop fuel (i + 1) (xs.set i (xs.getD (i + 1) default))

/-- The array read `users[i]`. -/
def State.user (s : State) (i : Int) : User := s.users.getD i.toNat default

/-- The loop of `findUser`, started at index `i` with `fuel` iterations left. -/
def findUserLoop (users : List User) (username : String) : Nat → Nat → Int
  | 0, _ => -1
  | fuel + 1, i =>
    if (users.getD i default).username = username then (i : Int)
    else findUserLoop users username fuel (i + 1)

/-- The source's `findUser`: index of the first of the `userCount` accounts
with the given name, or `-1`. -/
def findUser (username : String) (s : State) : Int :=
  findUserLoop s.users username s.userCount.toNat 0

/-- The source's `addUser`.  `saveUsers()` only writes the file system and is
not part of the in-memory state.  Note that the source assigns every field of
the new slot except `isAdmin`. -/
def addUser (username password : String) (s : State) : State × Bool :=
  if s.userCount ≥ MAX_USERS then (s, false)
  else if findUser username s ≥ 0 then (s, false)
  else
    let u := s.user s.userCount
    let u1 := { u with username := username, password := password,
                       bedtimeHour := -1, bedtimeMinute := -1,
                       wakeupHour := -1, wakeupMinute := -1, recordCount := 0 }
    ({ s with users := s.users.set s.userCount.toNat u1,
              userCount := s.userCount + 1 }, true)

/-- The part of `addPulseRecord` that works on `*user`: make room when the
20 slots are used, then store the record and count it. -/
def pushRecord (r : PulseRecord) (user : User) : User :=
  let user1 :=
    if user.recordCount ≥ 20 then
      { user with records := shiftLoop 19 0 user.records, recordCount := 19 }
    else user
  { user1 with records := user1.records.set user1.recordCount.toNat r,
               recordCount := user1.recordCount + 1 }

/-- The source's `addPulseRecord`; `now` is the reading of `millis()`. -/
def addPulseRecord (pulseVal spo2Val : Int) (now : Nat) (s : State) : State :=
  if s.currentUserIndex < 0 ∨ s.currentUserIndex ≥ s.userCount then s
  else
    let r : PulseRecord :=
      { timestamp := usub now s.timeBase, pulseValue := pulseVal, spo2Value := spo2Val }
    { s with users :=
        s.users.set s.currentUserIndex.toNat (pushRecord r (s.user s.currentUserIndex)) }

/-- The source's `handleLogin`.  An argument is `none` when the request does
not carry it. -/
def handleLogin (uArg pArg : Option String) (s : State) : State × Nat :=
  match uArg, pArg with
  | some username, some password =>
    let userIndex := findUser username s
    if userIndex ≥ 0 ∧ (s.user userIndex).password = password then
      ({ s with pulse := 0, spo2 := 0, beatDetected := false,
                currentUserIndex := userIndex }, 303)
    else (s, 401)
  | _, _ => (s, 401)

/-- The source's `handleRegister`. -/
def handleRegister (uArg pArg : Option String) (s : State) : State × Nat :=
  match uArg, pArg with
  | some username, some password =>
    match addUser username password s with
    | (s1, true) => ({ s1 with currentUserIndex := findUser username s1 }, 303)
    | (_, false) => (s, 400)
  | _, _ => (s, 400)

/-- The source's `handleLogout`. -/
def handleLogout (s : State) : State × Nat :=
  ({ s with currentUserIndex := -1, pulse := 0, spo2 := 0, beatDetected := false,
            alarmHour := -1, alarmMinute := -1, alarmTriggered := false }, 303)

/-- The source's `createAdminIfNeeded`.  The source does not test the capacity;
the write `users[userCount]` is modelled by `List.set`, which is meaningful
only while `0 ≤ userCount < MAX_USERS`. -/
def createAdminIfNeeded (s : State) : State :=
  if findUser "admin" s < 0 then
    let u := s.user s.userCount
    let u1 := { u with username := "admin", password := "admin",
                       bedtimeHour := -1, bedtimeMinute := -1,
                       wakeupHour := -1, wakeupMinute := -1, recordCount := 0,
                       isAdmin := true }
    { s with users := s.users.set s.userCount.toNat u1, userCount := s.userCount + 1 }
  else s

/-- The source's `handleDeleteUser`; `idArg` is `none` when the request has no
`id` argument, otherwise the value of `toInt()`. -/
def handleDeleteUser (idArg : Option Int) (s : State) : State × Nat :=
  if s.currentUserIndex < 0 ∨ !(s.user s.currentUserIndex).isAdmin then (s, 303)
  else
    match idArg with
    | some userId =>
      if userId ≥ 0 ∧ userId < s.userCount ∧ userId ≠ s.currentUserIndex then
        ({ s with users := shiftLoop (s.userCount - 1 - userId).toNat userId.toNat s.users,
                  userCount := s.userCount - 1 }, 303)
      else (s, 303)
    | none => (s, 303)

/-! ## SpO2 acquisition -/

/-- Presence threshold on the infrared sample (`#define FINGER_THRESHOLD 5000`). -/
def FINGER_THRESHOLD : Nat := 5000

/-- Size of the paired sample buffers (`#define SPO2_BUFFER_SIZE 100`). -/
def SPO2_BUFFER_SIZE : Nat := 100

/-- Minimal distance of two SpO2 samples in ms (`sampleInterval = 10`). -/
def sampleInterval : Nat := 10

/-- The four outputs of the vendor routine
`maxim_heart_rate_and_oxygen_saturation`. -/
structure SpO2Result where
  spo2Value : Int
  validSPO2 : Int
  heartRateValue : Int
  validHeartRate : Int
deriving DecidableEq, Repr

/-- The source's `checkFingerPresence`; `ir` is the reading of
`particleSensor.getIR()`. -/
def checkFingerPresence (ir : Nat) (s : State) : State :=
  let s1 := { s with irValue := ir % ULONG_MOD }
  if s1.irValue < FINGER_THRESHOLD then
    { s1 with fingerPresent := false, beatDetected := false }
  else
    let s2 := { s1 with fingerPresent := true }
    if !s2.activeSensorReading then { s2 with activeSensorReading := true } else s2

/-- The source's `calculateSpO2`.  `now` is the reading of `millis()`, `red`
the reading of `particleSensor.getRed()`, and `res` what the vendor routine
returns for the buffers when it is called.  The Boolean tells whether the
vendor routine was called. -/
def calculateSpO2 (res : SpO2Result) (now red : Nat) (s : State) : State × Bool :=
  if s.irValue < FINGER_THRESHOLD then
    ({ s with collectingData := false, spo2BufferIndex := 0, spo2 := 0 }, false)
  else if usub now s.lastSampleTime ≥ sampleInterval then
    let s1 := { s with lastSampleTime := now % ULONG_MOD }
    if s1.spo2BufferIndex < SPO2_BUFFER_SIZE then
      ({ s1 with redBuffer := s1.redBuffer.set s1.spo2BufferIndex (red % ULONG_MOD),
                 irBuffer := s1.irBuffer.set s1.spo2BufferIndex s1.irValue,
                 spo2BufferIndex := (s1.spo2BufferIndex + 1) % 256 }, false)
    else
      let s2 :=
        if res.validSPO2 = 1 ∧ res.spo2Value > 0 ∧ res.spo2Value ≤ 100 then
          { s1 with spo2 := res.spo2Value }
        else s1
      ({ s2 with spo2BufferIndex := 0 }, true)
  else (s, false)

/-- The absence decay of `loop` (the branch taken when no finger is present):
every 2000 ms `pulse` and `spo2` step towards 0 and `beatDetected` is cleared. -/
def absenceDecay (now : Nat) (s : State) : State :=
  if usub now s.lastValueDecayTime ≥ 2000 then
    let s1 := { s with lastValueDecayTime := now % ULONG_MOD }
    let s2 := if s1.pulse > 0 then { s1 with pulse := s1.pulse - 1 } else s1
    let s3 := if s2.spo2 > 0 then { s2 with spo2 := s2.spo2 - 1 } else s2
    { s3 with beatDetected := false }
  else s

/-- Every call of a run passes the time gate of `calculateSpO2`: the first
reading is at least `sampleInterval` after `last`, each further reading at
least `sampleInterval` after the one before. -/
def GatesOpen (last : Nat) : List (Nat × Nat) → Prop
  | [] => True
  | (now, _) :: rest => usub now last ≥ sampleInterval ∧ GatesOpen (now % ULONG_MOD) rest

/-- The gate condition of a concrete run can be checked by evaluation. -/
instance GatesOpen.decidable : (last : Nat) → (l : List (Nat × Nat)) → Decidable (GatesOpen last l)
  | _, [] => isTrue trivial
  | last, (now, _) :: rest =>
    @instDecidableAnd (usub now last ≥ sampleInterval) (GatesOpen (now % ULONG_MOD) rest) _
      (GatesOpen.decidable (now % ULONG_MOD) rest)

/-- The operations of the firmware that write `spo2` or the variables that
steer those writes. -/
inductive VitalsOp where
  | fingerPoll (ir : Nat)
  | beat (detected : Bool) (t1 t2 : Nat)
  | spo2Tick (res : SpO2Result) (now red : Nat)
  | decay (now : Nat)
  | login (uArg pArg : Option String)
  | register (uArg pArg : Option String)
  | logout

/-- One operation applied to the state. -/
def VitalsOp.step : VitalsOp → State → State
  | .fingerPoll ir, s => checkFingerPresence ir s
  | .beat b t1 t2, s => readSensorData b t1 t2 s
  | .spo2Tick res now red, s => (calculateSpO2 res now red s).1
  | .decay now, s => absenceDecay now s
  | .login u p, s => (handleLogin u p s).1
  | .register u p, s => (handleRegister u p s).1
  | .logout, s => (handleLogout s).1

/-- A sequence of operations applied from left to right. -/
def runVitals (ops : List VitalsOp) (s : State) : State :=
  ops.foldl (fun st op => op.step st) s

/-! ## Persistence -/

/-- One element of `records` in the JSON document of `/users.json`. -/
structure RecordDoc where
  timestamp : Nat
  pulse : Int
  spo2 : Int
deriving DecidableEq, Repr

/-- What ArduinoJson yields for the members of a record that the document
does not hold (`as<T>()` of a null variant). -/
instance : Inhabited RecordDoc := ⟨⟨0, 0, 0⟩⟩

/-- One element of `users` in the JSON document.  The members read with a
default (`| -1`, `| false`) are `none` when the document has no such key. -/
structure UserDoc where
  username : String
  password : String
  bedtimeHour : Option Int
  bedtimeMinute : Option Int
  wakeupHour : Option Int
  wakeupMinute : Option Int
  recordCount : Int
  records : List RecordDoc
  isAdmin : Option Bool
deriving DecidableEq, Repr

/-- What ArduinoJson yields for the members of a user that the document does
not hold (`as<T>()` of a null variant). -/
instance : Inhabited UserDoc :=
  ⟨{ username := "null", password := "null", bedtimeHour := none, bedtimeMinute := none,
     wakeupHour := none, wakeupMinute := none, recordCount := 0, records := [],
     isAdmin := none }⟩

/-- The JSON document of `/users.json`. -/
structure UsersDoc where
  count : Int
  users : List UserDoc
deriving DecidableEq, Repr

/-- The record object that `saveUsers` writes for one `PulseRecord`. -/
def saveRecord (r : PulseRecord) : RecordDoc :=
  { timestamp := r.timestamp, pulse := r.pulseValue, spo2 := r.spo2Value }

/-- The user object that `saveUsers` writes for `users[i]`: it has no
`isAdmin` member. -/
def saveUser (u : User) : UserDoc :=
  { username := u.username, password := u.password,
    bedtimeHour := some u.bedtimeHour, bedtimeMinute := some u.bedtimeMinute,
    wakeupHour := some u.wakeupHour, wakeupMinute := some u.wakeupMinute,
    recordCount := u.recordCount,
    records := (List.range u.recordCount.toNat).map
      (fun j => saveRecord (u.records.getD j default)),
    isAdmin := none }

/-- The document built by the source's `saveUsers`.  The capacity of the
`DynamicJsonDocument` (4096 bytes) is not modelled: the document is taken to
hold everything that is put into it. -/
def saveUsers (s : State) : UsersDoc :=
  { count := s.userCount,
    users := (List.range s.userCount.toNat).map (fun i => saveUser (s.users.getD i default)) }

/-- The record that `loadUsers` stores for one record object;
`as<unsigned long>()` yields 0 for a number that does not fit. -/
def loadRecord (d : RecordDoc) : PulseRecord :=
  { timestamp := if d.timestamp < ULONG_MOD then d.timestamp else 0,
    pulseValue := d.pulse, spo2Value := d.spo2 }

/-- The inner loop of `loadUsers` over `j < users[i].recordCount`. -/
def loadRecordsLoop (docs : List RecordDoc) : Nat → Nat → List PulseRecord → List PulseRecord
  | 0, _, recs => recs
  | fuel + 1, j, recs =>
    loadRecordsLoop docs fuel (j + 1) (recs.set j (loadRecord (docs.getD j default)))

/-- The body of the outer loop of `loadUsers`: fill `users[i]` from the
document element `d`. -/
def loadUser (d : UserDoc) (u : User) : User :=
  let rc : Int := min d.recordCount 20
  { u with username := d.username, password := d.password,
           bedtimeHour := d.bedtimeHour.getD (-1),
           bedtimeMinute := d.bedtimeMinute.getD (-1),
           wakeupHour := d.wakeupHour.getD (-1),
           wakeupMinute := d.wakeupMinute.getD (-1),
           recordCount := rc,
           isAdmin := d.isAdmin.getD false,
           records := loadRecordsLoop d.records rc.toNat 0 u.records }

/-- The outer loop of `loadUsers` over `i < userCount`. -/
def loadUsersLoop (docs : List UserDoc) : Nat → Nat → List User → List User
  | 0, _, us => us
  | fuel + 1, i, us =>
    loadUsersLoop docs fuel (i + 1)
      (us.set i (loadUser (docs.getD i default) (us.getD i default)))

/-- The source's `loadUsers`.  `file` is the parsed content of `/users.json`,
`none` when the file is missing, cannot be opened or cannot be parsed. -/
def loadUsers (file : Option UsersDoc) (s : State) : State :=
  let s1 :=
    match file with
    | some doc =>
      let uc : Int := min doc.count MAX_USERS
      { s with userCount := uc, users := loadUsersLoop doc.users uc.toNat 0 s.users }
    | none => s
  createAdminIfNeeded s1

/-- No two of the first `userCount` accounts share a user name. -/
def UniqueNames (s : State) : Prop :=
  ∀ i j : Nat, i < j → (j : Int) < s.userCount →
    (s.users.getD i default).username ≠ (s.users.getD j default).username

/-! ## Clock setting, sleep window and notifications -/

/-- The source's `handleSetTime`; `now` is the reading of `millis()`.  An
argument is `none` when the request does not carry it, otherwise the value of
`toInt()`. -/
def handleSetTime (hArg mArg : Option Int) (now : Nat) (s : State) : State × Nat :=
  match hArg, mArg with
  | some h, some m =>
    if h ≥ 0 ∧ h < 24 ∧ m ≥ 0 ∧ m < 60 then
      ({ s with hours := h, minutes := m, seconds := 0,
                timeBase := usub now (h.toNat * 3600000 + m.toNat * 60000) }, 200)
    else (s, 400)
  | _, _ => (s, 400)

/-- The source's `handleSetSleep`.  Each pair of arguments is stored as it
comes when both members are present; the source has no range test. -/
def handleSetSleep (bedH bedM wakeH wakeM : Option Int) (s : State) : State × Nat :=
  if s.currentUserIndex < 0 then (s, 401)
  else
    let user := s.user s.currentUserIndex
    let user1 :=
      match bedH, bedM with
      | some h, some m => { user with bedtimeHour := h, bedtimeMinute := m }
      | _, _ => user
    let user2 :=
      match wakeH, wakeM with
      | some h, some m => { user1 with wakeupHour := h, wakeupMinute := m }
      | _, _ => user1
    ({ s with users := s.users.set s.currentUserIndex.toNat user2 }, 303)

/-- The hour that `checkSleepNotifications` derives from `millis() - timeBase`. -/
def notifHour (now : Nat) (s : State) : Int :=
  (((usub now s.timeBase / 3600000) % 24 : Nat) : Int)

/-- The minute that `checkSleepNotifications` derives from `millis() - timeBase`. -/
def notifMinute (now : Nat) (s : State) : Int :=
  (((usub now s.timeBase / 60000) % 60 : Nat) : Int)

/-- The bedtime part of `checkSleepNotifications` for the account `user` at
the derived time `h:m`: show the notification when the bedtime is set, not
yet shown and reached; then clear the flag when the time is not the bedtime.
The Boolean tells whether the notification was shown. -/
def bedtimeStage (user : User) (h m : Int) (s : State) : State × Bool :=
  let r1 : State × Bool :=
    if user.bedtimeHour ≥ 0 ∧ s.sleepNotificationShown = false ∧
        h = user.bedtimeHour ∧ m = user.bedtimeMinute then
      ({ s with sleepNotificationShown := true }, true)
    else (s, false)
  if r1.1.sleepNotificationShown = true ∧
      (h ≠ user.bedtimeHour ∨ m ≠ user.bedtimeMinute) then
    ({ r1.1 with sleepNotificationShown := false }, r1.2)
  else r1

/-- The wake-up part of `checkSleepNotifications`, built like the bedtime
part. -/
def wakeupStage (user : User) (h m : Int) (s : State) : State × Bool :=
  let r1 : State × Bool :=
    if user.wakeupHour ≥ 0 ∧ s.wakeupNotificationShown = false ∧
        h = user.wakeupHour ∧ m = user.wakeupMinute then
      ({ s with wakeupNotificationShown := true }, true)
    else (s, false)
  if r1.1.wakeupNotificationShown = true ∧
      (h ≠ user.wakeupHour ∨ m ≠ user.wakeupMinute) then
    ({ r1.1 with wakeupNotificationShown := false }, r1.2)
  else r1

/-- The source's `checkSleepNotifications`; `now` is the reading of `millis()`.
The two Booleans tell whether the bedtime and the wake-up notification were
shown by this call. -/
def checkSleepNotifications (now : Nat) (s : State) : State × Bool × Bool :=
  if s.currentUserIndex < 0 ∨ s.currentUserIndex ≥ s.userCount then (s, false, false)
  else
    let user := s.user s.currentUserIndex
    let r1 := bedtimeStage user (notifHour now s) (notifMinute now s) s
    let r2 := wakeupStage user (notifHour now s) (notifMinute now s) r1.1
    (r2.1, r1.2, r2.2)

/-- A run of notification polls, one per reading of `millis()`; it returns the
final state and, poll by poll, whether the bedtime notification was shown. -/
def sleepPolls : List Nat → State → State × List Bool
  | [], s => (s, [])
  | now :: rest, s =>
    let r := checkSleepNotifications now s
    let q := sleepPolls rest r.1
    (q.1, r.2.1 :: q.2)

/-- The poll at reading `now` sees the bedtime of the active account. -/
def bedtimeMatches (s : State) (now : Nat) : Bool :=
  decide (notifHour now s = (s.user s.currentUserIndex).bedtimeHour ∧
          notifMinute now s = (s.user s.currentUserIndex).bedtimeMinute)

/-- The rising edges of a Boolean signal: an entry is true when the signal is
true and was false one step before (`prev` stands for the step before the
first). -/
def risingEdges : Bool → List Bool → List Bool
  | _, [] => []
  | prev, b :: rest => (b && !prev) :: risingEdges b rest

/-- The source's `showMotivationalMessage`; `now` is the reading of `millis()`. -/
def showMotivationalMessage (now : Nat) (s : State) : State :=
  if usub now s.lastMessageTime ≥ 3600000 then
    { s with currentMessageIndex := (s.currentMessageIndex + 1) % 10,
             lastMessageTime := now % ULONG_MOD }
  else s

/-! ## The sensor part of one pass of `loop` -/

/-- The readings that one pass of `loop` takes for its sensor part: `now` is
`millis()` at the start of the pass, `ir` the infrared sample, `beat` the
answer of `checkForBeat`, `t1 t2` the readings of `millis()` in
`readSensorData`, `res`, `tS` and `red` the inputs of `calculateSpO2`, and
`tR` the reading of `millis()` in `addPulseRecord`. -/
structure SensorInput where
  now : Nat
  ir : Nat
  beat : Bool
  t1 : Nat
  t2 : Nat
  res : SpO2Result
  tS : Nat
  red : Nat
  tR : Nat
deriving DecidableEq, Repr

/-- The sensor part of `loop`: `checkFingerPresence`, then, at most every
30 ms, `readSensorData` followed by `calculateSpO2` and the recording of the
vitals when a finger is present, and by the absence decay otherwise.  The
Boolean tells whether the vendor SpO2 routine was called. -/
def loopSensorPass (i : SensorInput) (s : State) : State × Bool :=
  let s1 := checkFingerPresence i.ir s
  if usub i.now s1.lastSensorReadTime ≥ 30 then
    let s2 := { s1 with lastSensorReadTime := i.now % ULONG_MOD }
    let s3 := readSensorData i.beat i.t1 i.t2 s2
    if s3.fingerPresent then
      let r := calculateSpO2 i.res i.tS i.red s3
      let s4 := r.1
      if s4.beatDetected = true ∧ s4.currentUserIndex ≥ 0 ∧ s4.pulse > 0 ∧ s4.spo2 > 0 then
        if usub i.now s4.lastRecordTime ≥ 5000 then
          ({ addPulseRecord s4.pulse s4.spo2 i.tR s4 with lastRecordTime := i.now % ULONG_MOD },
            r.2)
        else (s4, r.2)
      else (s4, r.2)
    else (absenceDecay i.now s3, false)
  else (s1, false)

/-! ## The operations of the system -/

/-- The state-changing operations that `loop` and the HTTP handlers perform,
each with the readings it takes. -/
inductive SysOp where
  | clockTask (now t1 t2 : Nat)
  | setTime (hArg mArg : Option Int) (now : Nat)
  | setAlarm (hArg mArg : Option Int)
  | clearAlarm
  | login (uArg pArg : Option String)
  | register (uArg pArg : Option String)
  | logout
  | setSleep (bedH bedM wakeH wakeM : Option Int)
  | deleteUser (idArg : Option Int)
  | sensorPass (i : SensorInput)
  | notificationPoll (now : Nat)
  | motivational (now : Nat)

/-- One operation applied to the state. -/
def SysOp.step : SysOp → State → State
  | .clockTask now t1 t2, s => loopClockTask now t1 t2 s
  | .setTime h m now, s => (handleSetTime h m now s).1
  | .setAlarm h m, s => (handleSetAlarm h m s).1
  | .clearAlarm, s => (handleClearAlarm s).1
  | .login u p, s => (handleLogin u p s).1
  | .register u p, s => (handleRegister u p s).1
  | .logout, s => (handleLogout s).1
  | .setSleep a b c d, s => (handleSetSleep a b c d s).1
  | .deleteUser id, s => (handleDeleteUser id s).1
  | .sensorPass i, s => (loopSensorPass i s).1
  | .notificationPoll now, s => (checkSleepNotifications now s).1
  | .motivational now, s => showMotivationalMessage now s

/-- The operation is an explicit dismissal of the alarm state by the user:
`clearAlarm`, a `setAlarm` with a valid time, or `logout`. -/
def SysOp.resetsAlarm : SysOp → Prop
  | .clearAlarm => True
  | .logout => True
  | .setAlarm (some h) (some m) => 0 ≤ h ∧ h < 24 ∧ 0 ≤ m ∧ m < 60
  | _ => False

/-- The clock shows a time of day: `0 <= hours < 24`, `0 <= minutes < 60`,
`0 <= seconds < 60`. -/
def ValidClock (s : State) : Prop :=
  0 ≤ s.hours ∧ s.hours < 24 ∧ 0 ≤ s.minutes ∧ s.minutes < 60 ∧ 0 ≤ s.seconds ∧ s.seconds < 60

/-- Validity of a concrete clock can be checked by evaluation. -/
instance ValidClock.decidable (s : State) : Decidable (ValidClock s) := by
  unfold ValidClock
  exact inferInstance

/-- The time of day in seconds that the clock fields stand for. -/
def secondOfDay (s : State) : Int := 3600 * s.hours + 60 * s.minutes + s.seconds

/-- A sequence of system operations applied from left to right. -/
def runOps : List SysOp → State → State
  | [], s => s
  | op :: rest, s => runOps rest (op.step s)

/-- The operation performs a clock-second update in state `s`: it is the clock
task of a pass whose 1000 ms gate is open. -/
def SysOp.ticks : SysOp → State → Bool
  | .clockTask now _ _, s => decide (usub now s.lastSecondCheck ≥ 1000)
  | _, _ => false

/-- The number of clock-second updates that a run of operations performs. -/
def tickCount : List SysOp → State → Nat
  | [], _ => 0
  | op :: rest, s => (if op.ticks s then 1 else 0) + tickCount rest (op.step s)

/-- The requests that set the clock or set, clear or drop the alarm:
`handleSetTime`, `handleSetAlarm`, `handleClearAlarm` and `handleLogout`. -/
def SysOp.intervenes : SysOp → Bool
  | .setTime _ _ _ => true
  | .setAlarm _ _ => true
  | .clearAlarm => true
  | .logout => true
  | _ => false

/-- The variables that the alarm engine reads: the clock fields, the armed
target and `alarmTriggered`. -/
def alarmView (s : State) : Int × Int × Int × Int × Int × Bool :=
  (s.hours, s.minutes, s.seconds, s.alarmHour, s.alarmMinute, s.alarmTriggered)

/-! ## Scenario states -/

/-- The clock shows 07:29:59 and the alarm has just been armed for 07:30 by
`handleSetAlarm`. -/
def armedAt0730 : State :=
  (handleSetAlarm (some 7) (some 30)
    { State.init with hours := 7, minutes := 29, seconds := 59 }).1

/-- The state of `armedAt0730` two clock ticks later: 07:30:01. -/
def triggeredAt0730 : State := runTicks [(1000, 1000), (2000, 2000)] armedAt0730

/-- The administrator created on a first boot has logged in (session index 0). -/
def adminLoggedIn : State :=
  (handleLogin (some "admin") (some "admin") (createAdminIfNeeded State.init)).1

/-- The record that `addPulseRecord` stores for the call input
`(pulseVal, spo2Val, now)` when the time base is `timeBase`. -/
def recordOf (timeBase : Nat) (x : Int × Int × Nat) : PulseRecord :=
  { timestamp := usub x.2.2 timeBase, pulseValue := x.1, spo2Value := x.2.1 }

/-- A sequence of `addPulseRecord` calls, one per input `(pulseVal, spo2Val, now)`. -/
def addRecords (inputs : List (Int × Int × Nat)) (s : State) : State :=
  inputs.foldl (fun st x => addPulseRecord x.1 x.2.1 x.2.2 st) s

/-- On the first-boot store, bob has registered and is the active account
(index 1) with an empty record ring. -/
def bobRegistered : State :=
  (handleRegister (some "bob") (some "pw1") (createAdminIfNeeded State.init)).1

/-- Twenty-one call inputs `(60 + i, 97, 5000 * i)`, `i = 0 .. 20`. -/
def twentyOneInputs : List (Int × Int × Nat) :=
  (List.range 21).map (fun (i : Nat) => ((60 + (i : Int) : Int), (97 : Int), 5000 * i))

/-- The store as `loadUsers` fills it from a `users.json` that holds the one
account "bob" (`count` 1, no `isAdmin` key), before `createAdminIfNeeded`. -/
def loadedBob : State :=
  { State.init with
      users := State.init.users.set 0
        { User.zero with username := "bob", password := "pw",
                         bedtimeHour := -1, bedtimeMinute := -1,
                         wakeupHour := -1, wakeupMinute := -1,
                         recordCount := 0, isAdmin := false },
      userCount := 1 }

/-- Boot on `loadedBob` (the administrator is appended at index 1), the
administrator logs in and deletes account 0. -/
def afterAdminDeletesBob : State :=
  (handleDeleteUser (some 0)
    (handleLogin (some "admin") (some "admin") (createAdminIfNeeded loadedBob)).1).1

/-- The first-boot store filled up to ten accounts: the administrator and
nine registered users. -/
def fullStore : State :=
  ["u1", "u2", "u3", "u4", "u5", "u6", "u7", "u8", "u9"].foldl
    (fun st name => (handleRegister (some name) (some "pw") st).1)
    (createAdminIfNeeded State.init)

/-- The store after a first boot without `/users.json`. -/
def firstBoot : State := loadUsers none State.init

/-- The store after a reboot that reads the file written by `firstBoot`. -/
def rebooted : State := loadUsers (some (saveUsers firstBoot)) State.init

/-- Boot on `loadedBob` (the administrator is appended at index 1), "carol"
registers (index 2) and the administrator logs in (session index 1). -/
def adminBetween : State :=
  (handleLogin (some "admin") (some "admin")
    (handleRegister (some "carol") (some "pw") (createAdminIfNeeded loadedBob)).1).1

/-- A user object as `saveUsers` writes it for a fresh account `name`. -/
def plainUserDoc (name : String) : UserDoc :=
  { username := name, password := "pw", bedtimeHour := some (-1), bedtimeMinute := some (-1),
    wakeupHour := some (-1), wakeupMinute := some (-1), recordCount := 0, records := [],
    isAdmin := none }

/-- A `/users.json` with ten accounts, none of them named "admin". -/
def tenUsersDoc : UsersDoc :=
  { count := 10,
    users := ["u0", "u1", "u2", "u3", "u4", "u5", "u6", "u7", "u8", "u9"].map plainUserDoc }

/-- On the first-boot store "bob" and "carol" have registered (indices 1 and
2) and the administrator has logged in (session index 0). -/
def adminWithTwoUsers : State :=
  (handleLogin (some "admin") (some "admin")
    (handleRegister (some "carol") (some "pw")
      (handleRegister (some "bob") (some "pw1") (createAdminIfNeeded State.init)).1).1).1

/-- The state that the loops of `loadUsers` produce from `tenUsersDoc`,
before the closing call of `createAdminIfNeeded`. -/
def tenLoaded : State :=
  { State.init with
      userCount := 10,
      users := loadUsersLoop tenUsersDoc.users 10 0 State.init.users }

/-- A finger is on the sensor, the sample buffer holds 100 samples and the
last accepted SpO2 value is 95. -/
def fullBuffer : State :=
  { State.init with irValue := 60000, fingerPresent := true, spo2BufferIndex := 100, spo2 := 95 }

/-- The account "bob" of `bobRegistered` has set the bedtime 22:00 with
`handleSetSleep`; the time base is 0. -/
def bobBedtime2200 : State :=
  (handleSetSleep (some 22) (some 0) none none bobRegistered).1

/-- Readings of `millis()` for polls at 21:59:57, 22:00:00, 22:00:03, 22:00:57,
22:01:00 and, a day later, 22:00:00. -/
def pollsAround2200 : List Nat :=
  [79197000, 79200000, 79203000, 79257000, 79260000, 165600000]

/-- The clock task has run at 10000 ms, and the user has set the time to 07:30
at 10500 ms. -/
def timeSetAt10500 : State :=
  (handleSetTime (some 7) (some 30) 10500 (loopClockTask 10000 10000 10000 State.init)).1

/-- A sensor pass without finger: the infrared sample is 1200, no beat is
reported. -/
def noFingerInput (now : Nat) : SensorInput :=
  { now := now, ir := 1200, beat := false, t1 := now, t2 := now,
    res := ⟨-999, 0, -999, 0⟩, tS := now, red := 900, tR := now }

/-- A finger was on the sensor: 50 samples are in the buffer, the last SpO2
value is 97, the pulse 72. -/
def halfFilled : State :=
  { State.init with irValue := 60000, fingerPresent := true, spo2BufferIndex := 50,
                    spo2 := 97, pulse := 72, beatDetected := true,
                    lastSensorReadTime := 100000, lastValueDecayTime := 100000,
                    lastSampleTime := 100000, lastBeat := 99500 }

/-- A beat was seen at 1000 ms; the pulse is 72. -/
def beatAt1000 : State :=
  { State.init with lastBeat := 1000, pulse := 72, beatDetected := true }

/-- The state of `bobRegistered` after "bob" has logged out. -/
def bobLoggedOut : State := (handleLogout bobRegistered).1

/-- The account "bob" of `bobBedtime2200` was notified at 22:00:00, logged out
at once and logs in again on the next day, shortly after 22:00:00. -/
def bobReturns : State :=
  (handleLogin (some "bob") (some "pw1")
    (sleepPolls [79203000, 79260000, 165600000]
      (handleLogout (sleepPolls [79200000] bobBedtime2200).1).1).1).1

/-- Readings of `millis()` for polls at 22:00:06, 22:00:09 and 22:00:57 of the
second day. -/
def pollsSecondDay : List Nat := [165606000, 165609000, 165657000]

/-- No finger is on the sensor (the last infrared sample was 1200); the pulse
is 72, the last beat was seen at 99500 ms, the last sensor pass and the last
decay step were at 100000 ms. -/
def fingerLifted : State :=
  { State.init with irValue := 1200, fingerPresent := false, pulse := 72, spo2 := 97,
                    lastBeat := 99500, lastSensorReadTime := 100000,
                    lastValueDecayTime := 100000 }

/-- A sensor pass at 100300 ms without finger (infrared sample 1200) on which
the beat detector reports a beat. -/
def beatWithoutFinger : SensorInput :=
  { now := 100300, ir := 1200, beat := true, t1 := 100300, t2 := 100300,
    res := ⟨-999, 0, -999, 0⟩, tS := 100300, red := 900, tR := 100300 }

/-! # Theorems -/

/-! ## Signal acquisition: beat acceptance -/

/-- When no wrap-around happened, `usub` is the elapsed time. -/
theorem usub_of_le (a b : Nat) (hab : b ≤ a) (ha : a < ULONG_MOD) : usub a b = a - b := by
  have hb : b < ULONG_MOD := lt_of_le_of_lt hab ha
  unfold usub
  rw [Nat.mod_eq_of_lt ha, Nat.mod_eq_of_lt hb]
  have h1 : a + ULONG_MOD - b = (a - b) + ULONG_MOD := by omega
  rw [h1, Nat.add_mod_right]
  exact Nat.mod_eq_of_lt (by omega)

/-- C1: for a detected beat with inter-beat interval `d = millis() - lastBeat`
(32-bit unsigned), `readSensorData` accepts the beat exactly when
`300 < d < 2000`: on acceptance `beatDetected` is true and `pulse` is the
integer quotient `60000 / d`; otherwise `pulse` and `beatDetected` keep their
values.  Without wrap-around `d` is the plain difference of the two times. -/
theorem readSensorData_accepts_iff (t1 t2 : Nat) (s : State) :
    ((300 < usub t1 s.lastBeat ∧ usub t1 s.lastBeat < 2000) →
        (readSensorData true t1 t2 s).beatDetected = true ∧
        (readSensorData true t1 t2 s).pulse = ((60000 / usub t1 s.lastBeat : Nat) : Int)) ∧
    (¬ (300 < usub t1 s.lastBeat ∧ usub t1 s.lastBeat < 2000) →
        (readSensorData true t1 t2 s).beatDetected = s.beatDetected ∧
        (readSensorData true t1 t2 s).pulse = s.pulse) ∧
    (s.beatDetected = false →
        ((readSensorData true t1 t2 s).beatDetected = true ↔
          (300 < usub t1 s.lastBeat ∧ usub t1 s.lastBeat < 2000))) ∧
    (s.lastBeat ≤ t1 → t1 < ULONG_MOD → usub t1 s.lastBeat = t1 - s.lastBeat) := by
  refine ⟨?_, ?_, ?_, ?_⟩
  · intro h
    simp [readSensorData, h]
  · intro h
    simp [readSensorData, h]
  · intro hb
    by_cases h : 300 < usub t1 s.lastBeat ∧ usub t1 s.lastBeat < 2000
    · simp [readSensorData, h]
    · simp [readSensorData, h, hb]
  · intro h1 h2
    exact usub_of_le t1 s.lastBeat h1 h2

/-! ## Alarm engine -/

/-- The clock-second update does not touch the alarm variables. -/
theorem clockSecondUpdate_alarm (s : State) :
    (clockSecondUpdate s).alarmTriggered = s.alarmTriggered ∧
    (clockSecondUpdate s).alarmHour = s.alarmHour ∧
    (clockSecondUpdate s).alarmMinute = s.alarmMinute := by
  unfold clockSecondUpdate
  dsimp only
  split_ifs <;> simp

/-- The alarm check never changes the armed target. -/
theorem checkAlarmState_target (t1 t2 : Nat) (s : State) :
    (checkAlarmState t1 t2 s).alarmHour = s.alarmHour ∧
    (checkAlarmState t1 t2 s).alarmMinute = s.alarmMinute := by
  unfold checkAlarmState
  split_ifs <;> simp

/-- A triggered alarm stays triggered through the alarm check. -/
theorem checkAlarmState_keeps_triggered (t1 t2 : Nat) (s : State)
    (h : s.alarmTriggered = true) : (checkAlarmState t1 t2 s).alarmTriggered = true := by
  unfold checkAlarmState
  split_ifs <;> simp [h]

/-- An alarm check on an untriggered state triggers exactly on the guard. -/
theorem checkAlarmState_iff (t1 t2 : Nat) (s : State) (hnt : s.alarmTriggered = false) :
    ((checkAlarmState t1 t2 s).alarmTriggered = true ↔
      (0 ≤ s.alarmHour ∧ s.hours = s.alarmHour ∧ s.minutes = s.alarmMinute ∧ s.seconds < 2)) := by
  unfold checkAlarmState
  by_cases ha : s.alarmHour ≥ 0
  · by_cases hg : s.hours = s.alarmHour ∧ s.minutes = s.alarmMinute ∧ s.seconds < 2
    · simp [hnt, ha, hg]
    · have hg2 : ¬ (0 ≤ s.alarmHour ∧ s.hours = s.alarmHour ∧ s.minutes = s.alarmMinute ∧
          s.seconds < 2) := fun h => hg h.2
      simp only [hnt, ha, hg, hg2, if_true, if_false, iff_false]
      simp [hnt]
  · have hg2 : ¬ (0 ≤ s.alarmHour ∧ s.hours = s.alarmHour ∧ s.minutes = s.alarmMinute ∧
        s.seconds < 2) := fun h => ha h.1
    simp only [hnt, ha, hg2, if_false, iff_false]
    simp [hnt]

/-- C3: in a state whose alarm is not yet triggered, the alarm check run after
the clock-second update sets `alarmTriggered` if and only if the updated time
has `hours == alarmHour`, `minutes == alarmMinute` and `seconds < 2`, provided
an alarm is armed (`alarmHour >= 0`); when none is armed (`alarmHour < 0`) the
check leaves `alarmTriggered` false. -/
theorem clockTick_triggers_iff (t1 t2 : Nat) (s : State) (hnt : s.alarmTriggered = false) :
    (0 ≤ s.alarmHour →
      ((clockTick t1 t2 s).alarmTriggered = true ↔
        ((clockSecondUpdate s).hours = s.alarmHour ∧
         (clockSecondUpdate s).minutes = s.alarmMinute ∧
         (clockSecondUpdate s).seconds < 2))) ∧
    (s.alarmHour < 0 → (clockTick t1 t2 s).alarmTriggered = false) ∧
    (0 ≤ s.alarmHour →
      ((checkAlarmState t1 t2 s).alarmTriggered = true ↔
        (s.hours = s.alarmHour ∧ s.minutes = s.alarmMinute ∧ s.seconds < 2))) ∧
    (s.alarmHour < 0 → (checkAlarmState t1 t2 s).alarmTriggered = false) := by
  obtain ⟨hc1, hc2, hc3⟩ := clockSecondUpdate_alarm s
  have hnt2 : (clockSecondUpdate s).alarmTriggered = false := by rw [hc1]; exact hnt
  have key := checkAlarmState_iff t1 t2 (clockSecondUpdate s) hnt2
  have key0 := checkAlarmState_iff t1 t2 s hnt
  rw [hc2, hc3] at key
  refine ⟨?_, ?_, ?_, ?_⟩
  · intro ha
    unfold clockTick
    rw [key]
    exact ⟨fun h => h.2, fun h => ⟨ha, h⟩⟩
  · intro ha
    unfold clockTick
    cases hv : (checkAlarmState t1 t2 (clockSecondUpdate s)).alarmTriggered
    · rfl
    · have := (key.mp hv).1
      omega
  · intro ha
    rw [key0]
    exact ⟨fun h => h.2, fun h => ⟨ha, h⟩⟩
  · intro ha
    cases hv : (checkAlarmState t1 t2 s).alarmTriggered
    · rfl
    · have := (key0.mp hv).1
      omega

/-- C3 witness: the alarm armed for 07:30 while the clock shows 07:30:00 fires
on the clock tick that advances the time to 07:30:01. -/
theorem clockTick_triggers_iff_witness :
    (clockTick 0 0 { State.init with hours := 7, minutes := 30, seconds := 0,
                                     alarmHour := 7, alarmMinute := 30 }).alarmTriggered
      = true :=
  ((clockTick_triggers_iff 0 0
      { State.init with hours := 7, minutes := 30, seconds := 0,
                        alarmHour := 7, alarmMinute := 30 } rfl).1 (by decide)).mpr
    (by decide)

/-- C4: once `alarmTriggered` is true, any run of clock ticks (clock-second
update followed by the alarm check) leaves it true and leaves `alarmHour` and
`alarmMinute` unchanged. -/
theorem runTicks_keeps_triggered (ts : List (Nat × Nat)) (s : State)
    (h : s.alarmTriggered = true) :
    (runTicks ts s).alarmTriggered = true ∧
    (runTicks ts s).alarmHour = s.alarmHour ∧
    (runTicks ts s).alarmMinute = s.alarmMinute := by
  induction ts generalizing s with
  | nil => exact ⟨h, rfl, rfl⟩
  | cons t ts ih =>
    obtain ⟨t1, t2⟩ := t
    obtain ⟨hc1, hc2, hc3⟩ := clockSecondUpdate_alarm s
    obtain ⟨hk2, hk3⟩ := checkAlarmState_target t1 t2 (clockSecondUpdate s)
    have hk1 := checkAlarmState_keeps_triggered t1 t2 (clockSecondUpdate s) (by rw [hc1]; exact h)
    obtain ⟨i1, i2, i3⟩ := ih (clockTick t1 t2 s) hk1
    refine ⟨i1, ?_, ?_⟩
    · show (runTicks ts (clockTick t1 t2 s)).alarmHour = s.alarmHour
      rw [i2]; unfold clockTick; rw [hk2, hc2]
    · show (runTicks ts (clockTick t1 t2 s)).alarmMinute = s.alarmMinute
      rw [i3]; unfold clockTick; rw [hk3, hc3]

/-- C4 witness: the alarm that fired at 07:30 is still triggered, with target
07:30, after 59 further ticks (07:31:00). -/
theorem runTicks_keeps_triggered_witness :
    triggeredAt0730.alarmTriggered = true ∧
    (runTicks (List.replicate 59 (0, 0)) triggeredAt0730).alarmTriggered = true ∧
    (runTicks (List.replicate 59 (0, 0)) triggeredAt0730).alarmHour = 7 ∧
    (runTicks (List.replicate 59 (0, 0)) triggeredAt0730).alarmMinute = 30 :=
  ⟨by decide, runTicks_keeps_triggered (List.replicate 59 (0, 0)) triggeredAt0730 (by decide)⟩

/-- A run of clock ticks never triggers while no alarm is armed. -/
theorem runTicks_disarmed (ts : List (Nat × Nat)) (s : State)
    (hnt : s.alarmTriggered = false) (hd : s.alarmHour < 0) :
    (runTicks ts s).alarmTriggered = false ∧ (runTicks ts s).alarmHour = s.alarmHour := by
  induction ts generalizing s with
  | nil => exact ⟨hnt, rfl⟩
  | cons t ts ih =>
    obtain ⟨t1, t2⟩ := t
    have h1 : (clockTick t1 t2 s).alarmTriggered = false := by
      have hnt2 : (clockSecondUpdate s).alarmTriggered = false := by
        rw [(clockSecondUpdate_alarm s).1]; exact hnt
      have key := checkAlarmState_iff t1 t2 (clockSecondUpdate s) hnt2
      rw [(clockSecondUpdate_alarm s).2.1] at key
      unfold clockTick
      cases hv : (checkAlarmState t1 t2 (clockSecondUpdate s)).alarmTriggered
      · rfl
      · have := (key.mp hv).1
        omega
    have h2 : (clockTick t1 t2 s).alarmHour = s.alarmHour := by
      unfold clockTick
      rw [(checkAlarmState_target t1 t2 (clockSecondUpdate s)).1, (clockSecondUpdate_alarm s).2.1]
    obtain ⟨i1, i2⟩ := ih (clockTick t1 t2 s) h1 (by rw [h2]; exact hd)
    exact ⟨i1, by show (runTicks ts (clockTick t1 t2 s)).alarmHour = s.alarmHour; rw [i2, h2]⟩

/-- C5: from every state `handleClearAlarm` yields the disabled alarm state
(`alarmTriggered = false`, `alarmHour = -1`, `alarmMinute = -1`) and changes
nothing else; afterwards no run of clock ticks sets `alarmTriggered`, whereas
a fresh valid `handleSetAlarm` arms it again. -/
theorem handleClearAlarm_disables (s : State) :
    (handleClearAlarm s).1 =
      { s with alarmHour := -1, alarmMinute := -1, alarmTriggered := false } ∧
    (handleClearAlarm s).1.alarmTriggered = false ∧
    (handleClearAlarm s).1.alarmHour = -1 ∧
    (handleClearAlarm s).1.alarmMinute = -1 ∧
    (∀ ts : List (Nat × Nat), (runTicks ts (handleClearAlarm s).1).alarmTriggered = false) ∧
    (∀ h m : Int, 0 ≤ h ∧ h < 24 ∧ 0 ≤ m ∧ m < 60 →
      (handleSetAlarm (some h) (some m) (handleClearAlarm s).1).1.alarmHour = h ∧
      (handleSetAlarm (some h) (some m) (handleClearAlarm s).1).1.alarmMinute = m) := by
  refine ⟨rfl, rfl, rfl, rfl, ?_, ?_⟩
  · intro ts
    have hd : (handleClearAlarm s).1.alarmHour < 0 := by
      show (-1 : Int) < 0
      decide
    exact (runTicks_disarmed ts (handleClearAlarm s).1 rfl hd).1
  · intro h m hv
    have hv2 : h ≥ 0 ∧ h < 24 ∧ m ≥ 0 ∧ m < 60 := hv
    simp [handleSetAlarm, hv2]

/-- C6: `handleSetAlarm` answers 200 if and only if `0 <= h < 24` and
`0 <= m < 60`; in that case the target becomes `(h, m)` (with
`alarmTriggered` reset to false and nothing else changed); for every other
pair, and when an argument is missing, the state is returned unchanged. -/
theorem handleSetAlarm_arms_iff (h m : Int) (s : State) :
    ((handleSetAlarm (some h) (some m) s).2 = 200 ↔ (0 ≤ h ∧ h < 24 ∧ 0 ≤ m ∧ m < 60)) ∧
    ((0 ≤ h ∧ h < 24 ∧ 0 ≤ m ∧ m < 60) →
      (handleSetAlarm (some h) (some m) s).1 =
        { s with alarmHour := h, alarmMinute := m, alarmTriggered := false }) ∧
    (¬ (0 ≤ h ∧ h < 24 ∧ 0 ≤ m ∧ m < 60) →
      (handleSetAlarm (some h) (some m) s) = (s, 400)) ∧
    (handleSetAlarm none (some m) s) = (s, 400) ∧
    (handleSetAlarm (some h) none s) = (s, 400) ∧
    (handleSetAlarm none none s) = (s, 400) := by
  have e : (h ≥ 0 ∧ h < 24 ∧ m ≥ 0 ∧ m < 60) ↔ (0 ≤ h ∧ h < 24 ∧ 0 ≤ m ∧ m < 60) := Iff.rfl
  refine ⟨?_, ?_, ?_, rfl, rfl, rfl⟩
  · by_cases hv : 0 ≤ h ∧ h < 24 ∧ 0 ≤ m ∧ m < 60
    · simp [handleSetAlarm, hv]
    · have hv2 : ¬ (h ≥ 0 ∧ h < 24 ∧ m ≥ 0 ∧ m < 60) := hv
      simp only [handleSetAlarm, hv2, hv, if_false, iff_false]
      decide
  · intro hv
    simp [handleSetAlarm, hv]
  · intro hv
    have hv2 : ¬ (h ≥ 0 ∧ h < 24 ∧ m ≥ 0 ∧ m < 60) := hv
    simp only [handleSetAlarm, hv2, if_false]

/-! ## User store: lookup and registration -/

/-- Specification of the `findUser` loop: it returns `-1` when no index in
`[i, i + fuel)` carries the name, and otherwise the first such index. -/
theorem findUserLoop_spec (users : List User) (name : String) (fuel i : Nat) :
    (findUserLoop users name fuel i = -1 ∧
      ∀ k : Nat, i ≤ k → k < i + fuel → (users.getD k default).username ≠ name) ∨
    (∃ k : Nat, findUserLoop users name fuel i = (k : Int) ∧ i ≤ k ∧ k < i + fuel ∧
      (users.getD k default).username = name ∧
      ∀ j : Nat, i ≤ j → j < k → (users.getD j default).username ≠ name) := by
  induction fuel generalizing i with
  | zero =>
    left
    exact ⟨rfl, fun k h1 h2 => by omega⟩
  | succ fuel ih =>
    by_cases hm : (users.getD i default).username = name
    · right
      refine ⟨i, ?_, le_refl i, by omega, hm, fun j h1 h2 => by omega⟩
      simp only [findUserLoop, if_pos hm]
    · have hstep : findUserLoop users name (fuel + 1) i = findUserLoop users name fuel (i + 1) := by
        simp only [findUserLoop, if_neg hm]
      rcases ih (i + 1) with ⟨h1, h2⟩ | ⟨k, h1, h2, h3, h4, h5⟩
      · left
        refine ⟨by rw [hstep, h1], fun k hk1 hk2 => ?_⟩
        by_cases hki : k = i
        · subst hki; exact hm
        · exact h2 k (by omega) (by omega)
      · right
        refine ⟨k, by rw [hstep, h1], by omega, by omega, h4, fun j hj1 hj2 => ?_⟩
        by_cases hji : j = i
        · subst hji; exact hm
        · exact h5 j (by omega) hj2

/-- The lookup `findUser` succeeds exactly when one of the first `userCount`
slots carries the name. -/
theorem findUser_nonneg_iff (name : String) (s : State) :
    findUser name s ≥ 0 ↔
      ∃ k : Nat, (k : Int) < s.userCount ∧ (s.users.getD k default).username = name := by
  unfold findUser
  rcases findUserLoop_spec s.users name s.userCount.toNat 0 with ⟨h1, h2⟩ | ⟨k, h1, _, h3, h4, _⟩
  · rw [h1]
    constructor
    · intro h; omega
    · rintro ⟨k, hk1, hk2⟩
      exact absurd hk2 (h2 k (Nat.zero_le k) (by omega))
  · rw [h1]
    constructor
    · intro _
      exact ⟨k, by omega, h4⟩
    · intro _
      omega

/-- A failing `addUser` returns the state as it was, and `handleRegister` then
answers 400 with the state unchanged. -/
theorem addUser_false_unchanged (name pw : String) (s : State)
    (h : (addUser name pw s).2 = false) :
    (addUser name pw s).1 = s ∧ handleRegister (some name) (some pw) s = (s, 400) := by
  by_cases hc : s.userCount ≥ (MAX_USERS : Int)
  · have e : addUser name pw s = (s, false) := by simp [addUser, hc]
    exact ⟨by rw [e], by simp [handleRegister, e]⟩
  · by_cases hf : findUser name s ≥ 0
    · have e : addUser name pw s = (s, false) := by simp [addUser, hc, hf]
      exact ⟨by rw [e], by simp [handleRegister, e]⟩
    · have e : (addUser name pw s).2 = true := by simp [addUser, hc, hf]
      rw [e] at h
      simp at h

/-- C7: `addUser` fails if and only if one of the `userCount` accounts already
carries the user name or `userCount >= MAX_USERS` (10); when it fails the
whole state, and so the `users` array and `userCount`, is unchanged, and
`handleRegister` then answers 400 without changing the state. -/
theorem addUser_fails_iff (name pw : String) (s : State) :
    ((addUser name pw s).2 = false ↔
      ((∃ k : Nat, (k : Int) < s.userCount ∧ (s.users.getD k default).username = name) ∨
        s.userCount ≥ 10)) ∧
    ((addUser name pw s).2 = false → (addUser name pw s).1 = s) ∧
    ((addUser name pw s).2 = false →
      handleRegister (some name) (some pw) s = (s, 400)) := by
  have hiff := findUser_nonneg_iff name s
  have hM : ((MAX_USERS : Nat) : Int) = 10 := rfl
  by_cases hc : s.userCount ≥ (MAX_USERS : Int)
  · have e : addUser name pw s = (s, false) := by simp [addUser, hc]
    refine ⟨?_, ?_, ?_⟩
    · rw [e]
      simp only [true_iff]
      right
      rw [hM] at hc
      exact hc
    · intro _; rw [e]
    · intro _
      simp [handleRegister, e]
  · by_cases hf : findUser name s ≥ 0
    · have e : addUser name pw s = (s, false) := by simp [addUser, hc, hf]
      refine ⟨?_, ?_, ?_⟩
      · rw [e]
        simp only [true_iff]
        left
        exact hiff.mp hf
      · intro _; rw [e]
      · intro _
        simp [handleRegister, e]
    · have e : (addUser name pw s).2 = true := by simp [addUser, hc, hf]
      refine ⟨?_, ?_, ?_⟩
      · rw [e]
        simp only [Bool.true_eq_false, false_iff, not_or]
        rw [hM] at hc
        exact ⟨fun h => hf (hiff.mpr h), hc⟩
      · intro h; rw [e] at h; exact absurd h (by decide)
      · intro h; rw [e] at h; exact absurd h (by decide)

/-- Registering "bob" a second time fails and changes nothing. -/
theorem register_bob_twice :
    (addUser "bob" "pw1" bobRegistered).2 = false ∧
    handleRegister (some "bob") (some "pw1") bobRegistered = (bobRegistered, 400) := by
  decide

/-- With ten accounts in the store an eleventh registration fails and changes
nothing. -/
theorem register_eleventh :
    fullStore.userCount = 10 ∧
    (addUser "u10" "pw" fullStore).2 = false ∧
    handleRegister (some "u10") (some "pw") fullStore = (fullStore, 400) := by
  decide

/-- What a successful `addUser` does: the slot `users[userCount]` receives the
name, the password and the defaults, and `userCount` grows by one. -/
theorem addUser_success (name pw : String) (s : State) (h : (addUser name pw s).2 = true) :
    s.userCount < 10 ∧ findUser name s < 0 ∧
    (addUser name pw s).1 =
      { s with users := s.users.set s.userCount.toNat
                  { s.user s.userCount with
                      username := name, password := pw,
                      bedtimeHour := -1, bedtimeMinute := -1,
                      wakeupHour := -1, wakeupMinute := -1, recordCount := 0 },
               userCount := s.userCount + 1 } := by
  have hM : ((MAX_USERS : Nat) : Int) = 10 := rfl
  by_cases hc : s.userCount ≥ (MAX_USERS : Int)
  · have e : addUser name pw s = (s, false) := by simp [addUser, hc]
    rw [e] at h
    simp at h
  · by_cases hf : findUser name s ≥ 0
    · have e : addUser name pw s = (s, false) := by simp [addUser, hc, hf]
      rw [e] at h
      simp at h
    · rw [hM] at hc
      refine ⟨by omega, by omega, ?_⟩
      have hc2 : ¬ s.userCount ≥ (MAX_USERS : Int) := by rw [hM]; exact hc
      simp only [addUser, if_neg hc2, if_neg hf]

/-- After a successful `addUser` on a well-formed store the lookup of the new
name returns the index of the new slot. -/
theorem findUser_after_addUser (name pw : String) (s : State)
    (h0 : 0 ≤ s.userCount) (hlen : s.users.length = MAX_USERS)
    (h : (addUser name pw s).2 = true) :
    findUser name (addUser name pw s).1 = s.userCount ∧
    ((addUser name pw s).1.user s.userCount).username = name ∧
    ((addUser name pw s).1.user s.userCount).password = pw := by
  obtain ⟨hlt, hnf, hst⟩ := addUser_success name pw s h
  have hno : ∀ k : Nat, (k : Int) < s.userCount → (s.users.getD k default).username ≠ name := by
    intro k hk hm
    have := (findUser_nonneg_iff name s).mpr ⟨k, hk, hm⟩
    omega
  have hM : MAX_USERS = 10 := rfl
  have hn : s.userCount.toNat < s.users.length := by rw [hlen, hM]; omega
  rw [hst]
  have hget : ∀ k : Nat,
      ((s.users.set s.userCount.toNat
          { s.user s.userCount with
              username := name, password := pw,
              bedtimeHour := -1, bedtimeMinute := -1,
              wakeupHour := -1, wakeupMinute := -1, recordCount := 0 }).getD k default) =
        if k = s.userCount.toNat then
          { s.user s.userCount with
              username := name, password := pw,
              bedtimeHour := -1, bedtimeMinute := -1,
              wakeupHour := -1, wakeupMinute := -1, recordCount := 0 }
        else s.users.getD k default := by
    intro k
    by_cases hk : k = s.userCount.toNat
    · subst hk
      simp [List.getD_eq_getElem?_getD, List.getElem?_set, hn]
    · have hk2 : ¬ s.userCount.toNat = k := fun e => hk e.symm
      simp [List.getD_eq_getElem?_getD, List.getElem?_set, hk, hk2]
  refine ⟨?_, ?_, ?_⟩
  · unfold findUser
    dsimp only
    rcases findUserLoop_spec
        (s.users.set s.userCount.toNat
          { s.user s.userCount with
              username := name, password := pw,
              bedtimeHour := -1, bedtimeMinute := -1,
              wakeupHour := -1, wakeupMinute := -1, recordCount := 0 })
        name (s.userCount + 1).toNat 0 with ⟨_, h2⟩ | ⟨k, h1, _, h3, h4, _⟩
    · exfalso
      have := h2 s.userCount.toNat (Nat.zero_le _) (by omega)
      rw [hget, if_pos rfl] at this
      exact this rfl
    · rw [h1]
      by_cases hk : k = s.userCount.toNat
      · omega
      · exfalso
        rw [hget, if_neg hk] at h4
        exact hno k (by omega) h4
  · show ((s.users.set _ _).getD s.userCount.toNat default).username = name
    rw [hget, if_pos rfl]
  · show ((s.users.set _ _).getD s.userCount.toNat default).password = pw
    rw [hget, if_pos rfl]

/-- The lookup reads the accounts and their count only. -/
theorem findUser_congr (name : String) (a b : State) (hu : a.users = b.users)
    (hc : a.userCount = b.userCount) : findUser name a = findUser name b := by
  unfold findUser
  rw [hu, hc]

/-- C9: on a well-formed store (`0 <= userCount`, ten slots) on which
`handleRegister` with `(name, pw)` succeeds, the new account sits at the old
`userCount`, and in every state that holds the resulting store, whatever its
session is (logged out, or another account active), `handleLogin` with
`(name, pw)` answers 303, sets the session to the index of the new account
and clears the vitals, while `handleLogin` with `(name, pw2)` answers 401
without changing the state for every `pw2 ≠ pw`; this holds in particular in
the state right after the registration.  In general `handleLogin` succeeds
only when one of the `userCount` accounts has exactly that user name and
exactly that password, and the session it sets is that of the first account
with the name. -/
theorem login_after_register (name pw : String) (s : State)
    (h0 : 0 ≤ s.userCount) (hlen : s.users.length = MAX_USERS)
    (hreg : (handleRegister (some name) (some pw) s).2 = 303) :
    (handleRegister (some name) (some pw) s).1.currentUserIndex = s.userCount ∧
    ((handleRegister (some name) (some pw) s).1.user s.userCount).username = name ∧
    (handleLogin (some name) (some pw) (handleRegister (some name) (some pw) s).1).2 = 303 ∧
    (handleLogin (some name) (some pw)
        (handleRegister (some name) (some pw) s).1).1.currentUserIndex = s.userCount ∧
    (∀ pw2 : String, pw2 ≠ pw →
      handleLogin (some name) (some pw2) (handleRegister (some name) (some pw) s).1 =
        ((handleRegister (some name) (some pw) s).1, 401)) ∧
    (∀ (n p : String) (st : State), (handleLogin (some n) (some p) st).2 = 303 →
      ∃ k : Nat, (k : Int) < st.userCount ∧ (st.users.getD k default).username = n ∧
        (st.users.getD k default).password = p ∧
        (handleLogin (some n) (some p) st).1.currentUserIndex = (k : Int)) ∧
    (∀ t : State, t.users = (handleRegister (some name) (some pw) s).1.users →
      t.userCount = (handleRegister (some name) (some pw) s).1.userCount →
      handleLogin (some name) (some pw) t =
        ({ t with pulse := 0, spo2 := 0, beatDetected := false,
                  currentUserIndex := s.userCount }, 303) ∧
      ∀ pw2 : String, pw2 ≠ pw → handleLogin (some name) (some pw2) t = (t, 401)) := by
  have hadd : (addUser name pw s).2 = true := by
    cases hb : (addUser name pw s).2
    · have := (addUser_false_unchanged name pw s hb).2
      rw [this] at hreg
      simp at hreg
    · rfl
  obtain ⟨hf, hu, hp⟩ := findUser_after_addUser name pw s h0 hlen hadd
  have hr : handleRegister (some name) (some pw) s =
      ({ (addUser name pw s).1 with currentUserIndex := s.userCount }, 303) := by
    unfold handleRegister
    rcases hres : addUser name pw s with ⟨s1, b⟩
    rw [hres] at hadd hf
    simp only at hadd hf
    subst hadd
    simp only [hres, hf]
  have hfind : findUser name (handleRegister (some name) (some pw) s).1 = s.userCount := by
    rw [hr]; exact hf
  have huser : ∀ i : Int, (handleRegister (some name) (some pw) s).1.user i =
      (addUser name pw s).1.user i := by
    intro i; rw [hr]; rfl
  have hge : s.userCount ≥ 0 := h0
  refine ⟨by rw [hr], by rw [huser]; exact hu, ?_, ?_, ?_, ?_, ?_⟩
  · simp only [handleLogin, hfind, huser, hp, hge, and_self, if_true]
  · simp only [handleLogin, hfind, huser, hp, hge, and_self, if_true]
  · intro pw2 hne
    have hne2 : ¬ pw = pw2 := fun e => hne e.symm
    simp only [handleLogin, hfind, huser, hp, hne2, and_false, if_false]
  · intro n p st hst
    by_cases hcond : findUser n st ≥ 0 ∧ (st.user (findUser n st)).password = p
    · obtain ⟨hc1, hc2⟩ := hcond
      rcases findUserLoop_spec st.users n st.userCount.toNat 0 with ⟨h1, _⟩ | ⟨k, h1, _, h3, h4, _⟩
      · unfold findUser at hc1
        rw [h1] at hc1
        omega
      · have hk : findUser n st = (k : Int) := h1
        refine ⟨k, by omega, h4, ?_, ?_⟩
        · rw [hk] at hc2
          simpa [State.user] using hc2
        · have hcond2 : findUser n st ≥ 0 ∧ (st.user (findUser n st)).password = p :=
            ⟨hc1, hc2⟩
          simp only [handleLogin, if_pos hcond2]
          exact hk
    · simp only [handleLogin, hcond, if_false] at hst
      exact absurd hst (by decide)
  · intro t htu htc
    have hft : findUser name t = s.userCount := by
      rw [findUser_congr name t _ htu htc]
      exact hfind
    have hut : ∀ i : Int, t.user i = (addUser name pw s).1.user i := by
      intro i
      rw [← huser i]
      unfold State.user
      rw [htu]
    constructor
    · simp only [handleLogin, hft, hut, hp, hge, and_self, if_true]
    · intro pw2 hne
      have hne2 : ¬ pw = pw2 := fun e => hne e.symm
      simp only [handleLogin, hft, hut, hp, hne2, and_false, if_false]

/-- C9 witness: on the first-boot store, bob registers with "pw1"; a login
with "pw1" succeeds, a login with "wrong" fails, and after a logout a login
with "pw1" sets the session to bob's index 1. -/
theorem login_after_register_witness :
    (handleLogin (some "bob") (some "pw1")
      (handleRegister (some "bob") (some "pw1") (createAdminIfNeeded State.init)).1).2 = 303 ∧
    handleLogin (some "bob") (some "wrong")
      (handleRegister (some "bob") (some "pw1") (createAdminIfNeeded State.init)).1 =
      ((handleRegister (some "bob") (some "pw1") (createAdminIfNeeded State.init)).1, 401) ∧
    bobLoggedOut.currentUserIndex = -1 ∧
    (handleLogin (some "bob") (some "pw1") bobLoggedOut).2 = 303 ∧
    (handleLogin (some "bob") (some "pw1") bobLoggedOut).1.currentUserIndex = 1 := by
  have h := login_after_register "bob" "pw1" (createAdminIfNeeded State.init)
    (by decide) (by decide) (by decide)
  have e := (h.2.2.2.2.2.2 bobLoggedOut (by decide) (by decide)).1
  refine ⟨h.2.2.1, h.2.2.2.2.1 "wrong" (by decide), by decide, ?_, ?_⟩
  · rw [e]
  · rw [e]
    decide

/-! ## User store: deletion -/

/-- C10: `handleDeleteUser` leaves the whole state (the `users` array and
`userCount` included) unchanged whenever the requested index equals
`currentUserIndex`, is negative, or is `>= userCount`. -/
theorem handleDeleteUser_rejects (userId : Int) (s : State)
    (h : userId = s.currentUserIndex ∨ userId < 0 ∨ userId ≥ s.userCount) :
    (handleDeleteUser (some userId) s).1 = s := by
  unfold handleDeleteUser
  by_cases hadm : s.currentUserIndex < 0 ∨ (!(s.user s.currentUserIndex).isAdmin) = true
  · rw [if_pos hadm]
  · rw [if_neg hadm]
    have hv : ¬ (userId ≥ 0 ∧ userId < s.userCount ∧ userId ≠ s.currentUserIndex) := by
      rintro ⟨h1, h2, h3⟩
      rcases h with h | h | h
      · exact h3 h
      · omega
      · omega
    simp only [if_neg hv]

/-- C10 witness: the logged-in administrator (index 0 of a one-account store)
asks to delete index 0, which is the own account. -/
theorem handleDeleteUser_rejects_witness :
    (handleDeleteUser (some 0) adminLoggedIn).1 = adminLoggedIn :=
  handleDeleteUser_rejects 0 adminLoggedIn (Or.inl (by decide))

/-! ## Record ring -/

/-- The gap-closing loop keeps the number of slots. -/
theorem shiftLoop_length {α : Type} [Inhabited α] (fuel i : Nat) (xs : List α) :
    (shiftLoop fuel i xs).length = xs.length := by
  induction fuel generalizing i xs with
  | zero => rfl
  | succ fuel ih =>
    show (shiftLoop fuel (i + 1) (xs.set i (xs.getD (i + 1) default))).length = xs.length
    rw [ih, List.length_set]

/-- Slot by slot, the gap-closing loop moves the entries `i+1 .. i+fuel` one
slot down and leaves every other slot as it was. -/
theorem shiftLoop_getElem? {α : Type} [Inhabited α] (fuel i : Nat) (xs : List α)
    (h : i + fuel < xs.length) (k : Nat) :
    (shiftLoop fuel i xs)[k]? = if i ≤ k ∧ k < i + fuel then xs[k + 1]? else xs[k]? := by
  induction fuel generalizing i xs with
  | zero =>
    have : ¬ (i ≤ k ∧ k < i + 0) := by omega
    rw [if_neg this]
    rfl
  | succ fuel ih =>
    show (shiftLoop fuel (i + 1) (xs.set i (xs.getD (i + 1) default)))[k]? = _
    rw [ih (i + 1) _ (by rw [List.length_set]; omega)]
    have hi1 : i + 1 < xs.length := by omega
    have hgd : xs.getD (i + 1) default = xs[i + 1] := by
      simp [List.getD_eq_getElem?_getD, List.getElem?_eq_getElem hi1]
    rw [hgd]
    by_cases h1 : i + 1 ≤ k ∧ k < i + 1 + fuel
    · have h2 : i ≤ k ∧ k < i + (fuel + 1) := by omega
      rw [if_pos h1, if_pos h2, List.getElem?_set]
      have h3 : ¬ i = k + 1 := by omega
      rw [if_neg h3]
    · rw [if_neg h1, List.getElem?_set]
      by_cases h2 : i = k
      · subst h2
        have h3 : i ≤ i ∧ i < i + (fuel + 1) := by omega
        have h4 : i < xs.length := by omega
        rw [if_pos rfl, if_pos h3, if_pos h4, List.getElem?_eq_getElem hi1]
      · have h3 : ¬ (i ≤ k ∧ k < i + (fuel + 1)) := by omega
        rw [if_neg h2, if_neg h3]

/-- Shifting a full array down from slot 0 and writing the last slot drops the
oldest entry and appends the new one. -/
theorem shiftLoop_set_last {α : Type} [Inhabited α] (xs : List α) (n : Nat) (r : α)
    (h : xs.length = n + 1) :
    (shiftLoop n 0 xs).set n r = xs.drop 1 ++ [r] := by
  apply List.ext_getElem?
  intro k
  rw [List.getElem?_set, shiftLoop_length, List.getElem?_append, List.getElem?_drop,
    shiftLoop_getElem? n 0 xs (by omega)]
  simp only [List.length_drop, h]
  by_cases h1 : n = k
  · subst h1
    simp
  · by_cases h2 : k < n
    · have h3 : 0 ≤ k ∧ k < 0 + n := by omega
      have h4 : k < n + 1 - 1 := by omega
      rw [if_neg h1, if_pos h3, if_pos h4, Nat.add_comm]
    · have h3 : ¬ (0 ≤ k ∧ k < 0 + n) := by omega
      have h4 : ¬ k < n + 1 - 1 := by omega
      rw [if_neg h1, if_neg h3, if_neg h4]
      have h5 : xs.length ≤ k := by omega
      rw [List.getElem?_eq_none h5]
      have h6 : [r].length ≤ k - (n + 1 - 1) := by simp; omega
      rw [List.getElem?_eq_none h6]

/-- Writing slot `n` extends the first `n` entries by the written value. -/
theorem take_succ_set {α : Type} (xs : List α) (n : Nat) (r : α) (h : n < xs.length) :
    (xs.set n r).take (n + 1) = xs.take n ++ [r] := by
  apply List.ext_getElem?
  intro k
  rw [List.getElem?_take, List.getElem?_append, List.getElem?_set]
  simp only [List.length_take, Nat.min_eq_left (Nat.le_of_lt h)]
  by_cases h1 : k < n
  · have h2 : k < n + 1 := by omega
    have h3 : ¬ n = k := by omega
    simp [h1, h2, h3, List.getElem?_take]
  · by_cases h2 : k = n
    · subst h2
      simp [h]
    · have h3 : ¬ k < n + 1 := by omega
      have h4 : 0 < k - n := by omega
      simp [h1, h3]
      omega

/-- One `pushRecord` on a ring with `n <= 20` used slots: the array keeps its
20 slots, the count becomes `min (n + 1) 20`, and the used slots hold the old
content followed by the new record, without the oldest entry when the ring
was full. -/
theorem pushRecord_ring (r : PulseRecord) (u : User) (n : Nat)
    (hrc : u.recordCount = (n : Int)) (hn : n ≤ 20) (hlen : u.records.length = 20) :
    (pushRecord r u).records.length = 20 ∧
    (pushRecord r u).recordCount = ((min (n + 1) 20 : Nat) : Int) ∧
    (pushRecord r u).records.take (min (n + 1) 20) =
      (u.records.take n ++ [r]).drop (n + 1 - 20) := by
  by_cases hfull : n < 20
  · have hc : ¬ u.recordCount ≥ 20 := by rw [hrc]; omega
    have e : pushRecord r u =
        { u with records := u.records.set n r, recordCount := (n : Int) + 1 } := by
      unfold pushRecord
      rw [if_neg hc]
      simp only [hrc, Int.toNat_ofNat]
    rw [e]
    have hmin : min (n + 1) 20 = n + 1 := by omega
    have hz : n + 1 - 20 = 0 := by omega
    refine ⟨by simp [hlen], ?_, ?_⟩
    · rw [hmin]; rfl
    · rw [hmin, hz, List.drop_zero]
      exact take_succ_set u.records n r (by omega)
  · have hn20 : n = 20 := by omega
    subst hn20
    have hc : u.recordCount ≥ 20 := by rw [hrc]; decide
    have e : pushRecord r u =
        { u with records := (shiftLoop 19 0 u.records).set 19 r, recordCount := 20 } := by
      have h19 : (19 : Int).toNat = 19 := rfl
      unfold pushRecord
      rw [if_pos hc]
      simp only [h19]
      norm_num
    rw [e]
    have hs := shiftLoop_set_last u.records 19 r hlen
    have hmin : min (20 + 1) 20 = 20 := by decide
    rw [hmin]
    refine ⟨by simp [shiftLoop_length, hlen], rfl, ?_⟩
    dsimp only
    rw [hs]
    have h1 : (List.drop 1 u.records ++ [r]).length ≤ 20 := by simp [hlen]
    rw [List.take_of_length_le h1]
    have h2 : List.take 20 u.records = u.records := List.take_of_length_le (by omega)
    rw [h2, List.drop_append_of_le_length (by omega)]

/-- With a valid session index `addPulseRecord` applies `pushRecord` to the
active account and leaves session, `userCount`, `timeBase` and the number of
slots as they were. -/
theorem addPulseRecord_active (pv sv : Int) (now : Nat) (s : State)
    (hc0 : 0 ≤ s.currentUserIndex) (hc1 : s.currentUserIndex < s.userCount)
    (hc2 : s.userCount ≤ s.users.length) :
    (addPulseRecord pv sv now s).currentUserIndex = s.currentUserIndex ∧
    (addPulseRecord pv sv now s).userCount = s.userCount ∧
    (addPulseRecord pv sv now s).timeBase = s.timeBase ∧
    (addPulseRecord pv sv now s).users.length = s.users.length ∧
    (addPulseRecord pv sv now s).user s.currentUserIndex =
      pushRecord (recordOf s.timeBase (pv, sv, now)) (s.user s.currentUserIndex) := by
  have hg : ¬ (s.currentUserIndex < 0 ∨ s.currentUserIndex ≥ s.userCount) := by omega
  have hlt : s.currentUserIndex.toNat < s.users.length := by omega
  simp only [addPulseRecord, if_neg hg, State.user, recordOf, List.length_set]
  refine ⟨trivial, trivial, trivial, trivial, ?_⟩
  simp [List.getD_eq_getElem?_getD, List.getElem?_set, hlt]

/-- Invariant of a run of `addPulseRecord` calls on one active account that
starts from an empty ring. -/
theorem addRecords_invariant (inputs : List (Int × Int × Nat)) (s : State)
    (hc0 : 0 ≤ s.currentUserIndex) (hc1 : s.currentUserIndex < s.userCount)
    (hc2 : s.userCount ≤ s.users.length)
    (hlen : (s.user s.currentUserIndex).records.length = 20)
    (hrc : (s.user s.currentUserIndex).recordCount = 0) :
    (addRecords inputs s).currentUserIndex = s.currentUserIndex ∧
    (addRecords inputs s).userCount = s.userCount ∧
    (addRecords inputs s).timeBase = s.timeBase ∧
    (addRecords inputs s).users.length = s.users.length ∧
    ((addRecords inputs s).user s.currentUserIndex).records.length = 20 ∧
    ((addRecords inputs s).user s.currentUserIndex).recordCount =
      ((min inputs.length 20 : Nat) : Int) ∧
    ((addRecords inputs s).user s.currentUserIndex).records.take (min inputs.length 20) =
      (inputs.map (recordOf s.timeBase)).drop (inputs.length - 20) := by
  induction inputs using List.reverseRecOn with
  | nil =>
    refine ⟨rfl, rfl, rfl, rfl, hlen, ?_, ?_⟩
    · simpa [addRecords] using hrc
    · simp
  | append_singleton l x ih =>
    obtain ⟨i1, i2, i3, i4, i5, i6, i7⟩ := ih
    have hstep : addRecords (l ++ [x]) s =
        addPulseRecord x.1 x.2.1 x.2.2 (addRecords l s) := by
      simp [addRecords, List.foldl_append]
    obtain ⟨a1, a2, a3, a4, a5⟩ := addPulseRecord_active x.1 x.2.1 x.2.2 (addRecords l s)
      (by rw [i1]; exact hc0) (by rw [i1, i2]; exact hc1) (by rw [i2, i4]; exact hc2)
    rw [i1, i3] at a5
    rw [i1] at a1
    rw [i2] at a2
    rw [i3] at a3
    rw [i4] at a4
    obtain ⟨p1, p2, p3⟩ := pushRecord_ring (recordOf s.timeBase (x.1, x.2.1, x.2.2))
      ((addRecords l s).user s.currentUserIndex) (min l.length 20) i6 (Nat.min_le_right _ _) i5
    rw [hstep, a5]
    have hlen1 : (l ++ [x]).length = l.length + 1 := by simp
    have hmin : min (l ++ [x]).length 20 = min (min l.length 20 + 1) 20 := by
      rw [hlen1]; omega
    refine ⟨a1, a2, a3, a4, p1, ?_, ?_⟩
    · rw [p2, hmin]
    · rw [hmin, p3, i7, hlen1, List.map_append, List.map_singleton]
      by_cases hl : l.length < 20
      · have e1 : l.length - 20 = 0 := by omega
        have e2 : min l.length 20 + 1 - 20 = 0 := by omega
        have e3 : l.length + 1 - 20 = 0 := by omega
        rw [e1, e2, e3]
        rfl
      · have e2 : min l.length 20 + 1 - 20 = 1 := by omega
        have e3 : l.length + 1 - 20 = (l.length - 20) + 1 := by omega
        rw [e2, e3]
        have hd : (List.drop (l.length - 20) (List.map (recordOf s.timeBase) l)).length = 20 := by
          simp; omega
        rw [List.drop_append_of_le_length (by omega), List.drop_drop,
          List.drop_append_of_le_length (by simp; omega)]

/-- C2: for every sequence of `addPulseRecord` calls on one active account that
starts from an empty ring, `recordCount` equals `min(n, 20)` and the first
`recordCount` slots hold exactly the last `min(n, 20)` inputs in call order,
oldest at index 0; in particular after 21 calls `recordCount` is 20 and slot
0 holds the record of call number 2. -/
theorem addRecords_ring (inputs : List (Int × Int × Nat)) (s : State)
    (hc0 : 0 ≤ s.currentUserIndex) (hc1 : s.currentUserIndex < s.userCount)
    (hc2 : s.userCount ≤ s.users.length)
    (hlen : (s.user s.currentUserIndex).records.length = 20)
    (hrc : (s.user s.currentUserIndex).recordCount = 0) :
    ((addRecords inputs s).user s.currentUserIndex).recordCount =
      ((min inputs.length 20 : Nat) : Int) ∧
    ((addRecords inputs s).user s.currentUserIndex).records.take (min inputs.length 20) =
      (inputs.map (recordOf s.timeBase)).drop (inputs.length - 20) ∧
    (inputs.length = 21 →
      ((addRecords inputs s).user s.currentUserIndex).recordCount = 20 ∧
      ((addRecords inputs s).user s.currentUserIndex).records[0]? =
        (inputs.map (recordOf s.timeBase))[1]?) := by
  obtain ⟨_, _, _, _, _, i6, i7⟩ := addRecords_invariant inputs s hc0 hc1 hc2 hlen hrc
  refine ⟨i6, i7, ?_⟩
  intro h21
  rw [h21] at i6 i7
  refine ⟨i6, ?_⟩
  have h := congrArg (fun l => l[0]?) i7
  simp only [List.getElem?_take, List.getElem?_drop] at h
  simpa using h

/-- C2 witness: bob, the active account of `bobRegistered`, receives 21
records; the ring then holds 20 and slot 0 is the record of the second call. -/
theorem addRecords_ring_witness :
    ((addRecords twentyOneInputs bobRegistered).user 1).recordCount = 20 ∧
    ((addRecords twentyOneInputs bobRegistered).user 1).records[0]? =
      some { timestamp := 5000, pulseValue := 61, spo2Value := 97 } :=
  (addRecords_ring twentyOneInputs bobRegistered (by decide) (by decide) (by decide)
    rfl rfl).2.2 rfl

/-! ## Registration defaults -/

/-- What a successful `addUser` guarantees on a well-formed store: the new
account sits at index `userCount` with the given name and password, no
bedtime, no wake-up time and an empty record ring, `userCount` grows by one
and all earlier accounts are unchanged.  The `isAdmin` flag of the new account
is not assigned: it is the flag the slot held before. -/
theorem addUser_appends (name pw : String) (s : State)
    (h0 : 0 ≤ s.userCount) (hlen : s.users.length = MAX_USERS)
    (h : (addUser name pw s).2 = true) :
    (addUser name pw s).1.userCount = s.userCount + 1 ∧
    (addUser name pw s).1.user s.userCount =
      { s.user s.userCount with
          username := name, password := pw,
          bedtimeHour := -1, bedtimeMinute := -1,
          wakeupHour := -1, wakeupMinute := -1, recordCount := 0 } ∧
    ((addUser name pw s).1.user s.userCount).isAdmin = (s.user s.userCount).isAdmin ∧
    (∀ k : Nat, (k : Int) < s.userCount →
      (addUser name pw s).1.users.getD k default = s.users.getD k default) := by
  obtain ⟨hlt, _, hst⟩ := addUser_success name pw s h
  have hM : MAX_USERS = 10 := rfl
  have hn : s.userCount.toNat < s.users.length := by rw [hlen, hM]; omega
  rw [hst]
  refine ⟨rfl, ?_, ?_, ?_⟩
  · simp [State.user, List.getD_eq_getElem?_getD, List.getElem?_set, hn]
  · simp [State.user, List.getD_eq_getElem?_getD, List.getElem?_set, hn]
  · intro k hk
    have hk2 : ¬ s.userCount.toNat = k := by omega
    simp [List.getD_eq_getElem?_getD, List.getElem?_set, hk2]

/-- C8 (defect): in the store `afterAdminDeletesBob` one account ("admin") is
left, no account is named "eve", and registering "eve" succeeds; the new
account at index 1 has the defaults for bedtime, wake-up time and record
count, but its `isAdmin` flag is true, inherited from the slot that the
deletion left behind. -/
theorem addUser_inherits_isAdmin :
    afterAdminDeletesBob.userCount = 1 ∧
    findUser "eve" afterAdminDeletesBob = -1 ∧
    (addUser "eve" "x" afterAdminDeletesBob).2 = true ∧
    ((addUser "eve" "x" afterAdminDeletesBob).1.user 1).username = "eve" ∧
    ((addUser "eve" "x" afterAdminDeletesBob).1.user 1).bedtimeHour = -1 ∧
    ((addUser "eve" "x" afterAdminDeletesBob).1.user 1).recordCount = 0 ∧
    ((addUser "eve" "x" afterAdminDeletesBob).1.user 1).isAdmin = true := by
  decide

/-! ## User store: removal of an account -/

/-- Closing the gap at slot `i` of the first `n` slots yields, on the first
`n - 1` slots, the old content without element `i`. -/
theorem shiftLoop_take_eraseIdx {α : Type} [Inhabited α] (xs : List α) (n i : Nat)
    (hn : n ≤ xs.length) (hi : i < n) :
    (shiftLoop (n - 1 - i) i xs).take (n - 1) = (xs.take n).eraseIdx i := by
  apply List.ext_getElem?
  intro k
  rw [List.getElem?_take, shiftLoop_getElem? (n - 1 - i) i xs (by omega) k,
    List.getElem?_eraseIdx, List.getElem?_take, List.getElem?_take]
  by_cases h1 : k < i
  · have h2 : k < n - 1 := by omega
    have h3 : ¬ (i ≤ k ∧ k < i + (n - 1 - i)) := by omega
    have h4 : k < n := by omega
    rw [if_pos h2, if_neg h3, if_pos h1, if_pos h4]
  · by_cases h2 : k < n - 1
    · have h3 : i ≤ k ∧ k < i + (n - 1 - i) := by omega
      have h4 : k + 1 < n := by omega
      rw [if_pos h2, if_pos h3, if_neg h1, if_pos h4]
    · have h4 : ¬ k + 1 < n := by omega
      rw [if_neg h2, if_neg h1, if_neg h4]

/-- Slot by slot reading of the gap-closing loop with `List.getD`. -/
theorem shiftLoop_getD {α : Type} [Inhabited α] (fuel i : Nat) (xs : List α)
    (h : i + fuel < xs.length) (k : Nat) :
    (shiftLoop fuel i xs).getD k default =
      if i ≤ k ∧ k < i + fuel then xs.getD (k + 1) default else xs.getD k default := by
  rw [List.getD_eq_getElem?_getD, shiftLoop_getElem? fuel i xs h k]
  split_ifs <;> simp [List.getD_eq_getElem?_getD]

/-- What `handleDeleteUser` does when the session belongs to an administrator
and the index is valid and not the own one. -/
theorem handleDeleteUser_success (i : Int) (s : State)
    (hc : 0 ≤ s.currentUserIndex) (hadm : (s.user s.currentUserIndex).isAdmin = true)
    (h0 : 0 ≤ i) (h1 : i < s.userCount) (h2 : i ≠ s.currentUserIndex) :
    handleDeleteUser (some i) s =
      ({ s with users := shiftLoop (s.userCount - 1 - i).toNat i.toNat s.users,
                userCount := s.userCount - 1 }, 303) := by
  have hg : ¬ (s.currentUserIndex < 0 ∨ (!(s.user s.currentUserIndex).isAdmin) = true) := by
    rw [hadm]
    simp
    omega
  have hv : i ≥ 0 ∧ i < s.userCount ∧ i ≠ s.currentUserIndex := ⟨h0, h1, h2⟩
  unfold handleDeleteUser
  rw [if_neg hg]
  simp only [if_pos hv]

/-- C11 (counterexample): in `bobRegistered` the session belongs to "bob"
(index 1, not an administrator); index 0 is valid and is not the session's
index, yet `handleDeleteUser` leaves `userCount` at 2 and the store as it is. -/
theorem handleDeleteUser_needs_admin :
    (0 : Int) ≤ 0 ∧ (0 : Int) < bobRegistered.userCount ∧
    (0 : Int) ≠ bobRegistered.currentUserIndex ∧
    (handleDeleteUser (some 0) bobRegistered).1 = bobRegistered ∧
    ¬ ((handleDeleteUser (some 0) bobRegistered).1.userCount = bobRegistered.userCount - 1) := by
  decide

/-- C11 (amended): when the session belongs to an administrator account,
`handleDeleteUser` with a valid index `i` other than the session's index
decreases `userCount` by exactly one, and the new account sequence is the old
one with element `i` removed: the accounts before `i` stay in place, those
after `i` move down by one slot.  Without a session, or with a session that
is not an administrator, the state is left unchanged. -/
theorem handleDeleteUser_removes (i : Int) (s : State)
    (hlen : s.userCount ≤ s.users.length)
    (h0 : 0 ≤ i) (h1 : i < s.userCount) (h2 : i ≠ s.currentUserIndex) :
    ((0 ≤ s.currentUserIndex ∧ (s.user s.currentUserIndex).isAdmin = true) →
      (handleDeleteUser (some i) s).1.userCount = s.userCount - 1 ∧
      (handleDeleteUser (some i) s).1.users.take (s.userCount - 1).toNat =
        (s.users.take s.userCount.toNat).eraseIdx i.toNat ∧
      (∀ k : Nat, (k : Int) < i →
        (handleDeleteUser (some i) s).1.users.getD k default = s.users.getD k default) ∧
      (∀ k : Nat, i ≤ (k : Int) → (k : Int) < s.userCount - 1 →
        (handleDeleteUser (some i) s).1.users.getD k default = s.users.getD (k + 1) default)) ∧
    (¬ (0 ≤ s.currentUserIndex ∧ (s.user s.currentUserIndex).isAdmin = true) →
      (handleDeleteUser (some i) s).1 = s) := by
  constructor
  · rintro ⟨hc, hadm⟩
    rw [handleDeleteUser_success i s hc hadm h0 h1 h2]
    have e1 : (s.userCount - 1 - i).toNat = s.userCount.toNat - 1 - i.toNat := by omega
    have e2 : (s.userCount - 1).toNat = s.userCount.toNat - 1 := by omega
    have hn : s.userCount.toNat ≤ s.users.length := by omega
    have hi : i.toNat < s.userCount.toNat := by omega
    refine ⟨rfl, ?_, ?_, ?_⟩
    · dsimp only
      rw [e1, e2]
      exact shiftLoop_take_eraseIdx s.users s.userCount.toNat i.toNat hn hi
    · intro k hk
      dsimp only
      rw [e1, shiftLoop_getD _ _ _ (by omega) k]
      have hno : ¬ (i.toNat ≤ k ∧ k < i.toNat + (s.userCount.toNat - 1 - i.toNat)) := by omega
      rw [if_neg hno]
    · intro k hk1 hk2
      dsimp only
      rw [e1, shiftLoop_getD _ _ _ (by omega) k]
      have hyes : i.toNat ≤ k ∧ k < i.toNat + (s.userCount.toNat - 1 - i.toNat) := by omega
      rw [if_pos hyes]
  · intro hno
    unfold handleDeleteUser
    have hg : s.currentUserIndex < 0 ∨ (!(s.user s.currentUserIndex).isAdmin) = true := by
      by_cases hc : 0 ≤ s.currentUserIndex
      · right
        cases hb : (s.user s.currentUserIndex).isAdmin
        · rfl
        · exact absurd ⟨hc, hb⟩ hno
      · left
        omega
    rw [if_pos hg]

/-- C11 witness: the administrator of `adminLoggedIn` has let "bob" and
"carol" register and deletes "bob" (index 1): two accounts remain, "admin"
and "carol", in this order. -/
theorem handleDeleteUser_removes_witness :
    (handleDeleteUser (some 1) adminWithTwoUsers).1.userCount = 2 ∧
    ((handleDeleteUser (some 1) adminWithTwoUsers).1.users.take 2).map (fun u => u.username) =
      ["admin", "carol"] :=
  ⟨((handleDeleteUser_removes 1 adminWithTwoUsers (by decide) (by decide) (by decide)
      (by decide)).1 ⟨by decide, by decide⟩).1,
   by decide⟩

/-- C12 (defect): in `adminBetween` the session (index 1) designates "admin";
deleting account 0 succeeds (`userCount` goes from 3 to 2), the session index
is still 1, neither cleared nor reindexed, and now designates "carol". -/
theorem handleDeleteUser_session_shifts :
    adminBetween.currentUserIndex = 1 ∧
    (adminBetween.user adminBetween.currentUserIndex).username = "admin" ∧
    adminBetween.userCount = 3 ∧
    (handleDeleteUser (some 0) adminBetween).1.userCount = 2 ∧
    (handleDeleteUser (some 0) adminBetween).1.currentUserIndex = 1 ∧
    ((handleDeleteUser (some 0) adminBetween).1.user
        (handleDeleteUser (some 0) adminBetween).1.currentUserIndex).username = "carol" ∧
    ((handleDeleteUser (some 0) adminBetween).1.users.getD 0 default).username = "admin" := by
  decide

/-- The session of an administrator keeps designating the same slot content
when the deleted index lies behind the session's index, and
`handleDeleteUser` never writes `currentUserIndex`. -/
theorem handleDeleteUser_session_before (i : Int) (s : State)
    (hlen : s.userCount ≤ s.users.length)
    (hc : 0 ≤ s.currentUserIndex) (hadm : (s.user s.currentUserIndex).isAdmin = true)
    (h1 : i < s.userCount) (h2 : s.currentUserIndex < i) :
    (handleDeleteUser (some i) s).1.currentUserIndex = s.currentUserIndex ∧
    (handleDeleteUser (some i) s).1.user s.currentUserIndex = s.user s.currentUserIndex := by
  rw [handleDeleteUser_success i s hc hadm (by omega) h1 (by omega)]
  refine ⟨rfl, ?_⟩
  show (shiftLoop (s.userCount - 1 - i).toNat i.toNat s.users).getD s.currentUserIndex.toNat
    default = s.users.getD s.currentUserIndex.toNat default
  rw [shiftLoop_getD _ _ _ (by omega) s.currentUserIndex.toNat]
  have hno : ¬ (i.toNat ≤ s.currentUserIndex.toNat ∧
      s.currentUserIndex.toNat < i.toNat + (s.userCount - 1 - i).toNat) := by omega
  rw [if_neg hno]

/-! ## Persistence and the administrator account -/

/-- C13 (defect): the first-boot store holds "admin" with `isAdmin = true`;
the document written by `saveUsers` has no `isAdmin` member, so after
`loadUsers` of that document the account "admin" is back with the same name,
password and record count but with `isAdmin = false`. -/
theorem saveUsers_drops_isAdmin :
    firstBoot.userCount = 1 ∧
    (firstBoot.user 0).username = "admin" ∧
    (firstBoot.user 0).isAdmin = true ∧
    (saveUsers firstBoot).users.map (fun d => d.isAdmin) = [none] ∧
    rebooted.userCount = 1 ∧
    (rebooted.user 0).username = "admin" ∧
    (rebooted.user 0).password = "admin" ∧
    (rebooted.user 0).recordCount = 0 ∧
    (rebooted.user 0).isAdmin = false := by
  decide

/-- A slot written by `List.set` reads back the written value, every other
slot its old value. -/
theorem getD_set_users (us : List User) (n k : Nat) (u : User) (hn : n < us.length) :
    (us.set n u).getD k default = if k = n then u else us.getD k default := by
  by_cases hk : k = n
  · subst hk
    simp [List.getD_eq_getElem?_getD, List.getElem?_set, hn]
  · have hk2 : ¬ n = k := fun e => hk e.symm
    simp [List.getD_eq_getElem?_getD, List.getElem?_set, hk, hk2]

/-- The lookup finds a name that slot `n < userCount` carries. -/
theorem findUser_nonneg_of_slot (name : String) (s : State) (n : Nat)
    (hn : (n : Int) < s.userCount) (h : (s.users.getD n default).username = name) :
    findUser name s ≥ 0 :=
  (findUser_nonneg_iff name s).mpr ⟨n, hn, h⟩

/-- With an account named "admin" in the store `createAdminIfNeeded` returns
the state as it was. -/
theorem createAdminIfNeeded_found (s : State) (h : findUser "admin" s ≥ 0) :
    createAdminIfNeeded s = s := by
  have h2 : ¬ findUser "admin" s < 0 := by omega
  simp only [createAdminIfNeeded, if_neg h2]

/-- Without an account named "admin" `createAdminIfNeeded` writes the
administrator into `users[userCount]` and counts it. -/
theorem createAdminIfNeeded_absent (s : State) (h : findUser "admin" s < 0) :
    createAdminIfNeeded s =
      { s with users := s.users.set s.userCount.toNat
                 { s.user s.userCount with
                     username := "admin", password := "admin",
                     bedtimeHour := -1, bedtimeMinute := -1,
                     wakeupHour := -1, wakeupMinute := -1, recordCount := 0,
                     isAdmin := true },
               userCount := s.userCount + 1 } := by
  simp only [createAdminIfNeeded, if_pos h]

/-- After `createAdminIfNeeded` an account named "admin" is among the stored
accounts, provided one was there before or the slot `users[userCount]` lies
inside the array. -/
theorem createAdminIfNeeded_has_admin (s : State)
    (h : findUser "admin" s ≥ 0 ∨ (0 ≤ s.userCount ∧ s.userCount < s.users.length)) :
    ∃ k : Nat, (k : Int) < (createAdminIfNeeded s).userCount ∧
      ((createAdminIfNeeded s).users.getD k default).username = "admin" := by
  by_cases hf : findUser "admin" s ≥ 0
  · rw [createAdminIfNeeded_found s hf]
    exact (findUser_nonneg_iff "admin" s).mp hf
  · rcases h with h | ⟨h0, hlt⟩
    · exact absurd h hf
    · rw [createAdminIfNeeded_absent s (by omega)]
      have hn : s.userCount.toNat < s.users.length := by omega
      refine ⟨s.userCount.toNat, ?_, ?_⟩
      · show ((s.userCount.toNat : Nat) : Int) < s.userCount + 1
        omega
      · show ((s.users.set _ _).getD s.userCount.toNat default).username = "admin"
        rw [getD_set_users _ _ _ _ hn, if_pos rfl]

/-- C14 (counterexample): the rebooted store holds the single account "admin"
with `isAdmin = false`; `createAdminIfNeeded` finds the name and returns the
store unchanged, so afterwards no account has `isAdmin = true`, and none was
created although none had the flag before. -/
theorem createAdminIfNeeded_ignores_flag :
    createAdminIfNeeded rebooted = rebooted ∧
    ¬ (∃ k : Nat, (k : Int) < (createAdminIfNeeded rebooted).userCount ∧
        ((createAdminIfNeeded rebooted).users.getD k default).isAdmin = true) := by
  refine ⟨by decide, ?_⟩
  rintro ⟨k, hk, hadm⟩
  have huc : (createAdminIfNeeded rebooted).userCount = 1 := by decide
  rw [huc] at hk
  have hk0 : k = 0 := by omega
  subst hk0
  revert hadm
  decide

/-- C14 (amended): `createAdminIfNeeded` decides by the user name.  It leaves
the state unchanged when an account named "admin" exists, whatever the
`isAdmin` flags are, and creates the administrator exactly when no account is
named "admin": then, the slot `users[userCount]` being inside the array, the
new account has name and password "admin", no bedtime, no wake-up time, no
records and `isAdmin = true`, and the earlier accounts are unchanged.  In both
cases an account named "admin" exists afterwards. -/
theorem createAdminIfNeeded_by_name (s : State) :
    (findUser "admin" s ≥ 0 → createAdminIfNeeded s = s) ∧
    ((createAdminIfNeeded s).userCount = s.userCount + 1 ↔
      ¬ ∃ k : Nat, (k : Int) < s.userCount ∧ (s.users.getD k default).username = "admin") ∧
    (findUser "admin" s < 0 → 0 ≤ s.userCount → s.userCount < s.users.length →
      (createAdminIfNeeded s).user s.userCount =
        { s.user s.userCount with
            username := "admin", password := "admin",
            bedtimeHour := -1, bedtimeMinute := -1,
            wakeupHour := -1, wakeupMinute := -1, recordCount := 0, isAdmin := true } ∧
      ((createAdminIfNeeded s).user s.userCount).isAdmin = true ∧
      (∀ k : Nat, (k : Int) < s.userCount →
        (createAdminIfNeeded s).users.getD k default = s.users.getD k default)) ∧
    ((findUser "admin" s ≥ 0 ∨ (0 ≤ s.userCount ∧ s.userCount < s.users.length)) →
      ∃ k : Nat, (k : Int) < (createAdminIfNeeded s).userCount ∧
        ((createAdminIfNeeded s).users.getD k default).username = "admin") := by
  have hiff := findUser_nonneg_iff "admin" s
  have hcreate := createAdminIfNeeded_absent s
  have hkeep := createAdminIfNeeded_found s
  refine ⟨hkeep, ?_, ?_, createAdminIfNeeded_has_admin s⟩
  · by_cases hf : findUser "admin" s ≥ 0
    · rw [hkeep hf]
      constructor
      · intro h; omega
      · intro h; exact absurd (hiff.mp hf) h
    · rw [hcreate (by omega)]
      constructor
      · intro _ h
        exact hf (hiff.mpr h)
      · intro _; rfl
  · intro hf h0 hlt
    rw [hcreate hf]
    have hn : s.userCount.toNat < s.users.length := by omega
    refine ⟨?_, ?_, ?_⟩
    · show (s.users.set _ _).getD s.userCount.toNat default = _
      rw [getD_set_users _ _ _ _ hn, if_pos rfl]
    · show ((s.users.set _ _).getD s.userCount.toNat default).isAdmin = true
      rw [getD_set_users _ _ _ _ hn, if_pos rfl]
    · intro k hk
      show (s.users.set _ _).getD k default = _
      have hne : ¬ k = s.userCount.toNat := by omega
      rw [getD_set_users _ _ _ _ hn, if_neg hne]

/-- Where it stays inside the array, `createAdminIfNeeded` is idempotent: on
every store in which an account named "admin" exists or the slot
`users[userCount]` lies inside the array, a second run returns the state of
the first run, and one run adds at most one account. -/
theorem createAdminIfNeeded_idempotent (s : State)
    (h : findUser "admin" s ≥ 0 ∨ (0 ≤ s.userCount ∧ s.userCount < s.users.length)) :
    createAdminIfNeeded (createAdminIfNeeded s) = createAdminIfNeeded s ∧
    s.userCount ≤ (createAdminIfNeeded s).userCount ∧
    (createAdminIfNeeded s).userCount ≤ s.userCount + 1 := by
  have hkeep := createAdminIfNeeded_found s
  obtain ⟨k, hk1, hk2⟩ := createAdminIfNeeded_has_admin s h
  have hfound := findUser_nonneg_of_slot "admin" (createAdminIfNeeded s) k hk1 hk2
  refine ⟨createAdminIfNeeded_found (createAdminIfNeeded s) hfound, ?_, ?_⟩
  · by_cases hf : findUser "admin" s ≥ 0
    · rw [hkeep hf]
    · have hlt : findUser "admin" s < 0 := by omega
      simp only [createAdminIfNeeded, if_pos hlt]
      omega
  · by_cases hf : findUser "admin" s ≥ 0
    · rw [hkeep hf]
      omega
    · have hlt : findUser "admin" s < 0 := by omega
      simp only [createAdminIfNeeded, if_pos hlt]
      omega

/-- On the empty initial store the first run creates the administrator and the
second run changes nothing. -/
theorem createAdminIfNeeded_idempotent_witness :
    createAdminIfNeeded (createAdminIfNeeded State.init) = createAdminIfNeeded State.init ∧
    (createAdminIfNeeded State.init).userCount = 1 :=
  ⟨(createAdminIfNeeded_idempotent State.init (Or.inr ⟨by decide, by decide⟩)).1, by decide⟩

/-- C16 (defect): `loadUsers` on a document with ten accounts, none named
"admin", fills all ten slots (`userCount = 10`) and then runs
`createAdminIfNeeded`, which does not test the capacity: it writes the
administrator at index 10, outside the array, and `userCount` becomes 11. -/
theorem createAdminIfNeeded_overflows :
    loadUsers (some tenUsersDoc) State.init = createAdminIfNeeded tenLoaded ∧
    tenLoaded.userCount = 10 ∧
    tenLoaded.users.length = 10 ∧
    findUser "admin" tenLoaded = -1 ∧
    (createAdminIfNeeded tenLoaded).userCount = 11 ∧
    ¬ ((loadUsers (some tenUsersDoc) State.init).userCount ≤ 10) := by
  decide

/-- The operations that keep the capacity bound: on a store with
`0 <= userCount <= 10`, `handleRegister` and `handleDeleteUser` keep the
bound, and `createAdminIfNeeded` keeps it when an account named "admin"
exists or fewer than ten accounts are stored. -/
theorem userCount_bound_kept (s : State) (h0 : 0 ≤ s.userCount) (h1 : s.userCount ≤ 10) :
    (∀ u p, 0 ≤ (handleRegister u p s).1.userCount ∧ (handleRegister u p s).1.userCount ≤ 10) ∧
    (∀ id, 0 ≤ (handleDeleteUser id s).1.userCount ∧ (handleDeleteUser id s).1.userCount ≤ 10) ∧
    ((findUser "admin" s ≥ 0 ∨ s.userCount < 10) →
      0 ≤ (createAdminIfNeeded s).userCount ∧ (createAdminIfNeeded s).userCount ≤ 10) := by
  refine ⟨?_, ?_, ?_⟩
  · intro u p
    cases u with
    | none => exact ⟨h0, h1⟩
    | some name =>
      cases p with
      | none => exact ⟨h0, h1⟩
      | some pw =>
        cases hb : (addUser name pw s).2
        · rw [(addUser_false_unchanged name pw s hb).2]
          exact ⟨h0, h1⟩
        · obtain ⟨hlt, _, hst⟩ := addUser_success name pw s hb
          have e : (handleRegister (some name) (some pw) s).1.userCount =
              (addUser name pw s).1.userCount := by
            unfold handleRegister
            rcases hres : addUser name pw s with ⟨s1, b⟩
            rw [hres] at hb
            simp only at hb
            subst hb
            simp only [hres]
          rw [e, hst]
          show 0 ≤ s.userCount + 1 ∧ s.userCount + 1 ≤ 10
          omega
  · intro id
    unfold handleDeleteUser
    split_ifs with hg
    · exact ⟨h0, h1⟩
    · cases id with
      | none => exact ⟨h0, h1⟩
      | some userId =>
        dsimp only
        split_ifs with hv
        · show 0 ≤ s.userCount - 1 ∧ s.userCount - 1 ≤ 10
          omega
        · exact ⟨h0, h1⟩
  · intro h
    by_cases hf : findUser "admin" s ≥ 0
    · rw [createAdminIfNeeded_found s hf]
      exact ⟨h0, h1⟩
    · have hlt : findUser "admin" s < 0 := by omega
      have h10 : s.userCount < 10 := by
        rcases h with h | h
        · exact absurd h hf
        · exact h
      simp only [createAdminIfNeeded, if_pos hlt]
      omega

/-! ## Uniqueness of user names -/

/-- Appending an account whose name none of the stored accounts carries keeps
the names unique. -/
theorem uniqueNames_append (s : State) (u : User)
    (hu : UniqueNames s) (h0 : 0 ≤ s.userCount) (hlt : s.userCount < s.users.length)
    (hnew : ∀ k : Nat, (k : Int) < s.userCount → (s.users.getD k default).username ≠ u.username) :
    UniqueNames { s with users := s.users.set s.userCount.toNat u,
                         userCount := s.userCount + 1 } := by
  have hn : s.userCount.toNat < s.users.length := by omega
  intro i j hij hj
  have hj2 : (j : Int) < s.userCount + 1 := hj
  show ((s.users.set _ _).getD i default).username ≠ ((s.users.set _ _).getD j default).username
  rw [getD_set_users _ _ _ _ hn, getD_set_users _ _ _ _ hn]
  have hi : ¬ i = s.userCount.toNat := by omega
  rw [if_neg hi]
  by_cases hjn : j = s.userCount.toNat
  · rw [if_pos hjn]
    exact hnew i (by omega)
  · rw [if_neg hjn]
    exact hu i j hij (by omega)

/-- Where the operations stay inside the array they keep the names unique: on
a well-formed store (`0 <= userCount <= 10`, ten slots) whose first
`userCount` accounts carry pairwise different user names, the names are still
pairwise different after `handleRegister`, after `handleDeleteUser`, and after
`createAdminIfNeeded` when an account named "admin" exists or fewer than ten
accounts are stored. -/
theorem uniqueNames_preserved (s : State) (hu : UniqueNames s)
    (h0 : 0 ≤ s.userCount) (h1 : s.userCount ≤ 10) (hlen : s.users.length = MAX_USERS) :
    (∀ u p, UniqueNames (handleRegister u p s).1) ∧
    (∀ name pw, UniqueNames (addUser name pw s).1) ∧
    ((findUser "admin" s ≥ 0 ∨ s.userCount < 10) → UniqueNames (createAdminIfNeeded s)) ∧
    (∀ id, UniqueNames (handleDeleteUser id s).1) := by
  have hM : MAX_USERS = 10 := rfl
  have hadd : ∀ name pw, UniqueNames (addUser name pw s).1 := by
    intro name pw
    cases hb : (addUser name pw s).2
    · rw [(addUser_false_unchanged name pw s hb).1]
      exact hu
    · obtain ⟨hlt, hnf, hst⟩ := addUser_success name pw s hb
      rw [hst]
      apply uniqueNames_append s _ hu h0 (by rw [hlen, hM]; omega)
      intro k hk hm
      have := findUser_nonneg_of_slot name s k hk hm
      omega
  refine ⟨?_, hadd, ?_, ?_⟩
  · intro u p
    cases u with
    | none => exact hu
    | some name =>
      cases p with
      | none => exact hu
      | some pw =>
        cases hb : (addUser name pw s).2
        · rw [(addUser_false_unchanged name pw s hb).2]
          exact hu
        · have e : (handleRegister (some name) (some pw) s).1 =
              { (addUser name pw s).1 with
                  currentUserIndex := findUser name (addUser name pw s).1 } := by
            unfold handleRegister
            rcases hres : addUser name pw s with ⟨s1, b⟩
            rw [hres] at hb
            simp only at hb
            subst hb
            simp only [hres]
          rw [e]
          exact hadd name pw
  · intro h
    by_cases hf : findUser "admin" s ≥ 0
    · rw [createAdminIfNeeded_found s hf]
      exact hu
    · have hlt : findUser "admin" s < 0 := by omega
      have h10 : s.userCount < 10 := by
        rcases h with h | h
        · exact absurd h hf
        · exact h
      simp only [createAdminIfNeeded, if_pos hlt]
      apply uniqueNames_append s _ hu h0 (by rw [hlen, hM]; omega)
      intro k hk hm
      have := findUser_nonneg_of_slot "admin" s k hk hm
      omega
  · intro id
    unfold handleDeleteUser
    split_ifs with hg
    · exact hu
    · cases id with
      | none => exact hu
      | some userId =>
        dsimp only
        split_ifs with hv
        · obtain ⟨hv0, hv1, _⟩ := hv
          intro i j hij hj
          have hj2 : (j : Int) < s.userCount - 1 := hj
          have hbound : userId.toNat + (s.userCount - 1 - userId).toNat < s.users.length := by
            rw [hlen, hM]; omega
          show ((shiftLoop _ _ s.users).getD i default).username ≠
            ((shiftLoop _ _ s.users).getD j default).username
          rw [shiftLoop_getD _ _ _ hbound i, shiftLoop_getD _ _ _ hbound j]
          split_ifs with hi hj3
          · exact hu (i + 1) (j + 1) (by omega) (by omega)
          · omega
          · exact hu i (j + 1) (by omega) (by omega)
          · exact hu i j hij (by omega)
        · exact hu

/-- The store with "admin", "bob" and "carol" has unique names, and so has
every store that one of the three operations makes of it. -/
theorem uniqueNames_preserved_witness :
    UniqueNames (handleRegister (some "dave") (some "pw") adminWithTwoUsers).1 ∧
    UniqueNames (createAdminIfNeeded adminWithTwoUsers) ∧
    UniqueNames (handleDeleteUser (some 1) adminWithTwoUsers).1 :=
  have hu : UniqueNames adminWithTwoUsers := by
    intro i j hij hj
    have hj3 : (j : Int) < 3 := hj
    have hcases : (i = 0 ∧ j = 1) ∨ (i = 0 ∧ j = 2) ∨ (i = 1 ∧ j = 2) := by omega
    rcases hcases with ⟨rfl, rfl⟩ | ⟨rfl, rfl⟩ | ⟨rfl, rfl⟩ <;> decide
  have h := uniqueNames_preserved adminWithTwoUsers hu (by decide) (by decide) (by decide)
  ⟨h.1 (some "dave") (some "pw"), h.2.2.1 (Or.inl (by decide)), h.2.2.2 (some 1)⟩

/-- The three outcomes of a `calculateSpO2` call with a finger present whose
time gate is open: below 100 samples it appends one, at 100 it calls the
vendor routine and restarts the buffer. -/
theorem calculateSpO2_gated (res : SpO2Result) (now red : Nat) (s : State)
    (hf : s.irValue ≥ FINGER_THRESHOLD) (hg : usub now s.lastSampleTime ≥ sampleInterval) :
    (s.spo2BufferIndex < SPO2_BUFFER_SIZE →
      (calculateSpO2 res now red s).2 = false ∧
      (calculateSpO2 res now red s).1.spo2BufferIndex = (s.spo2BufferIndex + 1) % 256 ∧
      (calculateSpO2 res now red s).1.spo2 = s.spo2) ∧
    (¬ s.spo2BufferIndex < SPO2_BUFFER_SIZE →
      (calculateSpO2 res now red s).2 = true ∧
      (calculateSpO2 res now red s).1.spo2BufferIndex = 0 ∧
      (calculateSpO2 res now red s).1.spo2 =
        if res.validSPO2 = 1 ∧ res.spo2Value > 0 ∧ res.spo2Value ≤ 100 then res.spo2Value
        else s.spo2) ∧
    (calculateSpO2 res now red s).1.irValue = s.irValue ∧
    (calculateSpO2 res now red s).1.lastSampleTime = now % ULONG_MOD := by
  have hf2 : ¬ s.irValue < FINGER_THRESHOLD := by omega
  unfold calculateSpO2
  rw [if_neg hf2, if_pos hg]
  dsimp only
  refine ⟨?_, ?_, ?_, ?_⟩
  · intro h
    rw [if_pos h]
    exact ⟨rfl, rfl, rfl⟩
  · intro h
    rw [if_neg h]
    refine ⟨rfl, rfl, ?_⟩
    split_ifs <;> rfl
  · split_ifs <;> rfl
  · split_ifs <;> rfl

/-- C18: when a finger is present, the time gate is open and the buffer is
full, `calculateSpO2` calls the vendor routine, and the stored `spo2` becomes
the computed value if and only if the result is flagged valid
(`validSPO2 == 1`) and `0 < value <= 100`; otherwise `spo2` keeps its
previous value. -/
theorem calculateSpO2_accepts_iff (res : SpO2Result) (now red : Nat) (s : State)
    (hf : s.irValue ≥ FINGER_THRESHOLD) (hg : usub now s.lastSampleTime ≥ sampleInterval)
    (hfull : s.spo2BufferIndex ≥ SPO2_BUFFER_SIZE) :
    (calculateSpO2 res now red s).2 = true ∧
    ((res.validSPO2 = 1 ∧ 0 < res.spo2Value ∧ res.spo2Value ≤ 100) →
      (calculateSpO2 res now red s).1.spo2 = res.spo2Value) ∧
    (¬ (res.validSPO2 = 1 ∧ 0 < res.spo2Value ∧ res.spo2Value ≤ 100) →
      (calculateSpO2 res now red s).1.spo2 = s.spo2) := by
  have hnl : ¬ s.spo2BufferIndex < SPO2_BUFFER_SIZE := by omega
  obtain ⟨h1, h2, h3⟩ := (calculateSpO2_gated res now red s hf hg).2.1 hnl
  refine ⟨h1, ?_, ?_⟩
  · intro hv
    have hv2 : res.validSPO2 = 1 ∧ res.spo2Value > 0 ∧ res.spo2Value ≤ 100 := hv
    rw [h3, if_pos hv2]
  · intro hv
    have hv2 : ¬ (res.validSPO2 = 1 ∧ res.spo2Value > 0 ∧ res.spo2Value ≤ 100) := hv
    rw [h3, if_neg hv2]

/-- C18 witness: with a full buffer a valid result 97 replaces the stored 95,
and an invalid result leaves 95. -/
theorem calculateSpO2_accepts_iff_witness :
    (calculateSpO2 ⟨97, 1, 70, 1⟩ 1000 0 fullBuffer).1.spo2 = 97 ∧
    (calculateSpO2 ⟨-999, 0, -999, 0⟩ 1000 0 fullBuffer).1.spo2 = 95 :=
  ⟨(calculateSpO2_accepts_iff ⟨97, 1, 70, 1⟩ 1000 0 fullBuffer (by decide) (by decide)
      (by decide)).2.1 (by decide),
   (calculateSpO2_accepts_iff ⟨-999, 0, -999, 0⟩ 1000 0 fullBuffer (by decide) (by decide)
      (by decide)).2.2 (by decide)⟩

/-- Each operation that writes `spo2`, and each operation that steers such a
write, keeps `spo2` within `[0, 100]`. -/
theorem VitalsOp.step_spo2_range (op : VitalsOp) (s : State)
    (h0 : 0 ≤ s.spo2) (h1 : s.spo2 ≤ 100) :
    0 ≤ (op.step s).spo2 ∧ (op.step s).spo2 ≤ 100 := by
  have hz : (0 : Int) ≤ 0 ∧ (0 : Int) ≤ 100 := ⟨le_refl _, by decide⟩
  cases op with
  | fingerPoll ir =>
    show 0 ≤ (checkFingerPresence ir s).spo2 ∧ (checkFingerPresence ir s).spo2 ≤ 100
    unfold checkFingerPresence
    dsimp only
    split_ifs <;> exact ⟨h0, h1⟩
  | beat b t1 t2 =>
    show 0 ≤ (readSensorData b t1 t2 s).spo2 ∧ (readSensorData b t1 t2 s).spo2 ≤ 100
    unfold readSensorData
    dsimp only
    split_ifs <;> exact ⟨h0, h1⟩
  | spo2Tick res now red =>
    show 0 ≤ (calculateSpO2 res now red s).1.spo2 ∧ (calculateSpO2 res now red s).1.spo2 ≤ 100
    unfold calculateSpO2
    dsimp only
    split_ifs with c1 c2 c3 c4
    · exact hz
    · exact ⟨h0, h1⟩
    · exact ⟨le_of_lt c4.2.1, c4.2.2⟩
    · exact ⟨h0, h1⟩
    · exact ⟨h0, h1⟩
  | decay now =>
    show 0 ≤ (absenceDecay now s).spo2 ∧ (absenceDecay now s).spo2 ≤ 100
    unfold absenceDecay
    dsimp only
    split_ifs with c1 c2 c3 c3
    · show 0 ≤ s.spo2 - 1 ∧ s.spo2 - 1 ≤ 100
      have c3b : s.spo2 > 0 := c3
      omega
    · exact ⟨h0, h1⟩
    · show 0 ≤ s.spo2 - 1 ∧ s.spo2 - 1 ≤ 100
      have c3b : s.spo2 > 0 := c3
      omega
    · exact ⟨h0, h1⟩
    · exact ⟨h0, h1⟩
  | login u p =>
    show 0 ≤ (handleLogin u p s).1.spo2 ∧ (handleLogin u p s).1.spo2 ≤ 100
    unfold handleLogin
    cases u with
    | none => exact ⟨h0, h1⟩
    | some username =>
      cases p with
      | none => exact ⟨h0, h1⟩
      | some password =>
        dsimp only
        split_ifs
        · exact hz
        · exact ⟨h0, h1⟩
  | register u p =>
    show 0 ≤ (handleRegister u p s).1.spo2 ∧ (handleRegister u p s).1.spo2 ≤ 100
    cases u with
    | none => exact ⟨h0, h1⟩
    | some name =>
      cases p with
      | none => exact ⟨h0, h1⟩
      | some pw =>
        cases hb : (addUser name pw s).2
        · rw [(addUser_false_unchanged name pw s hb).2]
          exact ⟨h0, h1⟩
        · obtain ⟨_, _, hst⟩ := addUser_success name pw s hb
          have e : (handleRegister (some name) (some pw) s).1.spo2 =
              (addUser name pw s).1.spo2 := by
            unfold handleRegister
            rcases hres : addUser name pw s with ⟨s1, b⟩
            rw [hres] at hb
            simp only at hb
            subst hb
            simp only [hres]
          rw [e, hst]
          exact ⟨h0, h1⟩
  | logout => exact hz

/-- C20: `spo2` always lies in `[0, 100]`: the range is kept by every run of
the operations that write `spo2` (SpO2 computation and finger-removal reset in
`calculateSpO2`, absence decay, `handleLogin`, `handleLogout`) interleaved
with finger polls, beat readings and registrations, and it holds on every run
that starts from the initial state, where `spo2 = 0`. -/
theorem runVitals_spo2_range (ops : List VitalsOp) (s : State)
    (h0 : 0 ≤ s.spo2) (h1 : s.spo2 ≤ 100) :
    0 ≤ (runVitals ops s).spo2 ∧ (runVitals ops s).spo2 ≤ 100 ∧
    0 ≤ (runVitals ops State.init).spo2 ∧ (runVitals ops State.init).spo2 ≤ 100 := by
  have key : ∀ (l : List VitalsOp) (st : State), 0 ≤ st.spo2 → st.spo2 ≤ 100 →
      0 ≤ (runVitals l st).spo2 ∧ (runVitals l st).spo2 ≤ 100 := by
    intro l
    induction l with
    | nil => intro st a b; exact ⟨a, b⟩
    | cons op rest ih =>
      intro st a b
      obtain ⟨a2, b2⟩ := VitalsOp.step_spo2_range op st a b
      exact ih (op.step st) a2 b2
  obtain ⟨k1, k2⟩ := key ops s h0 h1
  obtain ⟨k3, k4⟩ := key ops State.init (le_refl _) (by decide)
  exact ⟨k1, k2, k3, k4⟩

/-- C20 witness: from a stored value of 95 with a full buffer, an out-of-range
result flagged valid is not accepted, two decay steps follow, and the value
stays within the range. -/
theorem runVitals_spo2_range_witness :
    0 ≤ (runVitals [.spo2Tick ⟨250, 1, 70, 1⟩ 1000 0, .fingerPoll 0, .decay 5000, .decay 9000]
          fullBuffer).spo2 ∧
    (runVitals [.spo2Tick ⟨250, 1, 70, 1⟩ 1000 0, .fingerPoll 0, .decay 5000, .decay 9000]
          fullBuffer).spo2 ≤ 100 :=
  ⟨(runVitals_spo2_range _ fullBuffer (by decide) (by decide)).1,
   (runVitals_spo2_range _ fullBuffer (by decide) (by decide)).2.1⟩

/-! ## Round trip through the persisted document -/

/-- Slot by slot, the record loop of `loadUsers` overwrites the slots
`j .. j + fuel - 1` with the loaded records and leaves the others. -/
theorem loadRecordsLoop_getElem? (docs : List RecordDoc) (fuel j : Nat) (recs : List PulseRecord)
    (h : j + fuel ≤ recs.length) (k : Nat) :
    (loadRecordsLoop docs fuel j recs)[k]? =
      if j ≤ k ∧ k < j + fuel then some (loadRecord (docs.getD k default)) else recs[k]? := by
  induction fuel generalizing j recs with
  | zero =>
    have hno : ¬ (j ≤ k ∧ k < j + 0) := by omega
    rw [if_neg hno]
    rfl
  | succ fuel ih =>
    show (loadRecordsLoop docs fuel (j + 1) (recs.set j (loadRecord (docs.getD j default))))[k]? = _
    rw [ih (j + 1) _ (by rw [List.length_set]; omega), List.getElem?_set]
    by_cases h1 : j + 1 ≤ k ∧ k < j + 1 + fuel
    · have h2 : j ≤ k ∧ k < j + (fuel + 1) := by omega
      rw [if_pos h1, if_pos h2]
    · rw [if_neg h1]
      by_cases h2 : j = k
      · subst h2
        have h3 : j ≤ j ∧ j < j + (fuel + 1) := by omega
        have h4 : j < recs.length := by omega
        rw [if_pos rfl, if_pos h4, if_pos h3]
      · have h3 : ¬ (j ≤ k ∧ k < j + (fuel + 1)) := by omega
        rw [if_neg h2, if_neg h3]

/-- Slot by slot, the user loop of `loadUsers` overwrites the slots
`i .. i + fuel - 1` with the loaded accounts and leaves the others. -/
theorem loadUsersLoop_getD (docs : List UserDoc) (fuel i : Nat) (us : List User)
    (h : i + fuel ≤ us.length) (k : Nat) :
    (loadUsersLoop docs fuel i us).getD k default =
      if i ≤ k ∧ k < i + fuel then loadUser (docs.getD k default) (us.getD k default)
      else us.getD k default := by
  induction fuel generalizing i us with
  | zero =>
    have hno : ¬ (i ≤ k ∧ k < i + 0) := by omega
    rw [if_neg hno]
    rfl
  | succ fuel ih =>
    show (loadUsersLoop docs fuel (i + 1)
      (us.set i (loadUser (docs.getD i default) (us.getD i default)))).getD k default = _
    have hi : i < us.length := by omega
    rw [ih (i + 1) _ (by rw [List.length_set]; omega), getD_set_users _ _ _ _ hi]
    by_cases h1 : i + 1 ≤ k ∧ k < i + 1 + fuel
    · have h2 : i ≤ k ∧ k < i + (fuel + 1) := by omega
      have h3 : ¬ k = i := by omega
      rw [if_pos h1, if_pos h2, if_neg h3]
    · rw [if_neg h1]
      by_cases h2 : k = i
      · subst h2
        have h3 : k ≤ k ∧ k < k + (fuel + 1) := by omega
        rw [if_pos rfl, if_pos h3]
      · have h3 : ¬ (i ≤ k ∧ k < i + (fuel + 1)) := by omega
        rw [if_neg h2, if_neg h3]

/-- The user loop of `loadUsers` keeps the number of slots. -/
theorem loadUsersLoop_length (docs : List UserDoc) (fuel i : Nat) (us : List User) :
    (loadUsersLoop docs fuel i us).length = us.length := by
  induction fuel generalizing i us with
  | zero => rfl
  | succ fuel ih =>
    show (loadUsersLoop docs fuel (i + 1) (us.set i _)).length = us.length
    rw [ih, List.length_set]

/-- The document of `saveUsers` holds, at every index below `userCount`, the
user object of that account. -/
theorem saveUsers_getD (s : State) (k : Nat) (hk : (k : Int) < s.userCount) :
    (saveUsers s).users.getD k default = saveUser (s.users.getD k default) := by
  have hk2 : k < s.userCount.toNat := by omega
  simp [saveUsers, List.getD_eq_getElem?_getD, List.getElem?_map, List.getElem?_range hk2]

/-- Loading the user object written for `u` into a slot with 20 record slots
restores every field of `u` except `isAdmin`, which becomes false, and
restores the first `recordCount` records. -/
theorem loadUser_saveUser (u u0 : User)
    (hrc0 : 0 ≤ u.recordCount) (hrc1 : u.recordCount ≤ 20)
    (hlen : u.records.length = MAX_RECORDS) (hlen0 : u0.records.length = MAX_RECORDS)
    (hts : ∀ j : Nat, (j : Int) < u.recordCount →
      (u.records.getD j default).timestamp < ULONG_MOD) :
    (loadUser (saveUser u) u0).username = u.username ∧
    (loadUser (saveUser u) u0).password = u.password ∧
    (loadUser (saveUser u) u0).bedtimeHour = u.bedtimeHour ∧
    (loadUser (saveUser u) u0).bedtimeMinute = u.bedtimeMinute ∧
    (loadUser (saveUser u) u0).wakeupHour = u.wakeupHour ∧
    (loadUser (saveUser u) u0).wakeupMinute = u.wakeupMinute ∧
    (loadUser (saveUser u) u0).recordCount = u.recordCount ∧
    (loadUser (saveUser u) u0).records.take u.recordCount.toNat =
      u.records.take u.recordCount.toNat ∧
    (loadUser (saveUser u) u0).isAdmin = false := by
  have hR : MAX_RECORDS = 20 := rfl
  have hmin : min u.recordCount 20 = u.recordCount := min_eq_left hrc1
  refine ⟨rfl, rfl, rfl, rfl, rfl, rfl, hmin, ?_, rfl⟩
  show (loadRecordsLoop (saveUser u).records (min (saveUser u).recordCount 20).toNat 0
      u0.records).take u.recordCount.toNat = _
  have hsr : (saveUser u).recordCount = u.recordCount := rfl
  rw [hsr, hmin]
  apply List.ext_getElem?
  intro k
  rw [List.getElem?_take, List.getElem?_take,
    loadRecordsLoop_getElem? _ _ _ _ (by rw [hlen0, hR]; omega) k]
  by_cases hk : k < u.recordCount.toNat
  · have h2 : 0 ≤ k ∧ k < 0 + u.recordCount.toNat := by omega
    have hkl : k < u.records.length := by rw [hlen, hR]; omega
    rw [if_pos hk, if_pos h2, if_pos hk]
    have hdoc : (saveUser u).records.getD k default = saveRecord (u.records.getD k default) := by
      simp [saveUser, List.getD_eq_getElem?_getD, List.getElem?_map, List.getElem?_range hk]
    have hget : u.records.getD k default = u.records[k] := by
      simp [List.getD_eq_getElem?_getD, List.getElem?_eq_getElem hkl]
    have ht := hts k (by omega)
    rw [hdoc, List.getElem?_eq_getElem hkl, ← hget]
    simp only [loadRecord, saveRecord, if_pos ht]
  · rw [if_neg hk, if_neg hk]

/-- The positive part of the round trip: for a well-formed store that holds an
account named "admin" (at most ten accounts, each with at most twenty records
and 32-bit time stamps), `loadUsers` of the document written by `saveUsers`
restores `userCount` and, for every account, the user name, the password,
bedtime, wake-up time, `recordCount` and the first `recordCount` records.  The
`isAdmin` flag is not restored: it is false for every account. -/
theorem loadUsers_saveUsers_fields (s s0 : State)
    (h0 : 0 ≤ s.userCount) (h1 : s.userCount ≤ 10)
    (hadmin : findUser "admin" s ≥ 0)
    (hlen0 : s0.users.length = MAX_USERS)
    (hslots0 : ∀ k : Nat, k < 10 → (s0.users.getD k default).records.length = MAX_RECORDS)
    (hslots : ∀ k : Nat, (k : Int) < s.userCount →
      (s.users.getD k default).records.length = MAX_RECORDS)
    (hrc : ∀ k : Nat, (k : Int) < s.userCount →
      0 ≤ (s.users.getD k default).recordCount ∧ (s.users.getD k default).recordCount ≤ 20)
    (hts : ∀ k j : Nat, (k : Int) < s.userCount → j < 20 →
      ((s.users.getD k default).records.getD j default).timestamp < ULONG_MOD) :
    (loadUsers (some (saveUsers s)) s0).userCount = s.userCount ∧
    ∀ k : Nat, (k : Int) < s.userCount →
      ((loadUsers (some (saveUsers s)) s0).users.getD k default).username =
        (s.users.getD k default).username ∧
      ((loadUsers (some (saveUsers s)) s0).users.getD k default).password =
        (s.users.getD k default).password ∧
      ((loadUsers (some (saveUsers s)) s0).users.getD k default).bedtimeHour =
        (s.users.getD k default).bedtimeHour ∧
      ((loadUsers (some (saveUsers s)) s0).users.getD k default).bedtimeMinute =
        (s.users.getD k default).bedtimeMinute ∧
      ((loadUsers (some (saveUsers s)) s0).users.getD k default).wakeupHour =
        (s.users.getD k default).wakeupHour ∧
      ((loadUsers (some (saveUsers s)) s0).users.getD k default).wakeupMinute =
        (s.users.getD k default).wakeupMinute ∧
      ((loadUsers (some (saveUsers s)) s0).users.getD k default).recordCount =
        (s.users.getD k default).recordCount ∧
      ((loadUsers (some (saveUsers s)) s0).users.getD k default).records.take
          (s.users.getD k default).recordCount.toNat =
        (s.users.getD k default).records.take (s.users.getD k default).recordCount.toNat ∧
      ((loadUsers (some (saveUsers s)) s0).users.getD k default).isAdmin = false := by
  have hM : MAX_USERS = 10 := rfl
  have hMi : ((MAX_USERS : Nat) : Int) = 10 := rfl
  have hmin : min s.userCount ((MAX_USERS : Nat) : Int) = s.userCount := by
    rw [hMi]; exact min_eq_left h1
  have hloaded : ∀ k : Nat, (k : Int) < s.userCount →
      (loadUsersLoop (saveUsers s).users s.userCount.toNat 0 s0.users).getD k default =
        loadUser (saveUser (s.users.getD k default)) (s0.users.getD k default) := by
    intro k hk
    have h2 : 0 ≤ k ∧ k < 0 + s.userCount.toNat := by omega
    rw [loadUsersLoop_getD _ _ _ _ (by rw [hlen0, hM]; omega) k, if_pos h2, saveUsers_getD s k hk]
  have hfields : ∀ k : Nat, (k : Int) < s.userCount → _ := fun k hk =>
    loadUser_saveUser (s.users.getD k default) (s0.users.getD k default)
      (hrc k hk).1 (hrc k hk).2 (hslots k hk) (hslots0 k (by omega))
      (fun j hj => hts k j hk (by have := (hrc k hk).2; omega))
  have hpre : loadUsers (some (saveUsers s)) s0 =
      createAdminIfNeeded
        { s0 with userCount := s.userCount,
                  users := loadUsersLoop (saveUsers s).users s.userCount.toNat 0 s0.users } := by
    have hc : (saveUsers s).count = s.userCount := rfl
    simp only [loadUsers, hc, hmin]
  obtain ⟨ka, hka1, hka2⟩ := (findUser_nonneg_iff "admin" s).mp hadmin
  have hfound : findUser "admin"
      { s0 with userCount := s.userCount,
                users := loadUsersLoop (saveUsers s).users s.userCount.toNat 0 s0.users } ≥ 0 := by
    have hname : ((loadUsersLoop (saveUsers s).users s.userCount.toNat 0 s0.users).getD ka
        default).username = "admin" := by
      rw [hloaded ka hka1, (hfields ka hka1).1]
      exact hka2
    exact (findUser_nonneg_iff "admin" _).mpr ⟨ka, hka1, hname⟩
  rw [hpre, createAdminIfNeeded_found _ hfound]
  refine ⟨rfl, ?_⟩
  intro k hk
  show ((loadUsersLoop (saveUsers s).users s.userCount.toNat 0 s0.users).getD k default).username
      = _ ∧ _
  rw [hloaded k hk]
  exact hfields k hk

/-- The round trip applied to the store with "admin", "bob" and "carol". -/
theorem loadUsers_saveUsers_fields_witness :
    (loadUsers (some (saveUsers adminWithTwoUsers)) State.init).userCount = 3 ∧
    ((loadUsers (some (saveUsers adminWithTwoUsers)) State.init).users.getD 1 default).username
      = "bob" :=
  have h := loadUsers_saveUsers_fields adminWithTwoUsers State.init (by decide) (by decide)
    (by decide) (by decide)
    (fun k hk => by interval_cases k <;> rfl)
    (fun k hk => by
      have hk3 : (k : Int) < 3 := hk
      have hk4 : k < 3 := by omega
      interval_cases k <;> rfl)
    (fun k hk => by
      have hk3 : (k : Int) < 3 := hk
      have hk4 : k < 3 := by omega
      interval_cases k <;> decide)
    (fun k j hk hj => by
      have hk3 : (k : Int) < 3 := hk
      have hk4 : k < 3 := by omega
      interval_cases k <;> interval_cases j <;> decide)
  ⟨h.1, (h.2 1 (by decide)).1⟩

/-! ## Setting the clock and the sleep window -/

/-- C22: `handleSetTime` answers 200 if and only if `0 <= h < 24` and
`0 <= m < 60`; in that case the clock becomes `hours = h`, `minutes = m`,
`seconds = 0` (and the time base `millis() - (h * 3600000 + m * 60000)`); for
every other pair, and when an argument is missing, the request is answered
with 400 and the whole state, with `hours`, `minutes`, `seconds` and
`timeBase`, is unchanged. -/
theorem handleSetTime_sets_iff (h m : Int) (now : Nat) (s : State) :
    ((handleSetTime (some h) (some m) now s).2 = 200 ↔ (0 ≤ h ∧ h < 24 ∧ 0 ≤ m ∧ m < 60)) ∧
    ((0 ≤ h ∧ h < 24 ∧ 0 ≤ m ∧ m < 60) →
      (handleSetTime (some h) (some m) now s).1 =
        { s with hours := h, minutes := m, seconds := 0,
                 timeBase := usub now (h.toNat * 3600000 + m.toNat * 60000) }) ∧
    (¬ (0 ≤ h ∧ h < 24 ∧ 0 ≤ m ∧ m < 60) →
      handleSetTime (some h) (some m) now s = (s, 400)) ∧
    handleSetTime none (some m) now s = (s, 400) ∧
    handleSetTime (some h) none now s = (s, 400) ∧
    handleSetTime none none now s = (s, 400) := by
  refine ⟨?_, ?_, ?_, rfl, rfl, rfl⟩
  · by_cases hv : 0 ≤ h ∧ h < 24 ∧ 0 ≤ m ∧ m < 60
    · have hv2 : h ≥ 0 ∧ h < 24 ∧ m ≥ 0 ∧ m < 60 := hv
      have e : (handleSetTime (some h) (some m) now s).2 = 200 := by
        simp only [handleSetTime, if_pos hv2]
      exact ⟨fun _ => hv, fun _ => e⟩
    · have hv2 : ¬ (h ≥ 0 ∧ h < 24 ∧ m ≥ 0 ∧ m < 60) := hv
      have e : (handleSetTime (some h) (some m) now s).2 = 400 := by
        simp only [handleSetTime, if_neg hv2]
      rw [e]
      constructor
      · intro h4
        simp at h4
      · intro h4
        exact absurd h4 hv
  · intro hv
    have hv2 : h ≥ 0 ∧ h < 24 ∧ m ≥ 0 ∧ m < 60 := hv
    simp only [handleSetTime, if_pos hv2]
  · intro hv
    have hv2 : ¬ (h ≥ 0 ∧ h < 24 ∧ m ≥ 0 ∧ m < 60) := hv
    simp only [handleSetTime, if_neg hv2]

/-- C23 (defect): with "bob" logged in, `handleSetSleep` with bedtime 25:99
and wake-up time -3:70 answers 303 and stores all four values in the account:
no range is tested. -/
theorem handleSetSleep_stores_out_of_range :
    bobRegistered.currentUserIndex = 1 ∧
    (handleSetSleep (some 25) (some 99) (some (-3)) (some 70) bobRegistered).2 = 303 ∧
    ((handleSetSleep (some 25) (some 99) (some (-3)) (some 70) bobRegistered).1.user 1).bedtimeHour
      = 25 ∧
    ((handleSetSleep (some 25) (some 99) (some (-3)) (some 70) bobRegistered).1.user 1).bedtimeMinute
      = 99 ∧
    ((handleSetSleep (some 25) (some 99) (some (-3)) (some 70) bobRegistered).1.user 1).wakeupHour
      = -3 ∧
    ((handleSetSleep (some 25) (some 99) (some (-3)) (some 70) bobRegistered).1.user 1).wakeupMinute
      = 70 := by
  decide

/-! ## Discarded beat candidates -/

/-- C24 (counterexample): the previous beat was at 1000 ms; a candidate at
1100 ms has the interval 100 and is discarded, `pulse` and `beatDetected`
keep their values, but `lastBeat` becomes 1100. -/
theorem readSensorData_discard_moves_lastBeat :
    ¬ (300 < usub 1100 beatAt1000.lastBeat ∧ usub 1100 beatAt1000.lastBeat < 2000) ∧
    (readSensorData true 1100 1100 beatAt1000).pulse = beatAt1000.pulse ∧
    (readSensorData true 1100 1100 beatAt1000).beatDetected = beatAt1000.beatDetected ∧
    (readSensorData true 1100 1100 beatAt1000).lastBeat = 1100 ∧
    ¬ ((readSensorData true 1100 1100 beatAt1000).lastBeat = beatAt1000.lastBeat) := by
  decide

/-- C24 (amended): when a detected beat candidate is discarded because its
interval is not in `(300, 2000)`, `readSensorData` leaves `pulse` and
`beatDetected` unchanged and sets `lastBeat` to the time of the candidate, as
it does for an accepted beat; nothing else changes. -/
theorem readSensorData_discard (t1 t2 : Nat) (s : State)
    (hd : ¬ (300 < usub t1 s.lastBeat ∧ usub t1 s.lastBeat < 2000)) :
    (readSensorData true t1 t2 s).pulse = s.pulse ∧
    (readSensorData true t1 t2 s).beatDetected = s.beatDetected ∧
    (readSensorData true t1 t2 s).lastBeat = t2 % ULONG_MOD ∧
    readSensorData true t1 t2 s = { s with lastBeat := t2 % ULONG_MOD } := by
  have hd2 : ¬ (usub t1 s.lastBeat > 300 ∧ usub t1 s.lastBeat < 2000) := hd
  have e : readSensorData true t1 t2 s = { s with lastBeat := t2 % ULONG_MOD } := by
    simp only [readSensorData, if_true, if_neg hd2]
  rw [e]
  exact ⟨rfl, rfl, rfl, rfl⟩

/-- C24 witness: the candidate at 1100 ms after the beat at 1000 ms. -/
theorem readSensorData_discard_witness :
    (readSensorData true 1100 1100 beatAt1000).pulse = 72 ∧
    (readSensorData true 1100 1100 beatAt1000).lastBeat = 1100 :=
  ⟨(readSensorData_discard 1100 1100 beatAt1000 (by decide)).1,
   (readSensorData_discard 1100 1100 beatAt1000 (by decide)).2.2.1⟩

/-! ## The clock as a counter of seconds -/

/-- One clock-second update of a valid clock gives a valid clock that stands
for the next second of the day. -/
theorem clockSecondUpdate_secondOfDay (s : State) (hv : ValidClock s) :
    ValidClock (clockSecondUpdate s) ∧
    secondOfDay (clockSecondUpdate s) = (secondOfDay s + 1) % 86400 := by
  unfold ValidClock at hv
  obtain ⟨h1, h2, h3, h4, h5, h6⟩ := hv
  unfold clockSecondUpdate ValidClock secondOfDay
  dsimp only
  split_ifs with c1 c2 c3
  · dsimp only
    omega
  · dsimp only
    omega
  · dsimp only
    omega
  · dsimp only
    omega

/-- The fields of a valid clock are the digits of its second of the day. -/
theorem validClock_fields (s : State) (hv : ValidClock s) :
    s.hours = secondOfDay s / 3600 ∧
    s.minutes = secondOfDay s % 3600 / 60 ∧
    s.seconds = secondOfDay s % 60 := by
  unfold ValidClock at hv
  unfold secondOfDay
  omega

/-- After `n` clock-second updates a valid clock is valid and stands for the
second of the day `(secondOfDay + n) mod 86400`. -/
theorem clockSecondUpdate_iterate_secondOfDay (n : Nat) (s : State) (hv : ValidClock s) :
    ValidClock (Nat.iterate clockSecondUpdate n s) ∧
    secondOfDay (Nat.iterate clockSecondUpdate n s) = (secondOfDay s + (n : Int)) % 86400 := by
  induction n with
  | zero =>
    refine ⟨hv, ?_⟩
    unfold ValidClock at hv
    show secondOfDay s = (secondOfDay s + ((0 : Nat) : Int)) % 86400
    unfold secondOfDay
    omega
  | succ n ih =>
    obtain ⟨ih1, ih2⟩ := ih
    rw [Function.iterate_succ_apply']
    obtain ⟨k1, k2⟩ := clockSecondUpdate_secondOfDay _ ih1
    refine ⟨k1, ?_⟩
    rw [k2, ih2]
    push_cast
    omega

/-- C29: for every valid clock state `(h, m, s)` and every `n`, `n`
clock-second updates yield the time of day `(3600 h + 60 m + s + n) mod 86400`
decomposed into hours, minutes and seconds; the field ranges are preserved,
and 23:59:59 rolls over to 00:00:00. -/
theorem clockSecondUpdate_iterate (n : Nat) (s : State) (hv : ValidClock s) :
    (Nat.iterate clockSecondUpdate n s).hours =
      (3600 * s.hours + 60 * s.minutes + s.seconds + (n : Int)) % 86400 / 3600 ∧
    (Nat.iterate clockSecondUpdate n s).minutes =
      (3600 * s.hours + 60 * s.minutes + s.seconds + (n : Int)) % 86400 % 3600 / 60 ∧
    (Nat.iterate clockSecondUpdate n s).seconds =
      (3600 * s.hours + 60 * s.minutes + s.seconds + (n : Int)) % 86400 % 60 ∧
    ValidClock (Nat.iterate clockSecondUpdate n s) ∧
    ((s.hours = 23 ∧ s.minutes = 59 ∧ s.seconds = 59) →
      (clockSecondUpdate s).hours = 0 ∧ (clockSecondUpdate s).minutes = 0 ∧
      (clockSecondUpdate s).seconds = 0) := by
  obtain ⟨hv2, hsod⟩ := clockSecondUpdate_iterate_secondOfDay n s hv
  obtain ⟨f1, f2, f3⟩ := validClock_fields _ hv2
  have hs : secondOfDay s = 3600 * s.hours + 60 * s.minutes + s.seconds := rfl
  rw [hsod, hs] at f1 f2 f3
  refine ⟨f1, f2, f3, hv2, ?_⟩
  rintro ⟨e1, e2, e3⟩
  obtain ⟨w1, w2⟩ := clockSecondUpdate_secondOfDay s hv
  obtain ⟨g1, g2, g3⟩ := validClock_fields _ w1
  rw [w2, hs, e1, e2, e3] at g1 g2 g3
  refine ⟨?_, ?_, ?_⟩
  · rw [g1]; decide
  · rw [g2]; decide
  · rw [g3]; decide

/-- C29 witness: 23:59:59 plus two seconds is 00:00:01. -/
theorem clockSecondUpdate_iterate_witness :
    (Nat.iterate clockSecondUpdate 2
      { State.init with hours := 23, minutes := 59, seconds := 59 }).hours = 0 ∧
    (Nat.iterate clockSecondUpdate 2
      { State.init with hours := 23, minutes := 59, seconds := 59 }).seconds = 1 :=
  ⟨(clockSecondUpdate_iterate 2 { State.init with hours := 23, minutes := 59, seconds := 59 }
      (by decide)).1,
   (clockSecondUpdate_iterate 2 { State.init with hours := 23, minutes := 59, seconds := 59 }
      (by decide)).2.2.1⟩

/-! ## Runs of clock ticks -/

/-- The alarm check does not touch the clock fields. -/
theorem checkAlarmState_clock (t1 t2 : Nat) (s : State) :
    (checkAlarmState t1 t2 s).hours = s.hours ∧
    (checkAlarmState t1 t2 s).minutes = s.minutes ∧
    (checkAlarmState t1 t2 s).seconds = s.seconds := by
  unfold checkAlarmState
  split_ifs <;> exact ⟨rfl, rfl, rfl⟩

/-- A run of ticks over a concatenation is the run over the second part
started after the run over the first. -/
theorem runTicks_append (a b : List (Nat × Nat)) (s : State) :
    runTicks (a ++ b) s = runTicks b (runTicks a s) := by
  induction a generalizing s with
  | nil => rfl
  | cons t a ih =>
    obtain ⟨t1, t2⟩ := t
    show runTicks (a ++ b) (clockTick t1 t2 s) = runTicks b (runTicks a (clockTick t1 t2 s))
    exact ih (clockTick t1 t2 s)

/-- A run of ticks never changes the armed target. -/
theorem runTicks_target (ts : List (Nat × Nat)) (s : State) :
    (runTicks ts s).alarmHour = s.alarmHour ∧ (runTicks ts s).alarmMinute = s.alarmMinute := by
  induction ts generalizing s with
  | nil => exact ⟨rfl, rfl⟩
  | cons t ts ih =>
    obtain ⟨t1, t2⟩ := t
    obtain ⟨i1, i2⟩ := ih (clockTick t1 t2 s)
    obtain ⟨k1, k2⟩ := checkAlarmState_target t1 t2 (clockSecondUpdate s)
    obtain ⟨_, c2, c3⟩ := clockSecondUpdate_alarm s
    constructor
    · show (runTicks ts (clockTick t1 t2 s)).alarmHour = s.alarmHour
      rw [i1]; unfold clockTick; rw [k1, c2]
    · show (runTicks ts (clockTick t1 t2 s)).alarmMinute = s.alarmMinute
      rw [i2]; unfold clockTick; rw [k2, c3]

/-- One tick of a valid clock gives a valid clock one second later. -/
theorem clockTick_secondOfDay (t1 t2 : Nat) (s : State) (hv : ValidClock s) :
    ValidClock (clockTick t1 t2 s) ∧
    secondOfDay (clockTick t1 t2 s) = (secondOfDay s + 1) % 86400 := by
  obtain ⟨k1, k2⟩ := clockSecondUpdate_secondOfDay s hv
  obtain ⟨e1, e2, e3⟩ := checkAlarmState_clock t1 t2 (clockSecondUpdate s)
  unfold clockTick
  constructor
  · unfold ValidClock at k1 ⊢
    rw [e1, e2, e3]
    exact k1
  · unfold secondOfDay at k2 ⊢
    rw [e1, e2, e3]
    exact k2

/-- A run of ticks advances a valid clock by one second per tick. -/
theorem runTicks_secondOfDay (ts : List (Nat × Nat)) (s : State) (hv : ValidClock s) :
    ValidClock (runTicks ts s) ∧
    secondOfDay (runTicks ts s) = (secondOfDay s + (ts.length : Int)) % 86400 := by
  induction ts generalizing s with
  | nil =>
    refine ⟨hv, ?_⟩
    unfold ValidClock at hv
    show secondOfDay s = (secondOfDay s + ((0 : Nat) : Int)) % 86400
    unfold secondOfDay
    omega
  | cons t ts ih =>
    obtain ⟨t1, t2⟩ := t
    obtain ⟨k1, k2⟩ := clockTick_secondOfDay t1 t2 s hv
    obtain ⟨i1, i2⟩ := ih (clockTick t1 t2 s) k1
    refine ⟨i1, ?_⟩
    show secondOfDay (runTicks ts (clockTick t1 t2 s)) = _
    rw [i2, k2, List.length_cons]
    push_cast
    omega

/-- A list of `k + 1` ticks is a list of `k` ticks followed by one tick. -/
theorem list_split_last (ts : List (Nat × Nat)) (k : Nat) (h : ts.length = k + 1) :
    ∃ (init : List (Nat × Nat)) (t : Nat × Nat), ts = init ++ [t] ∧ init.length = k := by
  have hne : ts ≠ [] := by
    intro e
    rw [e] at h
    simp at h
  refine ⟨ts.dropLast, ts.getLast hne, (List.dropLast_append_getLast hne).symm, ?_⟩
  rw [List.length_dropLast, h]
  rfl

/-! ## Hysteresis of the bedtime notification -/

/-- The bedtime part shows the notification exactly when the time is the
bedtime and the flag was clear; afterwards the flag tells whether the time is
the bedtime; nothing else changes. -/
theorem bedtimeStage_spec (user : User) (h m : Int) (s : State) (hbed : user.bedtimeHour ≥ 0) :
    (bedtimeStage user h m s).2 =
      (decide (h = user.bedtimeHour ∧ m = user.bedtimeMinute) && !s.sleepNotificationShown) ∧
    (bedtimeStage user h m s).1 =
      { s with sleepNotificationShown := decide (h = user.bedtimeHour ∧ m = user.bedtimeMinute) }
    := by
  by_cases hm : h = user.bedtimeHour ∧ m = user.bedtimeMinute
  · have hd : decide (h = user.bedtimeHour ∧ m = user.bedtimeMinute) = true := decide_eq_true hm
    have hne : ¬ (h ≠ user.bedtimeHour ∨ m ≠ user.bedtimeMinute) := by
      rintro (e | e)
      · exact e hm.1
      · exact e hm.2
    rw [hd]
    cases hsh : s.sleepNotificationShown
    · have hc : user.bedtimeHour ≥ 0 ∧ s.sleepNotificationShown = false ∧
          h = user.bedtimeHour ∧ m = user.bedtimeMinute := ⟨hbed, hsh, hm⟩
      simp only [bedtimeStage, if_pos hc, hne, and_false, if_false]
      constructor <;> trivial
    · have hc : ¬ (user.bedtimeHour ≥ 0 ∧ s.sleepNotificationShown = false ∧
          h = user.bedtimeHour ∧ m = user.bedtimeMinute) := by
        intro e
        rw [hsh] at e
        exact absurd e.2.1 (by decide)
      simp only [bedtimeStage, if_neg hc, hne, and_false, if_false]
      refine ⟨rfl, ?_⟩
      rw [← hsh]
  · have hd : decide (h = user.bedtimeHour ∧ m = user.bedtimeMinute) = false :=
      decide_eq_false hm
    have hne : h ≠ user.bedtimeHour ∨ m ≠ user.bedtimeMinute := by
      by_cases h1 : h = user.bedtimeHour
      · right
        intro h2
        exact hm ⟨h1, h2⟩
      · left
        exact h1
    have hc : ¬ (user.bedtimeHour ≥ 0 ∧ s.sleepNotificationShown = false ∧
        h = user.bedtimeHour ∧ m = user.bedtimeMinute) := fun e => hm e.2.2
    rw [hd]
    cases hsh : s.sleepNotificationShown
    · have hc2 : ¬ (s.sleepNotificationShown = true ∧
          (h ≠ user.bedtimeHour ∨ m ≠ user.bedtimeMinute)) := by
        intro e
        rw [hsh] at e
        exact absurd e.1 (by decide)
      simp only [bedtimeStage, if_neg hc, if_neg hc2]
      refine ⟨rfl, ?_⟩
      rw [← hsh]
    · have hc2 : s.sleepNotificationShown = true ∧
          (h ≠ user.bedtimeHour ∨ m ≠ user.bedtimeMinute) := ⟨hsh, hne⟩
      simp only [bedtimeStage, if_neg hc, if_pos hc2]
      constructor <;> trivial

/-- The wake-up part changes at most the flag `wakeupNotificationShown`. -/
theorem wakeupStage_frame (user : User) (h m : Int) (s : State) :
    ∃ b : Bool, (wakeupStage user h m s).1 = { s with wakeupNotificationShown := b } := by
  unfold wakeupStage
  dsimp only
  split_ifs
  · exact ⟨false, rfl⟩
  · exact ⟨true, rfl⟩
  · exact ⟨false, rfl⟩
  · exact ⟨s.wakeupNotificationShown, rfl⟩

/-- One notification poll for an active account whose bedtime is set: the
bedtime notification is shown exactly when the poll sees the bedtime and the
flag `sleepNotificationShown` was clear; afterwards the flag tells whether
this poll saw the bedtime; session, accounts and time base are unchanged. -/
theorem checkSleepNotifications_step (now : Nat) (s : State)
    (hc0 : 0 ≤ s.currentUserIndex) (hc1 : s.currentUserIndex < s.userCount)
    (hbed : (s.user s.currentUserIndex).bedtimeHour ≥ 0) :
    (checkSleepNotifications now s).2.1 = (bedtimeMatches s now && !s.sleepNotificationShown) ∧
    (checkSleepNotifications now s).1.sleepNotificationShown = bedtimeMatches s now ∧
    (checkSleepNotifications now s).1.users = s.users ∧
    (checkSleepNotifications now s).1.currentUserIndex = s.currentUserIndex ∧
    (checkSleepNotifications now s).1.userCount = s.userCount ∧
    (checkSleepNotifications now s).1.timeBase = s.timeBase := by
  have hg : ¬ (s.currentUserIndex < 0 ∨ s.currentUserIndex ≥ s.userCount) := by omega
  obtain ⟨b1, b2⟩ := bedtimeStage_spec (s.user s.currentUserIndex) (notifHour now s)
    (notifMinute now s) s hbed
  obtain ⟨w, hw⟩ := wakeupStage_frame (s.user s.currentUserIndex) (notifHour now s)
    (notifMinute now s)
    (bedtimeStage (s.user s.currentUserIndex) (notifHour now s) (notifMinute now s) s).1
  have e1 : (checkSleepNotifications now s).2.1 =
      (bedtimeStage (s.user s.currentUserIndex) (notifHour now s) (notifMinute now s) s).2 := by
    simp only [checkSleepNotifications, if_neg hg]
  have e2 : (checkSleepNotifications now s).1 =
      (wakeupStage (s.user s.currentUserIndex) (notifHour now s) (notifMinute now s)
        (bedtimeStage (s.user s.currentUserIndex) (notifHour now s) (notifMinute now s) s).1).1
      := by
    simp only [checkSleepNotifications, if_neg hg]
  rw [e1, e2, hw, b1, b2]
  exact ⟨rfl, rfl, rfl, rfl, rfl, rfl⟩

/-- Whether a poll sees the bedtime depends on the accounts, the session and
the time base only. -/
theorem bedtimeMatches_congr (a b : State) (hu : a.users = b.users)
    (hc : a.currentUserIndex = b.currentUserIndex) (ht : a.timeBase = b.timeBase) :
    bedtimeMatches a = bedtimeMatches b := by
  funext now
  unfold bedtimeMatches notifHour notifMinute State.user
  rw [hu, hc, ht]

/-- Over a run of polls the bedtime notification is shown on the rising edges
of "the poll sees the bedtime". -/
theorem sleepPolls_edges (nows : List Nat) (s : State)
    (hc0 : 0 ≤ s.currentUserIndex) (hc1 : s.currentUserIndex < s.userCount)
    (hbed : (s.user s.currentUserIndex).bedtimeHour ≥ 0) :
    (sleepPolls nows s).2 =
      risingEdges s.sleepNotificationShown (nows.map (bedtimeMatches s)) := by
  induction nows generalizing s with
  | nil => rfl
  | cons now rest ih =>
    obtain ⟨h1, h2, h3, h4, h5, h6⟩ := checkSleepNotifications_step now s hc0 hc1 hbed
    have hcongr := bedtimeMatches_congr (checkSleepNotifications now s).1 s h3 h4 h6
    have huser : (checkSleepNotifications now s).1.user
        (checkSleepNotifications now s).1.currentUserIndex = s.user s.currentUserIndex := by
      unfold State.user
      rw [h3, h4]
    have ih2 := ih (checkSleepNotifications now s).1 (by rw [h4]; exact hc0)
      (by rw [h4, h5]; exact hc1) (by rw [huser]; exact hbed)
    show (checkSleepNotifications now s).2.1 ::
        (sleepPolls rest (checkSleepNotifications now s).1).2 = _
    rw [ih2, h1, h2, hcongr]
    rfl

/-- C21 (counterexample): "bob" has the bedtime 22:00 and was notified at
22:00:00; he logged out at once, the polls that followed found no session and
returned without touching the flag, and he logs in again on the next day
(`bobReturns`: session index 1, flag `sleepNotificationShown` still set).  The
polls at 22:00:06, 22:00:09 and 22:00:57 of that day all see 22:00, and none
of them shows the notification: the first poll that sees `H:M` does not fire. -/
theorem sleepPolls_first_match_silent :
    bobReturns.currentUserIndex = 1 ∧
    1 < bobReturns.userCount ∧
    (bobReturns.user 1).username = "bob" ∧
    (bobReturns.user 1).bedtimeHour = 22 ∧
    (bobReturns.user 1).bedtimeMinute = 0 ∧
    bobReturns.sleepNotificationShown = true ∧
    pollsSecondDay.map (bedtimeMatches bobReturns) = [true, true, true] ∧
    (sleepPolls pollsSecondDay bobReturns).2 = [false, false, false] := by
  decide

/-- C21 (amended): for an active account whose bedtime `(H, M)` is set, over
any sequence of notification polls the bedtime notification is shown exactly
on the polls that see `H:M` while the flag `sleepNotificationShown` is clear,
and every poll leaves the flag equal to "this poll saw `H:M`".  So it is not
shown again on later polls while the polls still see `H:M`, it is shown again
on the first poll at `H:M` that follows a poll at a different minute, and the
first poll of the sequence that sees `H:M` shows it when the flag is clear at
the start and not when the flag is still set: poll by poll, it is shown on
the rising edges of "the poll sees `H:M`", the flag standing for the poll
before the first.  The flag is one variable of the device, clear after boot;
a poll without a valid session returns without touching it. -/
theorem sleepPolls_hysteresis (nows : List Nat) (s : State)
    (hc0 : 0 ≤ s.currentUserIndex) (hc1 : s.currentUserIndex < s.userCount)
    (hbed : (s.user s.currentUserIndex).bedtimeHour ≥ 0) :
    (sleepPolls nows s).2 =
      risingEdges s.sleepNotificationShown (nows.map (bedtimeMatches s)) ∧
    (∀ now : Nat, s.sleepNotificationShown = false → bedtimeMatches s now = true →
      (checkSleepNotifications now s).2.1 = true ∧
      (checkSleepNotifications now s).1.sleepNotificationShown = true) ∧
    (∀ now : Nat, s.sleepNotificationShown = true → bedtimeMatches s now = true →
      (checkSleepNotifications now s).2.1 = false ∧
      (checkSleepNotifications now s).1.sleepNotificationShown = true) ∧
    (∀ now : Nat, bedtimeMatches s now = false →
      (checkSleepNotifications now s).2.1 = false ∧
      (checkSleepNotifications now s).1.sleepNotificationShown = false) ∧
    State.init.sleepNotificationShown = false ∧
    (∀ (now : Nat) (t : State), (t.currentUserIndex < 0 ∨ t.currentUserIndex ≥ t.userCount) →
      checkSleepNotifications now t = (t, false, false)) := by
  refine ⟨sleepPolls_edges nows s hc0 hc1 hbed, ?_, ?_, ?_, rfl, ?_⟩
  · intro now hsh hm
    obtain ⟨h1, h2, _⟩ := checkSleepNotifications_step now s hc0 hc1 hbed
    rw [h1, h2, hm, hsh]
    exact ⟨rfl, rfl⟩
  · intro now hsh hm
    obtain ⟨h1, h2, _⟩ := checkSleepNotifications_step now s hc0 hc1 hbed
    rw [h1, h2, hm, hsh]
    exact ⟨rfl, rfl⟩
  · intro now hm
    obtain ⟨h1, h2, _⟩ := checkSleepNotifications_step now s hc0 hc1 hbed
    rw [h1, h2, hm]
    exact ⟨rfl, rfl⟩
  · intro now t ht
    simp only [checkSleepNotifications, if_pos ht]

/-- C21 witness: bedtime 22:00, the flag clear, polls at 21:59:57, 22:00:00,
22:00:03, 22:00:57, 22:01:00 and 22:00:00 of the next day: the notification is
shown on the second and on the last poll only. -/
theorem sleepPolls_hysteresis_witness :
    (sleepPolls pollsAround2200 bobBedtime2200).2 = [false, true, false, false, false, true] :=
  ((sleepPolls_hysteresis pollsAround2200 bobBedtime2200 (by decide) (by decide)
    (by decide)).1).trans (by decide)

/-! ## Sensor pass without a finger -/

/-- With an infrared sample below the threshold `checkFingerPresence` stores
the sample and clears `fingerPresent` and `beatDetected`. -/
theorem checkFingerPresence_absent (ir : Nat) (s : State)
    (hir : ir % ULONG_MOD < FINGER_THRESHOLD) :
    checkFingerPresence ir s =
      { s with irValue := ir % ULONG_MOD, fingerPresent := false, beatDetected := false } := by
  simp only [checkFingerPresence, if_pos hir]

/-- What `readSensorData` leaves alone: everything but `lastBeat`, `pulse` and
`beatDetected`. -/
theorem readSensorData_frame (b : Bool) (t1 t2 : Nat) (s : State) :
    (readSensorData b t1 t2 s).spo2 = s.spo2 ∧
    (readSensorData b t1 t2 s).fingerPresent = s.fingerPresent ∧
    (readSensorData b t1 t2 s).lastValueDecayTime = s.lastValueDecayTime ∧
    (readSensorData b t1 t2 s).spo2BufferIndex = s.spo2BufferIndex ∧
    (readSensorData b t1 t2 s).alarmTriggered = s.alarmTriggered ∧
    (readSensorData b t1 t2 s).irValue = s.irValue := by
  unfold readSensorData
  dsimp only
  split_ifs <;> exact ⟨rfl, rfl, rfl, rfl, rfl, rfl⟩

/-- Without a reported beat `readSensorData` changes nothing. -/
theorem readSensorData_no_beat (t1 t2 : Nat) (s : State) :
    readSensorData false t1 t2 s = s := by
  simp [readSensorData]

/-- The absence decay in closed form: when the 2000 ms gate is open both
values step towards 0 and `beatDetected` is cleared, otherwise nothing
changes. -/
theorem absenceDecay_eq (now : Nat) (s : State) :
    (usub now s.lastValueDecayTime ≥ 2000 →
      absenceDecay now s =
        { s with lastValueDecayTime := now % ULONG_MOD,
                 pulse := if s.pulse > 0 then s.pulse - 1 else s.pulse,
                 spo2 := if s.spo2 > 0 then s.spo2 - 1 else s.spo2,
                 beatDetected := false }) ∧
    (¬ usub now s.lastValueDecayTime ≥ 2000 → absenceDecay now s = s) := by
  constructor
  · intro hg
    unfold absenceDecay
    rw [if_pos hg]
    dsimp only
    split_ifs <;> rfl
  · intro hg
    unfold absenceDecay
    rw [if_neg hg]

/-- The sensor part of a pass whose infrared sample is below the threshold:
`calculateSpO2` is not called; after the finger poll the pass runs, when its
30 ms gate is open, `readSensorData` and the absence decay. -/
theorem loopSensorPass_absent (i : SensorInput) (s : State)
    (hir : i.ir % ULONG_MOD < FINGER_THRESHOLD) :
    (usub i.now s.lastSensorReadTime ≥ 30 →
      loopSensorPass i s =
        (absenceDecay i.now
          (readSensorData i.beat i.t1 i.t2
            { s with irValue := i.ir % ULONG_MOD, fingerPresent := false,
                     beatDetected := false,
                     lastSensorReadTime := i.now % ULONG_MOD }), false)) ∧
    (¬ usub i.now s.lastSensorReadTime ≥ 30 →
      loopSensorPass i s =
        ({ s with irValue := i.ir % ULONG_MOD, fingerPresent := false,
                  beatDetected := false }, false)) := by
  have hc := checkFingerPresence_absent i.ir s hir
  constructor
  · intro hg
    unfold loopSensorPass
    rw [hc]
    dsimp only
    rw [if_pos hg]
    have hfp := (readSensorData_frame i.beat i.t1 i.t2
      { s with irValue := i.ir % ULONG_MOD, fingerPresent := false, beatDetected := false,
               lastSensorReadTime := i.now % ULONG_MOD }).2.1
    have hfp2 : ¬ ((readSensorData i.beat i.t1 i.t2
      { s with irValue := i.ir % ULONG_MOD, fingerPresent := false, beatDetected := false,
               lastSensorReadTime := i.now % ULONG_MOD }).fingerPresent = true) := by
      rw [hfp]
      intro h
      simp at h
    rw [if_neg hfp2]
  · intro hg
    unfold loopSensorPass
    rw [hc]
    dsimp only
    rw [if_neg hg]

/-- C25 (counterexample): 50 samples are in the buffer and `spo2` is 97 when a
pass sees the infrared sample 1200, below the threshold: after the pass
`fingerPresent` is false, but `spo2BufferIndex` is still 50 and `spo2` still
97; on a pass 2 s later `spo2` is 96. -/
theorem loopSensorPass_keeps_buffer :
    (noFingerInput 100040).ir < FINGER_THRESHOLD ∧
    (loopSensorPass (noFingerInput 100040) halfFilled).1.fingerPresent = false ∧
    (loopSensorPass (noFingerInput 100040) halfFilled).1.spo2BufferIndex = 50 ∧
    (loopSensorPass (noFingerInput 100040) halfFilled).1.spo2 = 97 ∧
    (loopSensorPass (noFingerInput 102040) halfFilled).1.spo2 = 96 ∧
    ¬ ((loopSensorPass (noFingerInput 100040) halfFilled).1.spo2BufferIndex = 0 ∧
       (loopSensorPass (noFingerInput 100040) halfFilled).1.spo2 = 0) := by
  decide

/-- C25 (amended): whenever the infrared sample of a pass is below the
presence threshold, the pass clears `fingerPresent`, does not call
`calculateSpO2`, so that no SpO2 computation is invoked on it, and does not
reset `spo2`: `spo2` is lowered by one when it is positive and both the 30 ms
sensor gate and the 2000 ms decay gate are open, and keeps its value
otherwise. -/
theorem loopSensorPass_no_finger (i : SensorInput) (s : State)
    (hir : i.ir % ULONG_MOD < FINGER_THRESHOLD) :
    (loopSensorPass i s).1.fingerPresent = false ∧
    (loopSensorPass i s).2 = false ∧
    (loopSensorPass i s).1.spo2 =
      if usub i.now s.lastSensorReadTime ≥ 30 ∧ usub i.now s.lastValueDecayTime ≥ 2000 ∧
          s.spo2 > 0 then s.spo2 - 1
      else s.spo2 := by
  obtain ⟨hopen, hclosed⟩ := loopSensorPass_absent i s hir
  by_cases hg : usub i.now s.lastSensorReadTime ≥ 30
  · rw [hopen hg]
    obtain ⟨r1, r2, r3, _⟩ := readSensorData_frame i.beat i.t1 i.t2
      { s with irValue := i.ir % ULONG_MOD, fingerPresent := false, beatDetected := false,
               lastSensorReadTime := i.now % ULONG_MOD }
    obtain ⟨dopen, dclosed⟩ := absenceDecay_eq i.now (readSensorData i.beat i.t1 i.t2
      { s with irValue := i.ir % ULONG_MOD, fingerPresent := false, beatDetected := false,
               lastSensorReadTime := i.now % ULONG_MOD })
    rw [r3] at dopen dclosed
    by_cases hd : usub i.now s.lastValueDecayTime ≥ 2000
    · rw [dopen hd]
      dsimp only
      rw [r1, r2]
      refine ⟨rfl, rfl, ?_⟩
      by_cases hp : s.spo2 > 0
      · rw [if_pos hp, if_pos ⟨hg, hd, hp⟩]
      · rw [if_neg hp, if_neg (fun h => hp h.2.2)]
    · rw [dclosed hd]
      dsimp only
      rw [r1, r2]
      refine ⟨rfl, rfl, ?_⟩
      rw [if_neg (fun h => hd h.2.1)]
  · rw [hclosed hg]
    refine ⟨rfl, rfl, ?_⟩
    rw [if_neg (fun h => hg h.1)]

/-- C25 witness: the pass at 102040 ms without finger lowers `spo2` from 97
to 96 and calls no SpO2 computation. -/
theorem loopSensorPass_no_finger_witness :
    (loopSensorPass (noFingerInput 102040) halfFilled).2 = false ∧
    (loopSensorPass (noFingerInput 102040) halfFilled).1.spo2 = 96 :=
  ⟨(loopSensorPass_no_finger (noFingerInput 102040) halfFilled (by decide)).2.1,
   ((loopSensorPass_no_finger (noFingerInput 102040) halfFilled (by decide)).2.2).trans
     (by decide)⟩

/-! ## Absence decay -/

/-- Each operation that writes `pulse` keeps it non-negative. -/
theorem VitalsOp.step_pulse_nonneg (op : VitalsOp) (s : State) (h0 : 0 ≤ s.pulse) :
    0 ≤ (op.step s).pulse := by
  cases op with
  | fingerPoll ir =>
    show 0 ≤ (checkFingerPresence ir s).pulse
    unfold checkFingerPresence
    dsimp only
    split_ifs <;> exact h0
  | beat b t1 t2 =>
    show 0 ≤ (readSensorData b t1 t2 s).pulse
    unfold readSensorData
    dsimp only
    split_ifs
    · exact Int.natCast_nonneg _
    · exact h0
    · exact h0
  | spo2Tick res now red =>
    show 0 ≤ (calculateSpO2 res now red s).1.pulse
    unfold calculateSpO2
    dsimp only
    split_ifs <;> exact h0
  | decay now =>
    show 0 ≤ (absenceDecay now s).pulse
    by_cases hg : usub now s.lastValueDecayTime ≥ 2000
    · rw [(absenceDecay_eq now s).1 hg]
      dsimp only
      split_ifs with c
      · have c2 : s.pulse > 0 := c
        omega
      · exact h0
    · rw [(absenceDecay_eq now s).2 hg]
      exact h0
  | login u p =>
    show 0 ≤ (handleLogin u p s).1.pulse
    unfold handleLogin
    cases u with
    | none => exact h0
    | some username =>
      cases p with
      | none => exact h0
      | some password =>
        dsimp only
        split_ifs
        · exact le_refl _
        · exact h0
  | register u p =>
    show 0 ≤ (handleRegister u p s).1.pulse
    cases u with
    | none => exact h0
    | some name =>
      cases p with
      | none => exact h0
      | some pw =>
        cases hb : (addUser name pw s).2
        · rw [(addUser_false_unchanged name pw s hb).2]
          exact h0
        · obtain ⟨_, _, hst⟩ := addUser_success name pw s hb
          have e : (handleRegister (some name) (some pw) s).1.pulse =
              (addUser name pw s).1.pulse := by
            unfold handleRegister
            rcases hres : addUser name pw s with ⟨s1, b⟩
            rw [hres] at hb
            simp only at hb
            subst hb
            simp only [hres]
          rw [e, hst]
          exact h0
  | logout => exact le_refl _

/-- Over every run of the operations that write `pulse` and `spo2`, started
in the initial state, neither value is negative. -/
theorem runVitals_nonneg (ops : List VitalsOp) :
    0 ≤ (runVitals ops State.init).pulse ∧ 0 ≤ (runVitals ops State.init).spo2 := by
  have key : ∀ (l : List VitalsOp) (st : State), 0 ≤ st.pulse → 0 ≤ st.spo2 → st.spo2 ≤ 100 →
      0 ≤ (runVitals l st).pulse ∧ 0 ≤ (runVitals l st).spo2 := by
    intro l
    induction l with
    | nil => intro st a b _; exact ⟨a, b⟩
    | cons op rest ih =>
      intro st a b c
      obtain ⟨b2, c2⟩ := VitalsOp.step_spo2_range op st b c
      exact ih (op.step st) (VitalsOp.step_pulse_nonneg op st a) b2 c2
  exact key ops State.init (le_refl _) (le_refl _) (by decide)

/-- The pulse that `readSensorData` leaves depends on the inputs, on
`lastBeat` and on the pulse before only. -/
theorem readSensorData_pulse_congr (b : Bool) (t1 t2 : Nat) (x y : State)
    (hl : x.lastBeat = y.lastBeat) (hp : x.pulse = y.pulse) :
    (readSensorData b t1 t2 x).pulse = (readSensorData b t1 t2 y).pulse := by
  unfold readSensorData
  dsimp only
  rw [hl]
  split_ifs
  · rfl
  · exact hp
  · exact hp

/-- The pulse that the absence decay leaves depends on the decay gate and on
the pulse before only. -/
theorem absenceDecay_pulse_congr (now : Nat) (x y : State)
    (hl : x.lastValueDecayTime = y.lastValueDecayTime) (hp : x.pulse = y.pulse) :
    (absenceDecay now x).pulse = (absenceDecay now y).pulse := by
  obtain ⟨xo, xc⟩ := absenceDecay_eq now x
  obtain ⟨yo, yc⟩ := absenceDecay_eq now y
  by_cases hg : usub now x.lastValueDecayTime ≥ 2000
  · rw [xo hg, yo (by rw [← hl]; exact hg)]
    dsimp only
    rw [hp]
  · rw [xc hg, yc (by rw [← hl]; exact hg)]
    exact hp

/-- The SpO2 value that the absence decay leaves depends on the decay gate and
on the value before only. -/
theorem absenceDecay_spo2_congr (now : Nat) (x y : State)
    (hl : x.lastValueDecayTime = y.lastValueDecayTime) (hs : x.spo2 = y.spo2) :
    (absenceDecay now x).spo2 = (absenceDecay now y).spo2 := by
  obtain ⟨xo, xc⟩ := absenceDecay_eq now x
  obtain ⟨yo, yc⟩ := absenceDecay_eq now y
  by_cases hg : usub now x.lastValueDecayTime ≥ 2000
  · rw [xo hg, yo (by rw [← hl]; exact hg)]
    dsimp only
    rw [hs]
  · rw [xc hg, yc (by rw [← hl]; exact hg)]
    exact hs

/-- The vitals after the sensor part of a pass whose infrared sample is below
the threshold: `spo2` is what the decay makes of the value before, `pulse`
what the decay makes of the value that `readSensorData` leaves. -/
theorem loopSensorPass_absent_vitals (i : SensorInput) (s : State)
    (hir : i.ir % ULONG_MOD < FINGER_THRESHOLD) :
    (loopSensorPass i s).1.spo2 =
      (if usub i.now s.lastSensorReadTime ≥ 30 then absenceDecay i.now s else s).spo2 ∧
    (loopSensorPass i s).1.pulse =
      (if usub i.now s.lastSensorReadTime ≥ 30 then
        absenceDecay i.now (readSensorData i.beat i.t1 i.t2 s) else s).pulse := by
  obtain ⟨popen, pclosed⟩ := loopSensorPass_absent i s hir
  by_cases hgate : usub i.now s.lastSensorReadTime ≥ 30
  · rw [popen hgate, if_pos hgate, if_pos hgate]
    obtain ⟨f1, _, f3, _⟩ := readSensorData_frame i.beat i.t1 i.t2
      { s with irValue := i.ir % ULONG_MOD, fingerPresent := false, beatDetected := false,
               lastSensorReadTime := i.now % ULONG_MOD }
    obtain ⟨g1, _, g3, _⟩ := readSensorData_frame i.beat i.t1 i.t2 s
    have hpl := readSensorData_pulse_congr i.beat i.t1 i.t2
      { s with irValue := i.ir % ULONG_MOD, fingerPresent := false, beatDetected := false,
               lastSensorReadTime := i.now % ULONG_MOD } s rfl rfl
    constructor
    · exact absenceDecay_spo2_congr i.now _ s f3 f1
    · exact absenceDecay_pulse_congr i.now _ _ (by rw [f3, g3]) hpl
  · rw [pclosed hgate, if_neg hgate, if_neg hgate]
    exact ⟨rfl, rfl⟩

/-- C26 (counterexample): no finger is on the sensor and the last decay step
was 300 ms ago, so no decay step is due; the pass sees the infrared sample
1200, below the threshold, and the beat detector reports a beat 800 ms after
the last one.  `readSensorData` runs before the finger test and accepts the
beat: the pulse goes from 72 to 75 and `beatDetected` is set, although no
finger is present and no decay step was taken. -/
theorem loopSensorPass_beat_without_finger :
    beatWithoutFinger.ir < FINGER_THRESHOLD ∧
    fingerLifted.fingerPresent = false ∧
    fingerLifted.pulse = 72 ∧
    usub beatWithoutFinger.now fingerLifted.lastValueDecayTime < 2000 ∧
    (loopSensorPass beatWithoutFinger fingerLifted).1.fingerPresent = false ∧
    (loopSensorPass beatWithoutFinger fingerLifted).1.lastValueDecayTime =
      fingerLifted.lastValueDecayTime ∧
    (loopSensorPass beatWithoutFinger fingerLifted).1.spo2 = fingerLifted.spo2 ∧
    (loopSensorPass beatWithoutFinger fingerLifted).1.pulse = 75 ∧
    (loopSensorPass beatWithoutFinger fingerLifted).1.beatDetected = true := by
  decide

/-- C26 (amended): an absence-decay step, taken when at least 2000 ms have
passed since the previous one, sets `pulse` to `max(pulse - 1, 0)` and `spo2`
to `max(spo2 - 1, 0)` and clears `beatDetected`; with the gate closed the
decay changes nothing, and the gate stays closed for the 2000 ms that follow a
step.  Neither value becomes negative, and neither is negative on any run from
the initial state.  On a pass without finger the sensor part changes `spo2` by
the decay only, so between decay steps `spo2` is unchanged; `pulse` is what
the decay makes of the value that `readSensorData` leaves, so between decay
steps it is unchanged on the passes on which the beat detector reports no
beat, and is the value of `readSensorData` on the others. -/
theorem absenceDecay_step (now : Nat) (s : State) (hp : 0 ≤ s.pulse) (hs : 0 ≤ s.spo2) :
    (usub now s.lastValueDecayTime ≥ 2000 →
      (absenceDecay now s).pulse = max (s.pulse - 1) 0 ∧
      (absenceDecay now s).spo2 = max (s.spo2 - 1) 0 ∧
      (absenceDecay now s).beatDetected = false ∧
      (absenceDecay now s).lastValueDecayTime = now % ULONG_MOD ∧
      (∀ later : Nat, usub later (now % ULONG_MOD) < 2000 →
        absenceDecay later (absenceDecay now s) = absenceDecay now s)) ∧
    (usub now s.lastValueDecayTime < 2000 → absenceDecay now s = s) ∧
    0 ≤ (absenceDecay now s).pulse ∧ 0 ≤ (absenceDecay now s).spo2 ∧
    (∀ ops : List VitalsOp,
      0 ≤ (runVitals ops State.init).pulse ∧ 0 ≤ (runVitals ops State.init).spo2) ∧
    (∀ i : SensorInput, i.ir % ULONG_MOD < FINGER_THRESHOLD → i.now = now →
      (loopSensorPass i s).1.spo2 =
        (if usub now s.lastSensorReadTime ≥ 30 then absenceDecay now s else s).spo2 ∧
      (loopSensorPass i s).1.pulse =
        (if usub now s.lastSensorReadTime ≥ 30 then
          absenceDecay now (readSensorData i.beat i.t1 i.t2 s) else s).pulse ∧
      (i.beat = false →
        (loopSensorPass i s).1.pulse =
          (if usub now s.lastSensorReadTime ≥ 30 then absenceDecay now s else s).pulse) ∧
      (usub now s.lastValueDecayTime < 2000 →
        (loopSensorPass i s).1.spo2 = s.spo2 ∧
        (loopSensorPass i s).1.pulse =
          (if usub now s.lastSensorReadTime ≥ 30 then
            readSensorData i.beat i.t1 i.t2 s else s).pulse ∧
        (i.beat = false → (loopSensorPass i s).1.pulse = s.pulse))) := by
  obtain ⟨dopen, dclosed⟩ := absenceDecay_eq now s
  have hmaxp : (if s.pulse > 0 then s.pulse - 1 else s.pulse) = max (s.pulse - 1) 0 := by
    split_ifs with c
    · have c2 : s.pulse > 0 := c
      rw [max_eq_left (by omega)]
    · have c2 : ¬ s.pulse > 0 := c
      have : s.pulse = 0 := by omega
      rw [this]
      rfl
  have hmaxs : (if s.spo2 > 0 then s.spo2 - 1 else s.spo2) = max (s.spo2 - 1) 0 := by
    split_ifs with c
    · have c2 : s.spo2 > 0 := c
      rw [max_eq_left (by omega)]
    · have c2 : ¬ s.spo2 > 0 := c
      have : s.spo2 = 0 := by omega
      rw [this]
      rfl
  refine ⟨?_, ?_, ?_, ?_, runVitals_nonneg, ?_⟩
  · intro hg
    rw [dopen hg]
    refine ⟨hmaxp, hmaxs, rfl, rfl, ?_⟩
    intro later hl
    have hl2 : ¬ usub later (now % ULONG_MOD) ≥ 2000 := by omega
    exact (absenceDecay_eq later _).2 hl2
  · intro hg
    exact dclosed (by omega)
  · by_cases hg : usub now s.lastValueDecayTime ≥ 2000
    · rw [dopen hg]
      show 0 ≤ (if s.pulse > 0 then s.pulse - 1 else s.pulse)
      rw [hmaxp]
      exact le_max_right _ _
    · rw [dclosed hg]
      exact hp
  · by_cases hg : usub now s.lastValueDecayTime ≥ 2000
    · rw [dopen hg]
      show 0 ≤ (if s.spo2 > 0 then s.spo2 - 1 else s.spo2)
      rw [hmaxs]
      exact le_max_right _ _
    · rw [dclosed hg]
      exact hs
  · intro i hir hnow
    obtain ⟨v1, v2⟩ := loopSensorPass_absent_vitals i s hir
    rw [hnow] at v1 v2
    have v3 : i.beat = false →
        (loopSensorPass i s).1.pulse =
          (if usub now s.lastSensorReadTime ≥ 30 then absenceDecay now s else s).pulse := by
      intro hb
      rw [v2, hb, readSensorData_no_beat]
    refine ⟨v1, v2, v3, ?_⟩
    intro hclosed
    have hs2 : absenceDecay now s = s := dclosed (by omega)
    have hr3 := (readSensorData_frame i.beat i.t1 i.t2 s).2.2.1
    have hr2 : absenceDecay now (readSensorData i.beat i.t1 i.t2 s) =
        readSensorData i.beat i.t1 i.t2 s :=
      (absenceDecay_eq now _).2 (by rw [hr3]; omega)
    refine ⟨?_, ?_, ?_⟩
    · rw [v1, hs2]
      split_ifs <;> rfl
    · rw [v2, hr2]
    · intro hb
      rw [v3 hb, hs2]
      split_ifs <;> rfl

/-- C26 witness: from pulse 72 and spo2 97 a decay step gives 71 and 96; from
pulse 0 a step leaves 0; on a pass without finger between two decay steps a
reported beat moves the pulse from 72 to 75 while `spo2` stays 97. -/
theorem absenceDecay_step_witness :
    (absenceDecay 102040 halfFilled).pulse = 71 ∧
    (absenceDecay 102040 halfFilled).spo2 = 96 ∧
    (absenceDecay 5000 State.init).pulse = 0 ∧
    (loopSensorPass beatWithoutFinger fingerLifted).1.spo2 = 97 ∧
    (loopSensorPass beatWithoutFinger fingerLifted).1.pulse = 75 :=
  ⟨(((absenceDecay_step 102040 halfFilled (by decide) (by decide)).1 (by decide)).1).trans
      (by decide),
   (((absenceDecay_step 102040 halfFilled (by decide) (by decide)).1 (by decide)).2.1).trans
      (by decide),
   (((absenceDecay_step 5000 State.init (by decide) (by decide)).1 (by decide)).1).trans
      (by decide),
   ((((absenceDecay_step 100300 fingerLifted (by decide) (by decide)).2.2.2.2.2
      beatWithoutFinger (by decide) (by decide)).2.2.2 (by decide)).1).trans (by decide),
   ((((absenceDecay_step 100300 fingerLifted (by decide) (by decide)).2.2.2.2.2
      beatWithoutFinger (by decide) (by decide)).2.2.2 (by decide)).2.1).trans (by decide)⟩

/-! ## Which operations clear a triggered alarm -/

/-- The finger poll does not touch `alarmTriggered`. -/
theorem checkFingerPresence_alarm (ir : Nat) (s : State) :
    (checkFingerPresence ir s).alarmTriggered = s.alarmTriggered := by
  unfold checkFingerPresence
  dsimp only
  split_ifs <;> rfl

/-- The beat reading does not touch `alarmTriggered`. -/
theorem readSensorData_alarm (b : Bool) (t1 t2 : Nat) (s : State) :
    (readSensorData b t1 t2 s).alarmTriggered = s.alarmTriggered :=
  (readSensorData_frame b t1 t2 s).2.2.2.2.1

/-- The SpO2 step does not touch `alarmTriggered`. -/
theorem calculateSpO2_alarm (res : SpO2Result) (now red : Nat) (s : State) :
    (calculateSpO2 res now red s).1.alarmTriggered = s.alarmTriggered := by
  unfold calculateSpO2
  dsimp only
  split_ifs <;> rfl

/-- The absence decay does not touch `alarmTriggered`. -/
theorem absenceDecay_alarm (now : Nat) (s : State) :
    (absenceDecay now s).alarmTriggered = s.alarmTriggered := by
  unfold absenceDecay
  dsimp only
  split_ifs <;> rfl

/-- Recording the vitals does not touch `alarmTriggered`. -/
theorem addPulseRecord_alarm (pv sv : Int) (now : Nat) (s : State) :
    (addPulseRecord pv sv now s).alarmTriggered = s.alarmTriggered := by
  unfold addPulseRecord
  dsimp only
  split_ifs <;> rfl

/-- The sensor part of a pass does not touch `alarmTriggered`. -/
theorem loopSensorPass_alarm (i : SensorInput) (s : State) :
    (loopSensorPass i s).1.alarmTriggered = s.alarmTriggered := by
  unfold loopSensorPass
  dsimp only
  split_ifs <;>
    simp only [addPulseRecord_alarm, calculateSpO2_alarm, absenceDecay_alarm,
      readSensorData_alarm, checkFingerPresence_alarm]

/-- The clock task keeps a triggered alarm triggered. -/
theorem loopClockTask_keeps_triggered (now t1 t2 : Nat) (s : State)
    (h : s.alarmTriggered = true) : (loopClockTask now t1 t2 s).alarmTriggered = true := by
  unfold loopClockTask
  split_ifs
  · unfold clockTick
    apply checkAlarmState_keeps_triggered
    rw [(clockSecondUpdate_alarm _).1]
    exact h
  · exact h

/-- Setting the time does not touch `alarmTriggered`. -/
theorem handleSetTime_alarm (hArg mArg : Option Int) (now : Nat) (s : State) :
    (handleSetTime hArg mArg now s).1.alarmTriggered = s.alarmTriggered := by
  unfold handleSetTime
  cases hArg <;> cases mArg <;> try rfl
  dsimp only
  split_ifs <;> rfl

/-- Logging in does not touch `alarmTriggered`. -/
theorem handleLogin_alarm (u p : Option String) (s : State) :
    (handleLogin u p s).1.alarmTriggered = s.alarmTriggered := by
  unfold handleLogin
  cases u <;> cases p <;> try rfl
  dsimp only
  split_ifs <;> rfl

/-- Registering does not touch `alarmTriggered`. -/
theorem handleRegister_alarm (u p : Option String) (s : State) :
    (handleRegister u p s).1.alarmTriggered = s.alarmTriggered := by
  cases u with
  | none => rfl
  | some name =>
    cases p with
    | none => rfl
    | some pw =>
      cases hb : (addUser name pw s).2
      · rw [(addUser_false_unchanged name pw s hb).2]
      · obtain ⟨_, _, hst⟩ := addUser_success name pw s hb
        have e : (handleRegister (some name) (some pw) s).1.alarmTriggered =
            (addUser name pw s).1.alarmTriggered := by
          unfold handleRegister
          rcases hres : addUser name pw s with ⟨s1, b⟩
          rw [hres] at hb
          simp only at hb
          subst hb
          simp only [hres]
        rw [e, hst]

/-- Setting the sleep window does not touch `alarmTriggered`. -/
theorem handleSetSleep_alarm (a b c d : Option Int) (s : State) :
    (handleSetSleep a b c d s).1.alarmTriggered = s.alarmTriggered := by
  unfold handleSetSleep
  split_ifs <;> rfl

/-- Deleting an account does not touch `alarmTriggered`. -/
theorem handleDeleteUser_alarm (id : Option Int) (s : State) :
    (handleDeleteUser id s).1.alarmTriggered = s.alarmTriggered := by
  unfold handleDeleteUser
  split_ifs
  · rfl
  · cases id with
    | none => rfl
    | some userId =>
      dsimp only
      split_ifs <;> rfl

/-- The bedtime part of a notification poll changes at most its flag. -/
theorem bedtimeStage_frame (user : User) (h m : Int) (s : State) :
    ∃ b : Bool, (bedtimeStage user h m s).1 = { s with sleepNotificationShown := b } := by
  unfold bedtimeStage
  dsimp only
  split_ifs
  · exact ⟨false, rfl⟩
  · exact ⟨true, rfl⟩
  · exact ⟨false, rfl⟩
  · exact ⟨s.sleepNotificationShown, rfl⟩

/-- A notification poll does not touch `alarmTriggered`. -/
theorem checkSleepNotifications_alarm (now : Nat) (s : State) :
    (checkSleepNotifications now s).1.alarmTriggered = s.alarmTriggered := by
  unfold checkSleepNotifications
  split_ifs
  · rfl
  · dsimp only
    obtain ⟨b, hb⟩ := bedtimeStage_frame (s.user s.currentUserIndex) (notifHour now s)
      (notifMinute now s) s
    obtain ⟨w, hw⟩ := wakeupStage_frame (s.user s.currentUserIndex) (notifHour now s)
      (notifMinute now s)
      (bedtimeStage (s.user s.currentUserIndex) (notifHour now s) (notifMinute now s) s).1
    rw [hw, hb]

/-- The motivational message does not touch `alarmTriggered`. -/
theorem showMotivationalMessage_alarm (now : Nat) (s : State) :
    (showMotivationalMessage now s).alarmTriggered = s.alarmTriggered := by
  unfold showMotivationalMessage
  split_ifs <;> rfl

/-- C27 (counterexample): the alarm of `triggeredAt0730` is triggered; a valid
`handleSetAlarm` (06:00) clears `alarmTriggered`, and so does `handleLogout`,
neither being `handleClearAlarm`. -/
theorem triggered_cleared_without_clearAlarm :
    triggeredAt0730.alarmTriggered = true ∧
    (SysOp.step (.setAlarm (some 6) (some 0)) triggeredAt0730).alarmTriggered = false ∧
    (SysOp.step .logout triggeredAt0730).alarmTriggered = false := by
  decide

/-- C27 (amended): across every operation of the system, `alarmTriggered`
changes from true to false only in `handleClearAlarm`, in a `handleSetAlarm`
with a valid time (which re-arms the alarm) and in `handleLogout`, and each of
these three clears it; the clock tick with its alarm check, `handleSetTime`,
a rejected `handleSetAlarm`, login, registration, the sleep window, deletion,
the sensor part of a pass and the notification polls leave a triggered alarm
triggered. -/
theorem triggered_cleared_only_by_reset (op : SysOp) (s : State)
    (ht : s.alarmTriggered = true) :
    ((op.step s).alarmTriggered = false ↔ op.resetsAlarm) := by
  have keep : ∀ st : State, st.alarmTriggered = s.alarmTriggered →
      (st.alarmTriggered = false ↔ False) := by
    intro st e
    rw [e, ht]
    simp
  cases op with
  | clockTask now t1 t2 =>
    show (loopClockTask now t1 t2 s).alarmTriggered = false ↔ False
    rw [loopClockTask_keeps_triggered now t1 t2 s ht]
    simp
  | setTime h m now => exact keep _ (handleSetTime_alarm h m now s)
  | setAlarm h m =>
    cases h with
    | none => exact keep _ rfl
    | some hv =>
      cases m with
      | none => exact keep _ rfl
      | some mv =>
        show (handleSetAlarm (some hv) (some mv) s).1.alarmTriggered = false ↔
          (0 ≤ hv ∧ hv < 24 ∧ 0 ≤ mv ∧ mv < 60)
        by_cases hval : hv ≥ 0 ∧ hv < 24 ∧ mv ≥ 0 ∧ mv < 60
        · have e : (handleSetAlarm (some hv) (some mv) s).1.alarmTriggered = false := by
            simp only [handleSetAlarm, if_pos hval]
          exact ⟨fun _ => hval, fun _ => e⟩
        · have e : (handleSetAlarm (some hv) (some mv) s).1 = s := by
            simp only [handleSetAlarm, if_neg hval]
          rw [e, ht]
          constructor
          · intro h2
            simp at h2
          · intro h2
            exact absurd h2 hval
  | clearAlarm => exact ⟨fun _ => trivial, fun _ => rfl⟩
  | login u p => exact keep _ (handleLogin_alarm u p s)
  | register u p => exact keep _ (handleRegister_alarm u p s)
  | logout => exact ⟨fun _ => trivial, fun _ => rfl⟩
  | setSleep a b c d => exact keep _ (handleSetSleep_alarm a b c d s)
  | deleteUser id => exact keep _ (handleDeleteUser_alarm id s)
  | sensorPass i => exact keep _ (loopSensorPass_alarm i s)
  | notificationPoll now => exact keep _ (checkSleepNotifications_alarm now s)
  | motivational now => exact keep _ (showMotivationalMessage_alarm now s)

/-- C27 witness: on the triggered alarm a clock task keeps it triggered, since
a clock task is not one of the three resetting operations. -/
theorem triggered_cleared_only_by_reset_witness :
    (SysOp.step (.clockTask 61000 61000 61000) triggeredAt0730).alarmTriggered = true :=
  Bool.of_not_eq_false
    (fun h => (triggered_cleared_only_by_reset (.clockTask 61000 61000 61000) triggeredAt0730
      (by decide)).mp h)

/-! ## The counted clock and the time base -/

/-- Subtracting from `a` what `a - x` gave returns `x` (modulo `2 ^ 32`). -/
theorem usub_usub (a x : Nat) : usub a (usub a x) = x % ULONG_MOD := by
  unfold usub ULONG_MOD
  omega

/-- The clock task never writes the time base, and advances the clock fields
by exactly one clock-second update when its gate is open. -/
theorem loopClockTask_clock (now t1 t2 : Nat) (s : State) :
    (loopClockTask now t1 t2 s).timeBase = s.timeBase ∧
    (usub now s.lastSecondCheck ≥ 1000 →
      (loopClockTask now t1 t2 s).hours = (clockSecondUpdate s).hours ∧
      (loopClockTask now t1 t2 s).minutes = (clockSecondUpdate s).minutes ∧
      (loopClockTask now t1 t2 s).seconds = (clockSecondUpdate s).seconds) ∧
    (¬ usub now s.lastSecondCheck ≥ 1000 → loopClockTask now t1 t2 s = s) := by
  have hupd : ∀ st : State,
      (clockSecondUpdate st).timeBase = st.timeBase := by
    intro st
    unfold clockSecondUpdate
    dsimp only
    split_ifs <;> rfl
  have hchk : ∀ st : State, (checkAlarmState t1 t2 st).timeBase = st.timeBase := by
    intro st
    unfold checkAlarmState
    split_ifs <;> rfl
  have hsame : (clockSecondUpdate { s with lastSecondCheck := now % ULONG_MOD }).hours =
        (clockSecondUpdate s).hours ∧
      (clockSecondUpdate { s with lastSecondCheck := now % ULONG_MOD }).minutes =
        (clockSecondUpdate s).minutes ∧
      (clockSecondUpdate { s with lastSecondCheck := now % ULONG_MOD }).seconds =
        (clockSecondUpdate s).seconds := by
    unfold clockSecondUpdate
    dsimp only
    split_ifs <;> exact ⟨rfl, rfl, rfl⟩
  refine ⟨?_, ?_, ?_⟩
  · unfold loopClockTask
    split_ifs
    · unfold clockTick
      rw [hchk, hupd]
    · rfl
  · intro hg
    obtain ⟨c1, c2, c3⟩ := checkAlarmState_clock t1 t2
      (clockSecondUpdate { s with lastSecondCheck := now % ULONG_MOD })
    unfold loopClockTask
    rw [if_pos hg]
    unfold clockTick
    rw [c1, c2, c3]
    exact hsame
  · intro hg
    unfold loopClockTask
    rw [if_neg hg]

/-- C28 (counterexample): the clock task ran at 10000 ms and the time was set
to 07:30 at 10500 ms; on the pass at 11000 ms the clock task counts a second
(`seconds = 1`) although only 500 ms passed since the time was set, so the
value recomputed from `millis() - timeBase` is 0.  Already the first clock
task after boot, at 10000 ms, counts `seconds = 1` where the recomputed value
is 10. -/
theorem clock_differs_from_timeBase :
    (loopClockTask 11000 11000 11000 timeSetAt10500).seconds = 1 ∧
    (usub 11000 (loopClockTask 11000 11000 11000 timeSetAt10500).timeBase / 1000) % 60 = 0 ∧
    ¬ ((loopClockTask 11000 11000 11000 timeSetAt10500).seconds =
        (((usub 11000 (loopClockTask 11000 11000 11000 timeSetAt10500).timeBase / 1000) % 60
          : Nat) : Int)) ∧
    (loopClockTask 10000 10000 10000 State.init).seconds = 1 ∧
    (usub 10000 (loopClockTask 10000 10000 10000 State.init).timeBase / 1000) % 60 = 10 := by
  decide

/-- C28 (amended): right after a valid `handleSetTime(h, m)` the clock fields
equal the values recomputed from `t = millis() - timeBase`, namely
`hours = (t / 3600000) mod 24`, `minutes = (t / 60000) mod 60`,
`seconds = (t / 1000) mod 60`, and so agree with the time that the sleep
notifications derive.  Afterwards the clock fields are not recomputed from
`t`: the clock task leaves `timeBase` alone and advances the fields by one
clock-second update on each pass whose 1000 ms gate is open. -/
theorem handleSetTime_agrees (h m : Int) (now : Nat) (s : State)
    (hv : 0 ≤ h ∧ h < 24 ∧ 0 ≤ m ∧ m < 60) :
    (handleSetTime (some h) (some m) now s).1.hours =
      (((usub now (handleSetTime (some h) (some m) now s).1.timeBase / 3600000) % 24 : Nat)
        : Int) ∧
    (handleSetTime (some h) (some m) now s).1.minutes =
      (((usub now (handleSetTime (some h) (some m) now s).1.timeBase / 60000) % 60 : Nat)
        : Int) ∧
    (handleSetTime (some h) (some m) now s).1.seconds =
      (((usub now (handleSetTime (some h) (some m) now s).1.timeBase / 1000) % 60 : Nat)
        : Int) ∧
    notifHour now (handleSetTime (some h) (some m) now s).1 =
      (handleSetTime (some h) (some m) now s).1.hours ∧
    notifMinute now (handleSetTime (some h) (some m) now s).1 =
      (handleSetTime (some h) (some m) now s).1.minutes ∧
    (∀ (later t1 t2 : Nat) (st : State),
      (loopClockTask later t1 t2 st).timeBase = st.timeBase ∧
      (usub later st.lastSecondCheck ≥ 1000 →
        (loopClockTask later t1 t2 st).hours = (clockSecondUpdate st).hours ∧
        (loopClockTask later t1 t2 st).minutes = (clockSecondUpdate st).minutes ∧
        (loopClockTask later t1 t2 st).seconds = (clockSecondUpdate st).seconds) ∧
      (¬ usub later st.lastSecondCheck ≥ 1000 → loopClockTask later t1 t2 st = st)) := by
  have hv2 : h ≥ 0 ∧ h < 24 ∧ m ≥ 0 ∧ m < 60 := hv
  have e : (handleSetTime (some h) (some m) now s).1 =
      { s with hours := h, minutes := m, seconds := 0,
               timeBase := usub now (h.toNat * 3600000 + m.toNat * 60000) } := by
    simp only [handleSetTime, if_pos hv2]
  obtain ⟨h0, h1, m0, m1⟩ := hv
  have hx : (h.toNat * 3600000 + m.toNat * 60000) % ULONG_MOD =
      h.toNat * 3600000 + m.toNat * 60000 := by
    unfold ULONG_MOD
    omega
  have ht : usub now (usub now (h.toNat * 3600000 + m.toNat * 60000)) =
      h.toNat * 3600000 + m.toNat * 60000 := by
    rw [usub_usub, hx]
  have k1 : (((h.toNat * 3600000 + m.toNat * 60000) / 3600000 % 24 : Nat) : Int) = h := by
    omega
  have k2 : (((h.toNat * 3600000 + m.toNat * 60000) / 60000 % 60 : Nat) : Int) = m := by
    omega
  have k3 : (((h.toNat * 3600000 + m.toNat * 60000) / 1000 % 60 : Nat) : Int) = 0 := by
    omega
  rw [e]
  refine ⟨?_, ?_, ?_, ?_, ?_, fun later t1 t2 st => loopClockTask_clock later t1 t2 st⟩
  · show h = _
    rw [ht, k1]
  · show m = _
    rw [ht, k2]
  · show (0 : Int) = _
    rw [ht, k3]
  · show (((usub now (usub now (h.toNat * 3600000 + m.toNat * 60000)) / 3600000 % 24 : Nat)
      : Int)) = h
    rw [ht, k1]
  · show (((usub now (usub now (h.toNat * 3600000 + m.toNat * 60000)) / 60000 % 60 : Nat)
      : Int)) = m
    rw [ht, k2]

/-- C28 witness: the time set to 07:30 at 10500 ms. -/
theorem handleSetTime_agrees_witness :
    notifHour 10500 (handleSetTime (some 7) (some 30) 10500 State.init).1 = 7 ∧
    notifMinute 10500 (handleSetTime (some 7) (some 30) 10500 State.init).1 = 30 :=
  ⟨((handleSetTime_agrees 7 30 10500 State.init (by decide)).2.2.2.1).trans (by decide),
   ((handleSetTime_agrees 7 30 10500 State.init (by decide)).2.2.2.2.1).trans (by decide)⟩

/-! ## An armed alarm is reached within a day, whatever else runs -/

/-- The finger poll does not touch the variables of the alarm engine. -/
theorem checkFingerPresence_alarmView (ir : Nat) (s : State) :
    alarmView (checkFingerPresence ir s) = alarmView s := by
  unfold checkFingerPresence
  dsimp only
  split_ifs <;> rfl

/-- The beat reading does not touch the variables of the alarm engine. -/
theorem readSensorData_alarmView (b : Bool) (t1 t2 : Nat) (s : State) :
    alarmView (readSensorData b t1 t2 s) = alarmView s := by
  unfold readSensorData
  dsimp only
  split_ifs <;> rfl

/-- The SpO2 step does not touch the variables of the alarm engine. -/
theorem calculateSpO2_alarmView (res : SpO2Result) (now red : Nat) (s : State) :
    alarmView (calculateSpO2 res now red s).1 = alarmView s := by
  unfold calculateSpO2
  dsimp only
  split_ifs <;> rfl

/-- The absence decay does not touch the variables of the alarm engine. -/
theorem absenceDecay_alarmView (now : Nat) (s : State) :
    alarmView (absenceDecay now s) = alarmView s := by
  unfold absenceDecay
  dsimp only
  split_ifs <;> rfl

/-- Recording the vitals does not touch the variables of the alarm engine. -/
theorem addPulseRecord_alarmView (pv sv : Int) (now : Nat) (s : State) :
    alarmView (addPulseRecord pv sv now s) = alarmView s := by
  unfold addPulseRecord
  dsimp only
  split_ifs <;> rfl

/-- The sensor part of a pass does not touch the variables of the alarm
engine. -/
theorem loopSensorPass_alarmView (i : SensorInput) (s : State) :
    alarmView (loopSensorPass i s).1 = alarmView s := by
  have h1 := checkFingerPresence_alarmView i.ir s
  have h2 := readSensorData_alarmView i.beat i.t1 i.t2
    { checkFingerPresence i.ir s with lastSensorReadTime := i.now % ULONG_MOD }
  have h3 := calculateSpO2_alarmView i.res i.tS i.red
    (readSensorData i.beat i.t1 i.t2
      { checkFingerPresence i.ir s with lastSensorReadTime := i.now % ULONG_MOD })
  have h4 := absenceDecay_alarmView i.now
    (readSensorData i.beat i.t1 i.t2
      { checkFingerPresence i.ir s with lastSensorReadTime := i.now % ULONG_MOD })
  have h12 : alarmView (readSensorData i.beat i.t1 i.t2
      { checkFingerPresence i.ir s with lastSensorReadTime := i.now % ULONG_MOD }) =
      alarmView s := h2.trans h1
  unfold loopSensorPass
  dsimp only
  split_ifs
  · exact (addPulseRecord_alarmView _ _ i.tR _).trans (h3.trans h12)
  · exact h3.trans h12
  · exact h3.trans h12
  · exact h4.trans h12
  · exact h1

/-- Logging in does not touch the variables of the alarm engine. -/
theorem handleLogin_alarmView (u p : Option String) (s : State) :
    alarmView (handleLogin u p s).1 = alarmView s := by
  unfold handleLogin
  cases u <;> cases p <;> try rfl
  dsimp only
  split_ifs <;> rfl

/-- Registering does not touch the variables of the alarm engine. -/
theorem handleRegister_alarmView (u p : Option String) (s : State) :
    alarmView (handleRegister u p s).1 = alarmView s := by
  cases u with
  | none => rfl
  | some name =>
    cases p with
    | none => rfl
    | some pw =>
      cases hb : (addUser name pw s).2
      · rw [(addUser_false_unchanged name pw s hb).2]
      · obtain ⟨_, _, hst⟩ := addUser_success name pw s hb
        have e : alarmView (handleRegister (some name) (some pw) s).1 =
            alarmView (addUser name pw s).1 := by
          unfold handleRegister
          rcases hres : addUser name pw s with ⟨s1, b⟩
          rw [hres] at hb
          simp only at hb
          subst hb
          simp only [hres, alarmView]
        rw [e, hst]
        rfl

/-- Setting the sleep window does not touch the variables of the alarm
engine. -/
theorem handleSetSleep_alarmView (a b c d : Option Int) (s : State) :
    alarmView (handleSetSleep a b c d s).1 = alarmView s := by
  unfold handleSetSleep
  split_ifs <;> rfl

/-- Deleting an account does not touch the variables of the alarm engine. -/
theorem handleDeleteUser_alarmView (id : Option Int) (s : State) :
    alarmView (handleDeleteUser id s).1 = alarmView s := by
  unfold handleDeleteUser
  split_ifs
  · rfl
  · cases id with
    | none => rfl
    | some userId =>
      dsimp only
      split_ifs <;> rfl

/-- A notification poll does not touch the variables of the alarm engine. -/
theorem checkSleepNotifications_alarmView (now : Nat) (s : State) :
    alarmView (checkSleepNotifications now s).1 = alarmView s := by
  unfold checkSleepNotifications
  split_ifs
  · rfl
  · dsimp only
    obtain ⟨b, hb⟩ := bedtimeStage_frame (s.user s.currentUserIndex) (notifHour now s)
      (notifMinute now s) s
    obtain ⟨w, hw⟩ := wakeupStage_frame (s.user s.currentUserIndex) (notifHour now s)
      (notifMinute now s)
      (bedtimeStage (s.user s.currentUserIndex) (notifHour now s) (notifMinute now s) s).1
    rw [hw, hb]
    rfl

/-- The motivational message does not touch the variables of the alarm
engine. -/
theorem showMotivationalMessage_alarmView (now : Nat) (s : State) :
    alarmView (showMotivationalMessage now s) = alarmView s := by
  unfold showMotivationalMessage
  split_ifs <;> rfl

/-- An operation that is none of the four intervening requests and performs no
clock-second update leaves the clock fields, the armed target and
`alarmTriggered` as they are. -/
theorem SysOp.step_alarmView (op : SysOp) (s : State)
    (hi : op.intervenes = false) (ht : op.ticks s = false) :
    alarmView (op.step s) = alarmView s := by
  cases op with
  | clockTask now t1 t2 =>
    have hg : ¬ usub now s.lastSecondCheck ≥ 1000 := by
      intro hg
      have : SysOp.ticks (.clockTask now t1 t2) s = true := decide_eq_true hg
      rw [this] at ht
      exact Bool.noConfusion ht
    show alarmView (loopClockTask now t1 t2 s) = alarmView s
    unfold loopClockTask
    rw [if_neg hg]
  | setTime h m now => exact Bool.noConfusion hi
  | setAlarm h m => exact Bool.noConfusion hi
  | clearAlarm => exact Bool.noConfusion hi
  | login u p => exact handleLogin_alarmView u p s
  | register u p => exact handleRegister_alarmView u p s
  | logout => exact Bool.noConfusion hi
  | setSleep a b c d => exact handleSetSleep_alarmView a b c d s
  | deleteUser id => exact handleDeleteUser_alarmView id s
  | sensorPass i => exact loopSensorPass_alarmView i s
  | notificationPoll now => exact checkSleepNotifications_alarmView now s
  | motivational now => exact showMotivationalMessage_alarmView now s

/-- An operation that performs a clock-second update is a clock task whose
gate is open: it stores the reading and runs one clock tick. -/
theorem SysOp.step_tick (op : SysOp) (s : State) (ht : op.ticks s = true) :
    ∃ now t1 t2 : Nat,
      op.step s = clockTick t1 t2 { s with lastSecondCheck := now % ULONG_MOD } := by
  cases op with
  | clockTask now t1 t2 =>
    have hg : usub now s.lastSecondCheck ≥ 1000 := of_decide_eq_true ht
    refine ⟨now, t1, t2, ?_⟩
    show loopClockTask now t1 t2 s = _
    unfold loopClockTask
    rw [if_pos hg]
  | setTime h m now => exact Bool.noConfusion ht
  | setAlarm h m => exact Bool.noConfusion ht
  | clearAlarm => exact Bool.noConfusion ht
  | login u p => exact Bool.noConfusion ht
  | register u p => exact Bool.noConfusion ht
  | logout => exact Bool.noConfusion ht
  | setSleep a b c d => exact Bool.noConfusion ht
  | deleteUser id => exact Bool.noConfusion ht
  | sensorPass i => exact Bool.noConfusion ht
  | notificationPoll now => exact Bool.noConfusion ht
  | motivational now => exact Bool.noConfusion ht

/-- A clock tick keeps the armed target, keeps a triggered alarm triggered,
and fires the armed alarm when it brings a valid clock to `H:M:00`. -/
theorem clockTick_fires (t1 t2 : Nat) (s : State) (hv : ValidClock s)
    (hH0 : 0 ≤ s.alarmHour) (hM0 : 0 ≤ s.alarmMinute) (hM1 : s.alarmMinute < 60) :
    (clockTick t1 t2 s).alarmHour = s.alarmHour ∧
    (clockTick t1 t2 s).alarmMinute = s.alarmMinute ∧
    (s.alarmTriggered = true → (clockTick t1 t2 s).alarmTriggered = true) ∧
    ((secondOfDay s + 1) % 86400 = 3600 * s.alarmHour + 60 * s.alarmMinute →
      (clockTick t1 t2 s).alarmTriggered = true) := by
  obtain ⟨k1, k2⟩ := checkAlarmState_target t1 t2 (clockSecondUpdate s)
  obtain ⟨c1, c2, c3⟩ := clockSecondUpdate_alarm s
  obtain ⟨w1, w2⟩ := clockSecondUpdate_secondOfDay s hv
  have keep : s.alarmTriggered = true → (clockTick t1 t2 s).alarmTriggered = true := by
    intro h
    unfold clockTick
    exact checkAlarmState_keeps_triggered t1 t2 _ (by rw [c1]; exact h)
  refine ⟨?_, ?_, keep, ?_⟩
  · unfold clockTick
    rw [k1, c2]
  · unfold clockTick
    rw [k2, c3]
  · intro hT
    cases htr : s.alarmTriggered
    · have hnt2 : (clockSecondUpdate s).alarmTriggered = false := by
        rw [c1]; exact htr
      obtain ⟨f1, f2, f3⟩ := validClock_fields _ w1
      rw [w2, hT] at f1 f2 f3
      unfold clockTick
      apply (checkAlarmState_iff t1 t2 _ hnt2).mpr
      rw [c2, c3]
      refine ⟨hH0, ?_, ?_, ?_⟩
      · rw [f1]; omega
      · rw [f2]; omega
      · rw [f3]; omega
    · exact keep htr

/-- Over a run of operations without the four intervening requests a triggered
alarm stays triggered, and the alarm is triggered at the end when one of the
clock-second updates of the run has brought the clock to `H:M:00`. -/
theorem runOps_alarm (ops : List SysOp) :
    ∀ s : State, ValidClock s → 0 ≤ s.alarmHour → 0 ≤ s.alarmMinute → s.alarmMinute < 60 →
      (∀ op ∈ ops, SysOp.intervenes op = false) →
      (s.alarmTriggered = true → (runOps ops s).alarmTriggered = true) ∧
      (∀ k : Nat, 1 ≤ k → k ≤ tickCount ops s →
        (secondOfDay s + (k : Int)) % 86400 = 3600 * s.alarmHour + 60 * s.alarmMinute →
        (runOps ops s).alarmTriggered = true) := by
  induction ops with
  | nil =>
    intro s _ _ _ _ _
    refine ⟨fun h => h, fun k hk1 hk2 _ => ?_⟩
    have : tickCount [] s = 0 := rfl
    omega
  | cons op rest ih =>
    intro s hv hH0 hM0 hM1 hall
    have hop : SysOp.intervenes op = false := hall op (List.mem_cons_self _ _)
    have hrest : ∀ o ∈ rest, SysOp.intervenes o = false :=
      fun o ho => hall o (List.mem_cons_of_mem _ ho)
    have hrun : runOps (op :: rest) s = runOps rest (op.step s) := rfl
    rw [hrun]
    cases htick : op.ticks s
    · have hview := SysOp.step_alarmView op s hop htick
      unfold alarmView at hview
      simp only [Prod.mk.injEq] at hview
      obtain ⟨e1, e2, e3, e4, e5, e6⟩ := hview
      have hv2 : ValidClock (op.step s) := by
        unfold ValidClock at hv ⊢
        rw [e1, e2, e3]
        exact hv
      have hsod : secondOfDay (op.step s) = secondOfDay s := by
        unfold secondOfDay
        rw [e1, e2, e3]
      have htc : tickCount (op :: rest) s = tickCount rest (op.step s) := by
        show (if op.ticks s then 1 else 0) + tickCount rest (op.step s) = _
        rw [htick]
        simp
      obtain ⟨i1, i2⟩ := ih (op.step s) hv2 (by rw [e4]; exact hH0) (by rw [e5]; exact hM0)
        (by rw [e5]; exact hM1) hrest
      refine ⟨fun h => i1 (by rw [e6]; exact h), fun k hk1 hk2 hk3 => ?_⟩
      exact i2 k hk1 (by rw [← htc]; exact hk2) (by rw [hsod, e4, e5]; exact hk3)
    · obtain ⟨now, t1, t2, hstep⟩ := SysOp.step_tick op s htick
      have hv0 : ValidClock { s with lastSecondCheck := now % ULONG_MOD } := hv
      obtain ⟨a1, a2, a3, a4⟩ := clockTick_fires t1 t2
        { s with lastSecondCheck := now % ULONG_MOD } hv0 hH0 hM0 hM1
      obtain ⟨v1, v2⟩ := clockTick_secondOfDay t1 t2
        { s with lastSecondCheck := now % ULONG_MOD } hv0
      rw [← hstep] at a1 a2 a3 a4 v1 v2
      have b1 : (op.step s).alarmHour = s.alarmHour := a1
      have b2 : (op.step s).alarmMinute = s.alarmMinute := a2
      have b3 : s.alarmTriggered = true → (op.step s).alarmTriggered = true := a3
      have b4 : (secondOfDay s + 1) % 86400 = 3600 * s.alarmHour + 60 * s.alarmMinute →
          (op.step s).alarmTriggered = true := a4
      have b5 : secondOfDay (op.step s) = (secondOfDay s + 1) % 86400 := v2
      have htc : tickCount (op :: rest) s = 1 + tickCount rest (op.step s) := by
        show (if op.ticks s then 1 else 0) + tickCount rest (op.step s) = _
        rw [htick]
        simp
      obtain ⟨i1, i2⟩ := ih (op.step s) v1 (by rw [b1]; exact hH0) (by rw [b2]; exact hM0)
        (by rw [b2]; exact hM1) hrest
      refine ⟨fun h => i1 (b3 h), fun k hk1 hk2 hk3 => ?_⟩
      by_cases hk : k = 1
      · subst hk
        exact i1 (b4 hk3)
      · apply i2 (k - 1) (by omega) (by omega)
        rw [b5, b1, b2, ← hk3]
        omega

/-- C30: for every valid clock state and every alarm armed with a valid target
`(H, M)` and not yet triggered, there is an `n` with `1 <= n <= 86400` such
that `alarmTriggered` is true after every run of the system that contains no
`setTime`, `setAlarm`, `clearAlarm` or `logout` and performs at least `n`
clock-second updates (each followed by the alarm check), whatever logins,
registrations, deletions, sleep settings, sensor passes, notification polls
and clock tasks with a closed gate the run interleaves with them; in
particular after `n` clock ticks in a row.  The tick that brings the clock to
`H:M:00` fires the alarm if it has not fired before. -/
theorem alarm_fires_within_a_day (s : State) (hv : ValidClock s)
    (_hnt : s.alarmTriggered = false)
    (hH0 : 0 ≤ s.alarmHour) (hH1 : s.alarmHour < 24)
    (hM0 : 0 ≤ s.alarmMinute) (hM1 : s.alarmMinute < 60) :
    ∃ n : Nat, 1 ≤ n ∧ n ≤ 86400 ∧
      (∀ ops : List SysOp, (∀ op ∈ ops, SysOp.intervenes op = false) →
        n ≤ tickCount ops s → (runOps ops s).alarmTriggered = true) ∧
      (∀ ts : List (Nat × Nat), ts.length = n → (runTicks ts s).alarmTriggered = true) := by
  have hsod : 0 ≤ secondOfDay s ∧ secondOfDay s < 86400 := by
    unfold ValidClock at hv
    unfold secondOfDay
    omega
  refine ⟨((3600 * s.alarmHour + 60 * s.alarmMinute - secondOfDay s - 1) % 86400).toNat + 1,
    by omega, by omega, ?_, ?_⟩
  · intro ops hall hn
    apply (runOps_alarm ops s hv hH0 hM0 hM1 hall).2 _ (by omega) hn
    omega
  · intro ts hlen
    obtain ⟨init, t, hts, hinit⟩ := list_split_last ts _ hlen
    obtain ⟨t1, t2⟩ := t
    rw [hts, runTicks_append]
    show (clockTick t1 t2 (runTicks init s)).alarmTriggered = true
    obtain ⟨v1, v2⟩ := runTicks_secondOfDay init s hv
    obtain ⟨a1, a2⟩ := runTicks_target init s
    apply (clockTick_fires t1 t2 (runTicks init s) v1 (by rw [a1]; exact hH0)
      (by rw [a2]; exact hM0) (by rw [a2]; exact hM1)).2.2.2
    rw [v2, a1, a2, hinit]
    omega

/-- C30 witness: the alarm armed for 07:30 at 07:29:59. -/
theorem alarm_fires_within_a_day_witness :
    ∃ n : Nat, 1 ≤ n ∧ n ≤ 86400 ∧
      (∀ ops : List SysOp, (∀ op ∈ ops, SysOp.intervenes op = false) →
        n ≤ tickCount ops armedAt0730 → (runOps ops armedAt0730).alarmTriggered = true) ∧
      (∀ ts : List (Nat × Nat), ts.length = n →
        (runTicks ts armedAt0730).alarmTriggered = true) :=
  alarm_fires_within_a_day armedAt0730 (by decide) (by decide) (by decide) (by decide)
    (by decide) (by decide)

end HealthMonitor
